import Mathlib

/-!
Formal model of the mpd package (MPEG-DASH Media Presentation Description
codec, Go): parsing and generating of MPD XML files.

Modelling conventions:
- Go strings and byte buffers are modelled as `List Char`.
- Go `uint64` is modelled as `Nat` together with explicit `< 2^64` range
  checks where the Go standard library (`strconv.ParseUint`) performs them;
  `int64` is `Int` with explicit `[-2^63, 2^63)` range checks.
- Go pointer-typed optional fields (`*string`, `*uint64`, ...) are modelled
  as `Option`; `nil` is `none`.  Aliasing of pointers is irrelevant to the
  codec claims, which only read and build values; a separate explicit-heap
  model (`HeapState` below) is used where aliasing itself is the property.
- XML is modelled at two levels: an abstract element tree `XmlElem`
  (name, attributes, children, character data) for the structural claims,
  and a line-oriented text rendering mirroring `encoding/xml`'s
  `Encoder.Indent("", "  ")` output for the textual claims.  Namespace
  prefixes are kept as literal parts of names ("xmlns:cenc", "cenc:pssh");
  `encoding/xml` matches struct tags against the local part of a name, which
  is modelled by `localName` (the part after the first colon).
-/

namespace Mpd

/-! ## Decimal digits: model of strconv integer formatting/parsing -/

def twoP64 : Nat := 18446744073709551616

def twoP63 : Nat := 9223372036854775808

/-- Map a digit value (0..9) to its ASCII character. -/
def digitChar : Nat → Char
  | 0 => '0'
  | 1 => '1'
  | 2 => '2'
  | 3 => '3'
  | 4 => '4'
  | 5 => '5'
  | 6 => '6'
  | 7 => '7'
  | 8 => '8'
  | 9 => '9'
  | _ => '!'

/-- Map an ASCII digit character to its value; `none` on any other char
(strconv computes `c - '0'` and checks it is at most 9). -/
def charDigit (c : Char) : Option Nat :=
  if 48 ≤ c.toNat ∧ c.toNat ≤ 57 then some (c.toNat - 48) else none

/-- Little-endian base-10 digits of `n`, with explicit fuel so that the
kernel can evaluate it (fuel `n` is always enough). -/
def digitsAuxF : Nat → Nat → List Nat
  | 0, _ => []
  | _ + 1, 0 => []
  | f + 1, n + 1 => ((n + 1) % 10) :: digitsAuxF f ((n + 1) / 10)

def decDigits (n : Nat) : List Nat := digitsAuxF n n

/-- Model of Go `strconv.FormatUint(n, 10)`. -/
def formatUint (n : Nat) : List Char :=
  if n = 0 then ['0'] else (decDigits n).reverse.map digitChar

/-- Numeric value of a big-endian digit-value list. -/
def digitsVal (ds : List Nat) : Nat := ds.foldl (fun a d => a * 10 + d) 0

/-- Model of Go `strconv.ParseUint(s, 10, 64)`: accepts a nonempty string of
ASCII digits whose value fits in 64 bits, rejects everything else (sign
characters included). -/
def parseUint64 (s : List Char) : Option Nat :=
  if s.isEmpty then none
  else
    (s.mapM charDigit).bind fun ds =>
      if digitsVal ds < twoP64 then some (digitsVal ds) else none

/-- Model of Go `strconv.FormatBool`. -/
def formatBool (b : Bool) : List Char :=
  if b then ("true").data else ("false").data

/-- Model of Go `strconv.ParseBool`: accepts exactly
1, t, T, TRUE, true, True, 0, f, F, FALSE, false, False. -/
def parseBool (s : List Char) : Option Bool :=
  if s = ("1").data ∨ s = ("t").data ∨ s = ("T").data ∨ s = ("TRUE").data
      ∨ s = ("true").data ∨ s = ("True").data then some true
  else if s = ("0").data ∨ s = ("f").data ∨ s = ("F").data ∨ s = ("FALSE").data
      ∨ s = ("false").data ∨ s = ("False").data then some false
  else none

/-- Model of Go `strconv.FormatInt(i, 10)`. -/
def formatInt (i : Int) : List Char :=
  if i < 0 then '-' :: formatUint i.natAbs else formatUint i.natAbs

/-- Model of Go `strconv.ParseInt(s, 10, 64)`: an optional single sign
character followed by digits; the value must fit in a signed 64-bit
integer. -/
def parseInt64 (s : List Char) : Option Int :=
  match s with
  | [] => none
  | c :: rest =>
    if c = '-' then
      (parseUint64 rest).bind fun m =>
        if m ≤ twoP63 then some (-(m : Int)) else none
    else if c = '+' then
      (parseUint64 rest).bind fun m =>
        if m < twoP63 then some ((m : Int)) else none
    else
      (parseUint64 s).bind fun m =>
        if m < twoP63 then some ((m : Int)) else none

/-! ## ConditionalUint (mpd.go: union of unsignedInt and boolean) -/

/-- An XML attribute: qualified name and raw text value. -/
structure XAttr where
  name : List Char
  value : List Char
deriving DecidableEq

/-- Decode failure, carrying the offending attribute (mpd.go wraps the whole
`xml.Attr` into the error message via `%#v`). -/
structure ParseError where
  attrName : List Char
  attrValue : List Char
deriving DecidableEq

/-- ConditionalUint (ConditionalUintType) defined in XSD as a union of
unsignedInt and boolean (mpd.go lines 20-23). -/
structure ConditionalUint where
  u : Option Nat
  b : Option Bool
deriving DecidableEq

/-- MarshalXMLAttr encodes ConditionalUint (mpd.go lines 26-37).  The
returned `none` models Go's zero `xml.Attr{}`, which the encoder drops, so
the attribute is absent from the output. -/
def ConditionalUint.marshalXMLAttr (c : ConditionalUint) : Option (List Char) :=
  match c.u with
  | some n => some (formatUint n)
  | none =>
    match c.b with
    | some v => some (formatBool v)
    | none => none

/-- UnmarshalXMLAttr decodes ConditionalUint (mpd.go lines 40-54): try
ParseUint first, then ParseBool, otherwise fail carrying the attribute. -/
def ConditionalUint.unmarshalXMLAttr (c : ConditionalUint) (a : XAttr) :
    Except ParseError ConditionalUint :=
  match parseUint64 a.value with
  | some n => .ok { c with u := some n }
  | none =>
    match parseBool a.value with
    | some v => .ok { c with b := some v }
    | none => .error { attrName := a.name, attrValue := a.value }

/-! ## Document model (mpd.go parse-side structs) -/

/-- Pssh represents XSD's CencPsshType (mpd.go lines 231-234). -/
structure Pssh where
  Cenc : Option (List Char)
  Value : Option (List Char)
deriving DecidableEq

/-- SegmentTimelineS represents XSD's SegmentTimelineType's inner S elements
(mpd.go lines 252-256). -/
structure SegmentTimelineS where
  T : Option Nat
  D : Nat
  R : Option Int
deriving DecidableEq

/-- SegmentTemplate represents XSD's SegmentTemplateType (mpd.go lines
242-249).  The same struct is used on the marshal side in the source. -/
structure SegmentTemplate where
  Timescale : Option Nat
  Media : Option (List Char)
  Initialization : Option (List Char)
  StartNumber : Option Nat
  PresentationTimeOffset : Option Nat
  SegmentTimelineS : List SegmentTimelineS
deriving DecidableEq

/-- Descriptor represents XSD's DescriptorType (mpd.go lines 213-219). -/
structure Descriptor where
  SchemeIDURI : Option (List Char)
  Value : Option (List Char)
  CencDefaultKID : Option (List Char)
  Cenc : Option (List Char)
  Pssh : Option Pssh
deriving DecidableEq

/-- Representation represents XSD's RepresentationType (mpd.go lines
186-197). -/
structure Representation where
  ID : Option (List Char)
  Width : Option Nat
  Height : Option Nat
  SAR : Option (List Char)
  FrameRate : Option (List Char)
  Bandwidth : Option Nat
  AudioSamplingRate : Option (List Char)
  Codecs : Option (List Char)
  ContentProtections : List Descriptor
  SegmentTemplate : Option SegmentTemplate
deriving DecidableEq

/-- AdaptationSet represents XSD's AdaptationSetType (mpd.go lines
161-171). -/
structure AdaptationSet where
  MimeType : List Char
  SegmentAlignment : ConditionalUint
  StartWithSAP : Option Nat
  BitstreamSwitching : Option Bool
  SubsegmentAlignment : ConditionalUint
  SubsegmentStartsWithSAP : Option Nat
  Lang : Option (List Char)
  Representations : List Representation
  Codecs : Option (List Char)
deriving DecidableEq

/-- Period represents XSD's PeriodType (mpd.go lines 145-150). -/
structure Period where
  Start : Option (List Char)
  ID : Option (List Char)
  Duration : Option (List Char)
  AdaptationSets : List AdaptationSet
deriving DecidableEq

/-- MPD represents the root XML element for parse (mpd.go lines 63-80).
`Type'` models the Go field `Type` (a reserved word in Lean).  `XMLName`
holds the decoded root element name, as Go's `xml.Name` field does. -/
structure MPD where
  XMLName : List Char
  XMLNS : Option (List Char)
  Type' : Option (List Char)
  MinimumUpdatePeriod : Option (List Char)
  AvailabilityStartTime : Option (List Char)
  MediaPresentationDuration : Option (List Char)
  MinBufferTime : Option (List Char)
  SuggestedPresentationDelay : Option (List Char)
  TimeShiftBufferDepth : Option (List Char)
  PublishTime : Option (List Char)
  Profiles : List Char
  XSI : Option (List Char)
  SCTE35 : Option (List Char)
  XSISchemaLocation : Option (List Char)
  ID : Option (List Char)
  Period : Option Period
deriving DecidableEq

/-! ## Marshal-side (wire model) structs (mpd.go) -/

/-- Marshal-side Pssh (mpd.go lines 236-239). -/
structure psshMarshal where
  Cenc : Option (List Char)
  Value : Option (List Char)
deriving DecidableEq

/-- Marshal-side Descriptor (mpd.go lines 221-228). -/
structure descriptorMarshal where
  SchemeIDURI : Option (List Char)
  Value : Option (List Char)
  CencDefaultKID : Option (List Char)
  Cenc : Option (List Char)
  Pssh : Option psshMarshal
deriving DecidableEq

/-- Marshal-side Representation (mpd.go lines 199-210). -/
structure representationMarshal where
  ID : Option (List Char)
  Width : Option Nat
  Height : Option Nat
  SAR : Option (List Char)
  FrameRate : Option (List Char)
  Bandwidth : Option Nat
  AudioSamplingRate : Option (List Char)
  Codecs : Option (List Char)
  ContentProtections : List descriptorMarshal
  SegmentTemplate : Option SegmentTemplate
deriving DecidableEq

/-- Marshal-side AdaptationSet (mpd.go lines 173-183). -/
structure adaptationSetMarshal where
  MimeType : List Char
  SegmentAlignment : ConditionalUint
  StartWithSAP : Option Nat
  BitstreamSwitching : Option Bool
  SubsegmentAlignment : ConditionalUint
  SubsegmentStartsWithSAP : Option Nat
  Lang : Option (List Char)
  Representations : List representationMarshal
  Codecs : Option (List Char)
deriving DecidableEq

/-- Marshal-side Period (mpd.go lines 153-158, `PeriodMarshal`). -/
structure PeriodMarshal where
  Start : Option (List Char)
  ID : Option (List Char)
  Duration : Option (List Char)
  AdaptationSets : List adaptationSetMarshal
deriving DecidableEq

/-- MPD root XML element for Marshal (mpd.go lines 83-100).  The `Period`
field models the Go `*PeriodMarshal` pointer. -/
structure mpdMarshal where
  XSI : Option (List Char)
  XMLNS : Option (List Char)
  XSISchemaLocation : Option (List Char)
  ID : Option (List Char)
  Type' : Option (List Char)
  PublishTime : Option (List Char)
  MinimumUpdatePeriod : Option (List Char)
  AvailabilityStartTime : Option (List Char)
  MediaPresentationDuration : Option (List Char)
  MinBufferTime : Option (List Char)
  SuggestedPresentationDelay : Option (List Char)
  TimeShiftBufferDepth : Option (List Char)
  Profiles : List Char
  SCTE35 : Option (List Char)
  Period : Option PeriodMarshal
deriving DecidableEq

/-! ## modifyXMLStuct: projection from the document model to the wire model
(mpd.go lines 259-370).

The Go code starts from a `new(mpdMarshal)` (all fields nil) and copies each
field under an `if field != nil` guard; copying `nil` over `nil` is the same
as copying unconditionally, so each guarded assignment is modelled as a
plain field copy.  Note that the Go code sets `mpdMarshal.Period =
&PeriodMarshal{}` unconditionally (line 305), before testing whether
`mpd.Period` is nil, so the wire model always carries a Period element. -/

/-- Projection of one Descriptor (mpd.go lines 346-359). -/
def modifyDescriptor (cp : Descriptor) : descriptorMarshal :=
  { SchemeIDURI := cp.SchemeIDURI
    Value := cp.Value
    CencDefaultKID := cp.CencDefaultKID
    Cenc := cp.Cenc
    Pssh :=
      match cp.Pssh with
      | some p => some { Cenc := p.Cenc, Value := p.Value }
      | none => none }

/-- Projection of one Representation (mpd.go lines 332-361).  In the source
`r.ContentProtections` is appended element-wise under an `if != nil` guard;
over a list model this is exactly `List.map`. -/
def modifyRepresentation (r : Representation) : representationMarshal :=
  { ID := r.ID
    Width := r.Width
    Height := r.Height
    SAR := r.SAR
    FrameRate := r.FrameRate
    Bandwidth := r.Bandwidth
    AudioSamplingRate := r.AudioSamplingRate
    Codecs := r.Codecs
    ContentProtections := r.ContentProtections.map modifyDescriptor
    SegmentTemplate := r.SegmentTemplate }

/-- Projection of one AdaptationSet (mpd.go lines 319-364). -/
def modifyAdaptationSet (a : AdaptationSet) : adaptationSetMarshal :=
  { MimeType := a.MimeType
    SegmentAlignment := a.SegmentAlignment
    StartWithSAP := a.StartWithSAP
    BitstreamSwitching := a.BitstreamSwitching
    SubsegmentAlignment := a.SubsegmentAlignment
    SubsegmentStartsWithSAP := a.SubsegmentStartsWithSAP
    Lang := a.Lang
    Representations := a.Representations.map modifyRepresentation
    Codecs := a.Codecs }

/-- Projection of the Period (mpd.go lines 304-367): the wire-side Period
is allocated unconditionally (`mpdMarshal.Period = &PeriodMarshal{}`), and
its fields are filled only when the source Period is present. -/
def modifyPeriodM : Option Period → PeriodMarshal
  | some p =>
    { Start := p.Start
      ID := p.ID
      Duration := p.Duration
      AdaptationSets := p.AdaptationSets.map modifyAdaptationSet }
  | none => { Start := none, ID := none, Duration := none, AdaptationSets := [] }

/-- modifyXMLStuct generates the true MPD wire struct (mpd.go lines
259-370). -/
def modifyXMLStuct (mpd : MPD) : mpdMarshal :=
  { XMLNS := mpd.XMLNS
    MinimumUpdatePeriod := mpd.MinimumUpdatePeriod
    AvailabilityStartTime := mpd.AvailabilityStartTime
    MediaPresentationDuration := mpd.MediaPresentationDuration
    MinBufferTime := mpd.MinBufferTime
    SuggestedPresentationDelay := mpd.SuggestedPresentationDelay
    TimeShiftBufferDepth := mpd.TimeShiftBufferDepth
    PublishTime := mpd.PublishTime
    Type' := mpd.Type'
    Profiles := mpd.Profiles
    XSI := mpd.XSI
    SCTE35 := mpd.SCTE35
    XSISchemaLocation := mpd.XSISchemaLocation
    ID := mpd.ID
    Period := some (modifyPeriodM mpd.Period) }

/-! ## Abstract XML element tree

`encoding/xml` itself is an external library; the codec's behaviour is
determined by the struct tags above together with the library's documented
mapping.  `XmlElem` is the abstract document tree that mediates between the
two: serializing a marshal struct produces an `XmlElem`, and decoding reads
an `XmlElem` into the parse structs.  Character data and attribute values
are raw (unescaped) text; escaping happens only in the textual rendering. -/

inductive XmlElem where
  | mk (name : List Char) (attrs : List XAttr) (children : List XmlElem)
      (chardata : List Char)

def XmlElem.name : XmlElem → List Char
  | .mk n _ _ _ => n

def XmlElem.attrs : XmlElem → List XAttr
  | .mk _ a _ _ => a

def XmlElem.children : XmlElem → List XmlElem
  | .mk _ _ c _ => c

def XmlElem.chardata : XmlElem → List Char
  | .mk _ _ _ d => d

/-- Local part of a possibly prefixed XML name: the part after the first
colon (Go `encoding/xml` splits a name at the first colon and matches
un-namespaced struct tags against the local part). -/
def localName (n : List Char) : List Char :=
  match n.dropWhile (fun c => c ≠ ':') with
  | [] => n
  | _ :: rest => rest

/-! Name constants used by the struct tags. -/

def eMPD : List Char := ("MPD").data

def ePeriod : List Char := ("Period").data

def eAdaptationSet : List Char := ("AdaptationSet").data

def eRepresentation : List Char := ("Representation").data

def eContentProtection : List Char := ("ContentProtection").data

def eSegmentTemplate : List Char := ("SegmentTemplate").data

def eSegmentTimeline : List Char := ("SegmentTimeline").data

def eS : List Char := ("S").data

def eCencPssh : List Char := ("cenc:pssh").data

def ePssh : List Char := ("pssh").data

def aXmlnsXsi : List Char := ("xmlns:xsi").data

def aXmlns : List Char := ("xmlns").data

def aXsiSchemaLocation : List Char := ("xsi:schemaLocation").data

def aSchemaLocation : List Char := ("schemaLocation").data

def aId : List Char := ("id").data

def aType : List Char := ("type").data

def aPublishTime : List Char := ("publishTime").data

def aMinimumUpdatePeriod : List Char := ("minimumUpdatePeriod").data

def aAvailabilityStartTime : List Char := ("availabilityStartTime").data

def aMediaPresentationDuration : List Char := ("mediaPresentationDuration").data

def aMinBufferTime : List Char := ("minBufferTime").data

def aSuggestedPresentationDelay : List Char := ("suggestedPresentationDelay").data

def aTimeShiftBufferDepth : List Char := ("timeShiftBufferDepth").data

def aProfiles : List Char := ("profiles").data

def aXmlnsScte35 : List Char := ("xmlns:scte35").data

def aScte35 : List Char := ("scte35").data

def aXsi : List Char := ("xsi").data

def aStart : List Char := ("start").data

def aDuration : List Char := ("duration").data

def aMimeType : List Char := ("mimeType").data

def aSegmentAlignment : List Char := ("segmentAlignment").data

def aStartWithSAP : List Char := ("startWithSAP").data

def aBitstreamSwitching : List Char := ("bitstreamSwitching").data

def aSubsegmentAlignment : List Char := ("subsegmentAlignment").data

def aSubsegmentStartsWithSAP : List Char := ("subsegmentStartsWithSAP").data

def aLang : List Char := ("lang").data

def aCodecs : List Char := ("codecs").data

def aWidth : List Char := ("width").data

def aHeight : List Char := ("height").data

def aSar : List Char := ("sar").data

def aFrameRate : List Char := ("frameRate").data

def aBandwidth : List Char := ("bandwidth").data

def aAudioSamplingRate : List Char := ("audioSamplingRate").data

def aSchemeIdUri : List Char := ("schemeIdUri").data

def aValue : List Char := ("value").data

def aCencDefaultKID : List Char := ("cenc:default_KID").data

def aDefaultKID : List Char := ("default_KID").data

def aXmlnsCenc : List Char := ("xmlns:cenc").data

def aCenc : List Char := ("cenc").data

def aTimescale : List Char := ("timescale").data

def aMedia : List Char := ("media").data

def aInitialization : List Char := ("initialization").data

def aStartNumber : List Char := ("startNumber").data

def aPresentationTimeOffset : List Char := ("presentationTimeOffset").data

def aT : List Char := ("t").data

def aD : List Char := ("d").data

def aR : List Char := ("r").data

/-! ## Attribute emission (encoding/xml marshal semantics per struct tags)

A nil pointer field produces no attribute; a present pointer produces one
(`,omitempty` makes no further difference on pointers since emptiness of a
pointer is nil-ness); a plain string field always produces one. -/

def optAttr (n : List Char) : Option (List Char) → List XAttr
  | some v => [⟨n, v⟩]
  | none => []

def strAttr (n v : List Char) : List XAttr := [⟨n, v⟩]

def uintAttr (n : List Char) : Option Nat → List XAttr
  | some k => [⟨n, formatUint k⟩]
  | none => []

def boolAttr (n : List Char) : Option Bool → List XAttr
  | some v => [⟨n, formatBool v⟩]
  | none => []

def intAttr (n : List Char) : Option Int → List XAttr
  | some v => [⟨n, formatInt v⟩]
  | none => []

/-- Attribute produced through `ConditionalUint.MarshalXMLAttr`: the zero
`xml.Attr` returned when both alternatives are nil is dropped by the
encoder. -/
def condAttr (n : List Char) (c : ConditionalUint) : List XAttr :=
  match c.marshalXMLAttr with
  | some v => [⟨n, v⟩]
  | none => []

/-! ## Serialization of the wire model to the abstract tree -/

def psshMarshal.toElem (p : psshMarshal) : XmlElem :=
  .mk eCencPssh (optAttr aXmlnsCenc p.Cenc) [] (p.Value.getD [])

def descriptorMarshal.toElem (cp : descriptorMarshal) : XmlElem :=
  .mk eContentProtection
    (optAttr aSchemeIdUri cp.SchemeIDURI ++ optAttr aValue cp.Value
      ++ optAttr aCencDefaultKID cp.CencDefaultKID ++ optAttr aXmlnsCenc cp.Cenc)
    (match cp.Pssh with
    | some p => [p.toElem]
    | none => [])
    []

def SegmentTimelineS.toElem (s : SegmentTimelineS) : XmlElem :=
  .mk eS
    (uintAttr aT s.T ++ strAttr aD (formatUint s.D) ++ intAttr aR s.R)
    [] []

/-- The tag `SegmentTimeline>S` wraps the S elements in one SegmentTimeline
parent element; with `,omitempty`, an empty slice produces nothing. -/
def SegmentTemplate.toElem (st : SegmentTemplate) : XmlElem :=
  .mk eSegmentTemplate
    (uintAttr aTimescale st.Timescale ++ optAttr aMedia st.Media
      ++ optAttr aInitialization st.Initialization
      ++ uintAttr aStartNumber st.StartNumber
      ++ uintAttr aPresentationTimeOffset st.PresentationTimeOffset)
    (match st.SegmentTimelineS with
    | [] => []
    | ss => [.mk eSegmentTimeline [] (ss.map SegmentTimelineS.toElem) []])
    []

def representationMarshal.toElem (r : representationMarshal) : XmlElem :=
  .mk eRepresentation
    (optAttr aId r.ID ++ uintAttr aWidth r.Width ++ uintAttr aHeight r.Height
      ++ optAttr aSar r.SAR ++ optAttr aFrameRate r.FrameRate
      ++ uintAttr aBandwidth r.Bandwidth
      ++ optAttr aAudioSamplingRate r.AudioSamplingRate
      ++ optAttr aCodecs r.Codecs)
    (r.ContentProtections.map descriptorMarshal.toElem
      ++ (match r.SegmentTemplate with
        | some st => [st.toElem]
        | none => []))
    []

def adaptationSetMarshal.toElem (a : adaptationSetMarshal) : XmlElem :=
  .mk eAdaptationSet
    (strAttr aMimeType a.MimeType ++ condAttr aSegmentAlignment a.SegmentAlignment
      ++ uintAttr aStartWithSAP a.StartWithSAP
      ++ boolAttr aBitstreamSwitching a.BitstreamSwitching
      ++ condAttr aSubsegmentAlignment a.SubsegmentAlignment
      ++ uintAttr aSubsegmentStartsWithSAP a.SubsegmentStartsWithSAP
      ++ optAttr aLang a.Lang ++ optAttr aCodecs a.Codecs)
    (a.Representations.map representationMarshal.toElem)
    []

def PeriodMarshal.toElem (p : PeriodMarshal) : XmlElem :=
  .mk ePeriod
    (optAttr aStart p.Start ++ optAttr aId p.ID ++ optAttr aDuration p.Duration)
    (p.AdaptationSets.map adaptationSetMarshal.toElem)
    []

def mpdMarshal.toElem (m : mpdMarshal) : XmlElem :=
  .mk eMPD
    (optAttr aXmlnsXsi m.XSI ++ optAttr aXmlns m.XMLNS
      ++ optAttr aXsiSchemaLocation m.XSISchemaLocation ++ optAttr aId m.ID
      ++ optAttr aType m.Type' ++ optAttr aPublishTime m.PublishTime
      ++ optAttr aMinimumUpdatePeriod m.MinimumUpdatePeriod
      ++ optAttr aAvailabilityStartTime m.AvailabilityStartTime
      ++ optAttr aMediaPresentationDuration m.MediaPresentationDuration
      ++ optAttr aMinBufferTime m.MinBufferTime
      ++ optAttr aSuggestedPresentationDelay m.SuggestedPresentationDelay
      ++ optAttr aTimeShiftBufferDepth m.TimeShiftBufferDepth
      ++ strAttr aProfiles m.Profiles ++ optAttr aXmlnsScte35 m.SCTE35)
    (match m.Period with
    | some p => [p.toElem]
    | none => [])
    []

/-- The abstract-tree image of `Encode`: project through `modifyXMLStuct`
and serialize (mpd.go lines 106-137, before the textual post-processing). -/
def encodeTree (m : MPD) : XmlElem := (modifyXMLStuct m).toElem

/-! ## Textual rendering (encoding/xml Encoder with Indent("", "  "))

The Go encoder writes every element as an open tag / close tag pair (it
never writes self-closing form), places each element on its own line
indented two spaces per depth, and puts character data inline between the
tags.  Attribute values and character data are escaped. -/

def charApos : Char := Char.ofNat 39

/-- Model of encoding/xml's text escaping (`escapeString`/`EscapeText`). -/
def escChar (c : Char) : List Char :=
  if c = '"' then ("&#34;").data
  else if c = charApos then ("&#39;").data
  else if c = '&' then ("&amp;").data
  else if c = '<' then ("&lt;").data
  else if c = '>' then ("&gt;").data
  else if c = '\t' then ("&#x9;").data
  else if c = '\n' then ("&#xA;").data
  else if c = '\r' then ("&#xD;").data
  else [c]

def escText (s : List Char) : List Char := (s.map escChar).flatten

def renderAttr (a : XAttr) : List Char :=
  ' ' :: (a.name ++ '=' :: '"' :: escText a.value ++ ['"'])

def renderAttrs (attrs : List XAttr) : List Char := (attrs.map renderAttr).flatten

def indentChars (d : Nat) : List Char := List.replicate (2 * d) ' '

/-- Lines of the serialized form of an element at depth `d`.  Structured by
fuel so the kernel can evaluate it; any fuel at least the tree height gives
the true rendering.  An element with no children is written `<n ...>cd</n>`
on one line (Go never writes `<n/>`); an element with children gets an open
line, the children's lines, and a close line. -/
def renderF : Nat → Nat → XmlElem → List (List Char)
  | 0, _, _ => []
  | fuel + 1, d, .mk n attrs cs cd =>
    match cs with
    | [] =>
      [indentChars d ++ '<' :: (n ++ renderAttrs attrs)
        ++ '>' :: (escText cd ++ '<' :: '/' :: (n ++ ['>']))]
    | _ :: _ =>
      (indentChars d ++ '<' :: (n ++ renderAttrs attrs) ++ ['>'])
        :: ((cs.map (renderF fuel (d + 1))).flatten
          ++ [indentChars d ++ '<' :: '/' :: (n ++ ['>'])])

/-! ## The self-closing rewrite (mpd.go line 17 and lines 118-134)

`emptyElementRE = regexp.MustCompile("></[A-Za-z]+>")` is applied with
`ReplaceAllString(s, "/>")` to each line of the encoder output.  The
replacement is modelled as a left-to-right scan over the characters of a
line, replacing each non-overlapping occurrence of `>` `<` `/` letters `>`
(at least one ASCII letter) with `/>`. -/

def isAsciiLetter (c : Char) : Bool :=
  ('A' ≤ c && c ≤ 'Z') || ('a' ≤ c && c ≤ 'z')

/-- Consume zero-or-more ASCII letters then a `>`; return the remainder. -/
def afterLettersAux : List Char → Option (List Char)
  | [] => none
  | c :: rest =>
    if c = '>' then some rest
    else if isAsciiLetter c then afterLettersAux rest else none

/-- Consume one-or-more ASCII letters then a `>`; return the remainder. -/
def afterLetters : List Char → Option (List Char)
  | [] => none
  | c :: rest => if isAsciiLetter c then afterLettersAux rest else none

/-- After a `>` at the current position: the rest of a `emptyElementRE`
match is `</` followed by one-or-more letters and `>`; returns the text
after the match, or `none` when the regex does not match here. -/
def stepMatch : List Char → Option (List Char)
  | c1 :: c2 :: rest2 =>
    if c1 = '<' ∧ c2 = '/' then afterLetters rest2 else none
  | _ => none

/-- One fueled step-scan applying the `emptyElementRE` replacement; fuel at
least the length of the line gives the true result. -/
def rewriteF : Nat → List Char → List Char
  | 0, l => l
  | _ + 1, [] => []
  | f + 1, c :: rest =>
    if c = '>' then
      match stepMatch rest with
      | some rest3 => '/' :: '>' :: rewriteF f rest3
      | none => '>' :: rewriteF f rest
    else c :: rewriteF f rest

def rewriteLine (l : List Char) : List Char := rewriteF l.length l

/-- Detects a remaining match of `emptyElementRE` in a line. -/
def hasMatch : List Char → Bool
  | [] => false
  | c :: rest => (c = '>' && (stepMatch rest).isSome) || hasMatch rest

/-- Output lines of Encode after the self-closing hack, in order (mpd.go
lines 122-134: the buffer is consumed line by line and each line is run
through the replacement). -/
def encodeLines (m : MPD) : List (List Char) :=
  (renderF 16 0 (encodeTree m)).map rewriteLine

def joinLinesNL : List (List Char) → List Char
  | [] => []
  | [l] => l
  | l :: ls => l ++ '\n' :: joinLinesNL ls

/-- The fixed declaration line written by Encode (mpd.go line 120). -/
def xmlDecl : List Char := ("<?xml version=\"1.0\" encoding=\"utf-8\"?>").data

/-- Encode generates MPD XML (mpd.go lines 106-137): declaration line,
newline, the rewritten encoder lines, and one final newline. -/
def MPD.Encode (m : MPD) : List Char :=
  xmlDecl ++ '\n' :: (joinLinesNL (encodeLines m) ++ ['\n'])

/-! ## Decoding (xml.Unmarshal semantics for the parse-side structs)

`MPD.Decode` is `xml.Unmarshal(b, m)` (mpd.go lines 140-142) over the
abstract tree.  Per `encoding/xml`'s documented behaviour: the root element
must match the `XMLName` tag; attributes are matched by local name against
`,attr` tags and unknown attributes are ignored; child elements are matched
by local name against field tags, unknown elements are skipped; slice
fields append one decoded element per match; pointer struct fields are
allocated (zero-valued) on first match; decoding writes into the receiver
as it goes and stops at the first error. -/

/-- Dispatch key for attribute local names known to some model struct. -/
inductive AKey where
  | xmlnsK | typK | minimumUpdatePeriodK | availabilityStartTimeK
  | mediaPresentationDurationK | minBufferTimeK | suggestedPresentationDelayK
  | timeShiftBufferDepthK | publishTimeK | profilesK | xsiK | scte35K
  | schemaLocationK | idK | startK | durationK | mimeTypeK
  | segmentAlignmentK | startWithSAPK | bitstreamSwitchingK
  | subsegmentAlignmentK | subsegmentStartsWithSAPK | langK | codecsK
  | widthK | heightK | sarK | frameRateK | bandwidthK | audioSamplingRateK
  | schemeIdUriK | valueK | defaultKIDK | cencK | timescaleK | mediaK
  | initializationK | startNumberK | presentationTimeOffsetK | tK | dK | rK
  | unknownK
deriving DecidableEq

def keyOfA (n : List Char) : AKey :=
  if n = aXmlns then .xmlnsK
  else if n = aType then .typK
  else if n = aMinimumUpdatePeriod then .minimumUpdatePeriodK
  else if n = aAvailabilityStartTime then .availabilityStartTimeK
  else if n = aMediaPresentationDuration then .mediaPresentationDurationK
  else if n = aMinBufferTime then .minBufferTimeK
  else if n = aSuggestedPresentationDelay then .suggestedPresentationDelayK
  else if n = aTimeShiftBufferDepth then .timeShiftBufferDepthK
  else if n = aPublishTime then .publishTimeK
  else if n = aProfiles then .profilesK
  else if n = aXsi then .xsiK
  else if n = aScte35 then .scte35K
  else if n = aSchemaLocation then .schemaLocationK
  else if n = aId then .idK
  else if n = aStart then .startK
  else if n = aDuration then .durationK
  else if n = aMimeType then .mimeTypeK
  else if n = aSegmentAlignment then .segmentAlignmentK
  else if n = aStartWithSAP then .startWithSAPK
  else if n = aBitstreamSwitching then .bitstreamSwitchingK
  else if n = aSubsegmentAlignment then .subsegmentAlignmentK
  else if n = aSubsegmentStartsWithSAP then .subsegmentStartsWithSAPK
  else if n = aLang then .langK
  else if n = aCodecs then .codecsK
  else if n = aWidth then .widthK
  else if n = aHeight then .heightK
  else if n = aSar then .sarK
  else if n = aFrameRate then .frameRateK
  else if n = aBandwidth then .bandwidthK
  else if n = aAudioSamplingRate then .audioSamplingRateK
  else if n = aSchemeIdUri then .schemeIdUriK
  else if n = aValue then .valueK
  else if n = aDefaultKID then .defaultKIDK
  else if n = aCenc then .cencK
  else if n = aTimescale then .timescaleK
  else if n = aMedia then .mediaK
  else if n = aInitialization then .initializationK
  else if n = aStartNumber then .startNumberK
  else if n = aPresentationTimeOffset then .presentationTimeOffsetK
  else if n = aT then .tK
  else if n = aD then .dK
  else if n = aR then .rK
  else .unknownK

/-- Dispatch key for element local names known to some model struct. -/
inductive EKey where
  | periodE | adaptationSetE | representationE | contentProtectionE
  | segmentTemplateE | segmentTimelineE | sE | psshE | unknownE
deriving DecidableEq

def keyOfE (n : List Char) : EKey :=
  if n = ePeriod then .periodE
  else if n = eAdaptationSet then .adaptationSetE
  else if n = eRepresentation then .representationE
  else if n = eContentProtection then .contentProtectionE
  else if n = eSegmentTemplate then .segmentTemplateE
  else if n = eSegmentTimeline then .segmentTimelineE
  else if n = eS then .sE
  else if n = ePssh then .psshE
  else .unknownE

/-- Process attributes left to right, stopping at the first error; the
receiver keeps the updates made before the error. -/
def foldAttrs {σ : Type} (step : σ → XAttr → Except ParseError σ) :
    List XAttr → σ → σ × Option ParseError
  | [], s => (s, none)
  | a :: rest, s =>
    match step s a with
    | .ok s' => foldAttrs step rest s'
    | .error e => (s, some e)

/-- Process child elements left to right, stopping at the first error. -/
def foldKids {σ : Type} (step : σ → XmlElem → σ × Option ParseError) :
    List XmlElem → σ → σ × Option ParseError
  | [], s => (s, none)
  | c :: rest, s =>
    match step s c with
    | (s', none) => foldKids step rest s'
    | (s', some e) => (s', some e)

def emptyPssh : Pssh := { Cenc := none, Value := none }

def emptySegS : SegmentTimelineS := { T := none, D := 0, R := none }

def emptySegmentTemplate : SegmentTemplate :=
  { Timescale := none, Media := none, Initialization := none,
    StartNumber := none, PresentationTimeOffset := none, SegmentTimelineS := [] }

def emptyDescriptor : Descriptor :=
  { SchemeIDURI := none, Value := none, CencDefaultKID := none, Cenc := none,
    Pssh := none }

def emptyRepresentation : Representation :=
  { ID := none, Width := none, Height := none, SAR := none, FrameRate := none,
    Bandwidth := none, AudioSamplingRate := none, Codecs := none,
    ContentProtections := [], SegmentTemplate := none }

def emptyAdaptationSet : AdaptationSet :=
  { MimeType := [], SegmentAlignment := { u := none, b := none },
    StartWithSAP := none, BitstreamSwitching := none,
    SubsegmentAlignment := { u := none, b := none },
    SubsegmentStartsWithSAP := none, Lang := none, Representations := [],
    Codecs := none }

def emptyPeriod : Period :=
  { Start := none, ID := none, Duration := none, AdaptationSets := [] }

def emptyMPD : MPD :=
  { XMLName := [], XMLNS := none, Type' := none, MinimumUpdatePeriod := none,
    AvailabilityStartTime := none, MediaPresentationDuration := none,
    MinBufferTime := none, SuggestedPresentationDelay := none,
    TimeShiftBufferDepth := none, PublishTime := none, Profiles := [],
    XSI := none, SCTE35 := none, XSISchemaLocation := none, ID := none,
    Period := none }

def stepPsshAttr (p : Pssh) (a : XAttr) : Except ParseError Pssh :=
  match keyOfA (localName a.name) with
  | .cencK => .ok { p with Cenc := some a.value }
  | _ => .ok p

/-- Decode a `pssh` element: attributes, then the accumulated character
data is assigned to the `,chardata` field (always set when the element is
present). -/
def decPssh (t : XmlElem) (p : Pssh) : Pssh × Option ParseError :=
  match foldAttrs stepPsshAttr t.attrs p with
  | (p1, some e) => (p1, some e)
  | (p1, none) => ({ p1 with Value := some t.chardata }, none)

def stepSAttr (s : SegmentTimelineS) (a : XAttr) :
    Except ParseError SegmentTimelineS :=
  match keyOfA (localName a.name) with
  | .tK =>
    match parseUint64 a.value with
    | some v => .ok { s with T := some v }
    | none => .error ⟨a.name, a.value⟩
  | .dK =>
    match parseUint64 a.value with
    | some v => .ok { s with D := v }
    | none => .error ⟨a.name, a.value⟩
  | .rK =>
    match parseInt64 a.value with
    | some v => .ok { s with R := some v }
    | none => .error ⟨a.name, a.value⟩
  | _ => .ok s

def decS (t : XmlElem) (s : SegmentTimelineS) :
    SegmentTimelineS × Option ParseError :=
  foldAttrs stepSAttr t.attrs s

def stepSTAttr (st : SegmentTemplate) (a : XAttr) :
    Except ParseError SegmentTemplate :=
  match keyOfA (localName a.name) with
  | .timescaleK =>
    match parseUint64 a.value with
    | some v => .ok { st with Timescale := some v }
    | none => .error ⟨a.name, a.value⟩
  | .mediaK => .ok { st with Media := some a.value }
  | .initializationK => .ok { st with Initialization := some a.value }
  | .startNumberK =>
    match parseUint64 a.value with
    | some v => .ok { st with StartNumber := some v }
    | none => .error ⟨a.name, a.value⟩
  | .presentationTimeOffsetK =>
    match parseUint64 a.value with
    | some v => .ok { st with PresentationTimeOffset := some v }
    | none => .error ⟨a.name, a.value⟩
  | _ => .ok st

/-- Inside a `SegmentTimeline` element, each `S` child appends one decoded
entry (tag `SegmentTimeline>S`). -/
def stepTimelineKid (st : SegmentTemplate) (c : XmlElem) :
    SegmentTemplate × Option ParseError :=
  match keyOfE (localName c.name) with
  | .sE =>
    match decS c emptySegS with
    | (sv, e) => ({ st with SegmentTimelineS := st.SegmentTimelineS ++ [sv] }, e)
  | _ => (st, none)

def stepSTKid (st : SegmentTemplate) (c : XmlElem) :
    SegmentTemplate × Option ParseError :=
  match keyOfE (localName c.name) with
  | .segmentTimelineE => foldKids stepTimelineKid c.children st
  | _ => (st, none)

def decSegmentTemplate (t : XmlElem) (st : SegmentTemplate) :
    SegmentTemplate × Option ParseError :=
  match foldAttrs stepSTAttr t.attrs st with
  | (st1, some e) => (st1, some e)
  | (st1, none) => foldKids stepSTKid t.children st1

def stepDescAttr (dd : Descriptor) (a : XAttr) : Except ParseError Descriptor :=
  match keyOfA (localName a.name) with
  | .schemeIdUriK => .ok { dd with SchemeIDURI := some a.value }
  | .valueK => .ok { dd with Value := some a.value }
  | .defaultKIDK => .ok { dd with CencDefaultKID := some a.value }
  | .cencK => .ok { dd with Cenc := some a.value }
  | _ => .ok dd

def stepDescKid (dd : Descriptor) (c : XmlElem) :
    Descriptor × Option ParseError :=
  match keyOfE (localName c.name) with
  | .psshE =>
    match decPssh c (dd.Pssh.getD emptyPssh) with
    | (p, e) => ({ dd with Pssh := some p }, e)
  | _ => (dd, none)

def decDescriptor (t : XmlElem) (dd : Descriptor) :
    Descriptor × Option ParseError :=
  match foldAttrs stepDescAttr t.attrs dd with
  | (d1, some e) => (d1, some e)
  | (d1, none) => foldKids stepDescKid t.children d1

def stepReprAttr (r : Representation) (a : XAttr) :
    Except ParseError Representation :=
  match keyOfA (localName a.name) with
  | .idK => .ok { r with ID := some a.value }
  | .widthK =>
    match parseUint64 a.value with
    | some v => .ok { r with Width := some v }
    | none => .error ⟨a.name, a.value⟩
  | .heightK =>
    match parseUint64 a.value with
    | some v => .ok { r with Height := some v }
    | none => .error ⟨a.name, a.value⟩
  | .sarK => .ok { r with SAR := some a.value }
  | .frameRateK => .ok { r with FrameRate := some a.value }
  | .bandwidthK =>
    match parseUint64 a.value with
    | some v => .ok { r with Bandwidth := some v }
    | none => .error ⟨a.name, a.value⟩
  | .audioSamplingRateK => .ok { r with AudioSamplingRate := some a.value }
  | .codecsK => .ok { r with Codecs := some a.value }
  | _ => .ok r

def stepReprKid (r : Representation) (c : XmlElem) :
    Representation × Option ParseError :=
  match keyOfE (localName c.name) with
  | .contentProtectionE =>
    match decDescriptor c emptyDescriptor with
    | (dd, e) => ({ r with ContentProtections := r.ContentProtections ++ [dd] }, e)
  | .segmentTemplateE =>
    match decSegmentTemplate c (r.SegmentTemplate.getD emptySegmentTemplate) with
    | (st, e) => ({ r with SegmentTemplate := some st }, e)
  | _ => (r, none)

def decRepresentation (t : XmlElem) (r : Representation) :
    Representation × Option ParseError :=
  match foldAttrs stepReprAttr t.attrs r with
  | (r1, some e) => (r1, some e)
  | (r1, none) => foldKids stepReprKid t.children r1

def stepASAttr (s : AdaptationSet) (a : XAttr) :
    Except ParseError AdaptationSet :=
  match keyOfA (localName a.name) with
  | .mimeTypeK => .ok { s with MimeType := a.value }
  | .segmentAlignmentK =>
    match s.SegmentAlignment.unmarshalXMLAttr a with
    | .ok c => .ok { s with SegmentAlignment := c }
    | .error e => .error e
  | .startWithSAPK =>
    match parseUint64 a.value with
    | some v => .ok { s with StartWithSAP := some v }
    | none => .error ⟨a.name, a.value⟩
  | .bitstreamSwitchingK =>
    match parseBool a.value with
    | some v => .ok { s with BitstreamSwitching := some v }
    | none => .error ⟨a.name, a.value⟩
  | .subsegmentAlignmentK =>
    match s.SubsegmentAlignment.unmarshalXMLAttr a with
    | .ok c => .ok { s with SubsegmentAlignment := c }
    | .error e => .error e
  | .subsegmentStartsWithSAPK =>
    match parseUint64 a.value with
    | some v => .ok { s with SubsegmentStartsWithSAP := some v }
    | none => .error ⟨a.name, a.value⟩
  | .langK => .ok { s with Lang := some a.value }
  | .codecsK => .ok { s with Codecs := some a.value }
  | _ => .ok s

def stepASKid (s : AdaptationSet) (c : XmlElem) :
    AdaptationSet × Option ParseError :=
  match keyOfE (localName c.name) with
  | .representationE =>
    match decRepresentation c emptyRepresentation with
    | (r, e) => ({ s with Representations := s.Representations ++ [r] }, e)
  | _ => (s, none)

def decAdaptationSet (t : XmlElem) (s : AdaptationSet) :
    AdaptationSet × Option ParseError :=
  match foldAttrs stepASAttr t.attrs s with
  | (s1, some e) => (s1, some e)
  | (s1, none) => foldKids stepASKid t.children s1

def stepPeriodAttr (p : Period) (a : XAttr) : Except ParseError Period :=
  match keyOfA (localName a.name) with
  | .startK => .ok { p with Start := some a.value }
  | .idK => .ok { p with ID := some a.value }
  | .durationK => .ok { p with Duration := some a.value }
  | _ => .ok p

def stepPeriodKid (p : Period) (c : XmlElem) : Period × Option ParseError :=
  match keyOfE (localName c.name) with
  | .adaptationSetE =>
    match decAdaptationSet c emptyAdaptationSet with
    | (s, e) => ({ p with AdaptationSets := p.AdaptationSets ++ [s] }, e)
  | _ => (p, none)

def decPeriod (t : XmlElem) (p : Period) : Period × Option ParseError :=
  match foldAttrs stepPeriodAttr t.attrs p with
  | (p1, some e) => (p1, some e)
  | (p1, none) => foldKids stepPeriodKid t.children p1

def stepMPDAttr (m : MPD) (a : XAttr) : Except ParseError MPD :=
  match keyOfA (localName a.name) with
  | .xmlnsK => .ok { m with XMLNS := some a.value }
  | .typK => .ok { m with Type' := some a.value }
  | .minimumUpdatePeriodK => .ok { m with MinimumUpdatePeriod := some a.value }
  | .availabilityStartTimeK => .ok { m with AvailabilityStartTime := some a.value }
  | .mediaPresentationDurationK =>
    .ok { m with MediaPresentationDuration := some a.value }
  | .minBufferTimeK => .ok { m with MinBufferTime := some a.value }
  | .suggestedPresentationDelayK =>
    .ok { m with SuggestedPresentationDelay := some a.value }
  | .timeShiftBufferDepthK => .ok { m with TimeShiftBufferDepth := some a.value }
  | .publishTimeK => .ok { m with PublishTime := some a.value }
  | .profilesK => .ok { m with Profiles := a.value }
  | .xsiK => .ok { m with XSI := some a.value }
  | .scte35K => .ok { m with SCTE35 := some a.value }
  | .schemaLocationK => .ok { m with XSISchemaLocation := some a.value }
  | .idK => .ok { m with ID := some a.value }
  | _ => .ok m

def stepMPDKid (m : MPD) (c : XmlElem) : MPD × Option ParseError :=
  match keyOfE (localName c.name) with
  | .periodE =>
    match decPeriod c (m.Period.getD emptyPeriod) with
    | (p, e) => ({ m with Period := some p }, e)
  | _ => (m, none)

/-- Decode parses MPD XML (mpd.go lines 140-142): `xml.Unmarshal(b, m)`
over the abstract tree.  The root element's local name must be `MPD`
(anything else errors before touching the receiver); attributes are
processed first, then child elements, stopping at the first error while
keeping the fields already populated. -/
def MPD.Decode (t : XmlElem) (m : MPD) : MPD × Option ParseError :=
  if localName t.name = eMPD then
    match foldAttrs stepMPDAttr t.attrs { m with XMLName := eMPD } with
    | (m1, some e) => (m1, some e)
    | (m1, none) => foldKids stepMPDKid t.children m1
  else (m, some ⟨t.name, []⟩)

/-- Decoding into a fresh document, as a function of the input only. -/
def decodeT (t : XmlElem) : Except ParseError MPD :=
  match MPD.Decode t emptyMPD with
  | (m, none) => .ok m
  | (_, some e) => .error e

/-! ## Well-formedness of input trees

Well-formed XML has no duplicate attributes on an element.  The model keeps
no namespace URIs, so names with equal local parts are identified; the
well-formedness predicate accordingly requires distinct attribute local
names per element (checked to depth 16, far beyond any element the decoder
inspects). -/

def nodupB : List (List Char) → Bool
  | [] => true
  | x :: xs => (!(xs.contains x)) && nodupB xs

def attrLocals (t : XmlElem) : List (List Char) :=
  t.attrs.map fun a => localName a.name

def wfF : Nat → XmlElem → Bool
  | 0, _ => true
  | f + 1, t => nodupB (attrLocals t) && t.children.all (wfF f)

def wfTree (t : XmlElem) : Bool := wfF 16 t

/-! ## Explicit-heap model of the projection's pointer copying

The aliasing claims are about Go pointers, so this fragment models optional
holders as addresses into an explicit heap of cells.  `copyInt64` is
`utils.Int64` (the nil-safe defensive copy helper in the copyobj/utils
package); `copySegmentTimelineS` is the projection step for timeline
entries, which copies the `R` holder through `utils.Int64` but assigns the
`T` holder directly (`T: s.T`). -/

structure HeapState where
  mem : Nat → Int
  next : Nat

def readPtr (σ : HeapState) (p : Option Nat) : Option Int := p.map σ.mem

def writeCell (σ : HeapState) (a : Nat) (v : Int) : HeapState :=
  { σ with mem := fun x => if x = a then v else σ.mem x }

def allocCell (σ : HeapState) (v : Int) : HeapState × Nat :=
  ({ mem := fun a => if a = σ.next then v else σ.mem a, next := σ.next + 1 },
    σ.next)

/-- utils.Int64: `if i == nil { return nil }; cop := *i; return &cop`. -/
def copyInt64 (σ : HeapState) (p : Option Nat) : HeapState × Option Nat :=
  match p with
  | none => (σ, none)
  | some a =>
    match allocCell σ (σ.mem a) with
    | (σ', b) => (σ', some b)

/-- A SegmentTimelineS whose optional holders are heap addresses. -/
structure SegmentTimelineSRef where
  T : Option Nat
  D : Nat
  R : Option Nat
deriving DecidableEq

/-- copySegmentTimelineS (wire projection of the timeline entries): builds
the output slice entry by entry with `T: s.T, D: s.D, R: utils.Int64(s.R)`. -/
def copySegmentTimelineS (σ : HeapState) :
    List SegmentTimelineSRef → HeapState × List SegmentTimelineSRef
  | [] => (σ, [])
  | s :: rest =>
    match copyInt64 σ s.R with
    | (σ1, r') =>
      match copySegmentTimelineS σ1 rest with
      | (σ2, rest') => (σ2, { T := s.T, D := s.D, R := r' } :: rest')

instance {ε α : Type} [DecidableEq ε] [DecidableEq α] :
    DecidableEq (Except ε α) := fun x y =>
  match x, y with
  | .ok a, .ok b =>
    if h : a = b then isTrue (by rw [h])
    else isFalse (by intro hh; cases hh; exact h rfl)
  | .error a, .error b =>
    if h : a = b then isTrue (by rw [h])
    else isFalse (by intro hh; cases hh; exact h rfl)
  | .ok _, .error _ => isFalse (by intro hh; cases hh)
  | .error _, .ok _ => isFalse (by intro hh; cases hh)

/-! ## Helper lemmas about attribute emission -/

theorem name_mem_optAttr {x nm : List Char} {v : Option (List Char)}
    (h : x ∈ (optAttr nm v).map XAttr.name) : x = nm := by
  cases v <;> simp_all [optAttr]

theorem name_mem_strAttr {x nm v : List Char}
    (h : x ∈ (strAttr nm v).map XAttr.name) : x = nm := by
  simp_all [strAttr]

theorem name_mem_uintAttr {x nm : List Char} {v : Option Nat}
    (h : x ∈ (uintAttr nm v).map XAttr.name) : x = nm := by
  cases v <;> simp_all [uintAttr]

theorem name_mem_boolAttr {x nm : List Char} {v : Option Bool}
    (h : x ∈ (boolAttr nm v).map XAttr.name) : x = nm := by
  cases v <;> simp_all [boolAttr]

theorem name_mem_intAttr {x nm : List Char} {v : Option Int}
    (h : x ∈ (intAttr nm v).map XAttr.name) : x = nm := by
  cases v <;> simp_all [intAttr]

theorem name_mem_condAttr {x nm : List Char} {c : ConditionalUint}
    (h : x ∈ (condAttr nm c).map XAttr.name) : x = nm := by
  unfold condAttr at h
  rcases hm : c.marshalXMLAttr with _ | v <;> rw [hm] at h <;> simp_all

/-! ## C2: decoding a ConditionalUint attribute -/

/-- C2: decoding a union (ConditionalUint) attribute first attempts the text
as a base-10 unsigned integer, storing exactly that value on success; only
on failure does it attempt the boolean literal forms; when both parses fail
it errors with a ParseError carrying the offending text and attribute
name. -/
theorem claimC2_condUintDecode (c : ConditionalUint) (nm s : List Char)
    (n : Nat) (v : Bool) :
    (parseUint64 s = some n →
      c.unmarshalXMLAttr ⟨nm, s⟩ = .ok { c with u := some n }) ∧
    (parseUint64 s = none → parseBool s = some v →
      c.unmarshalXMLAttr ⟨nm, s⟩ = .ok { c with b := some v }) ∧
    (parseUint64 s = none → parseBool s = none →
      c.unmarshalXMLAttr ⟨nm, s⟩ =
        .error { attrName := nm, attrValue := s }) := by
  refine ⟨fun h => ?_, fun h h2 => ?_, fun h h2 => ?_⟩
  · simp [ConditionalUint.unmarshalXMLAttr, h]
  · simp [ConditionalUint.unmarshalXMLAttr, h, h2]
  · simp [ConditionalUint.unmarshalXMLAttr, h, h2]

/-- Witness for C2 at `segmentAlignment="maybe"` (fails naming the
attribute) and at the integer-first string "1". -/
theorem claimC2_condUintDecode_witness :
    parseUint64 (("maybe").data) = none ∧ parseBool (("maybe").data) = none ∧
    ConditionalUint.unmarshalXMLAttr { u := none, b := none }
        ⟨aSegmentAlignment, ("maybe").data⟩ =
      .error { attrName := aSegmentAlignment, attrValue := ("maybe").data } ∧
    parseUint64 (("1").data) = some 1 ∧
    ConditionalUint.unmarshalXMLAttr { u := none, b := none }
        ⟨aSegmentAlignment, ("1").data⟩ =
      .ok { u := some 1, b := none } :=
  ⟨by decide, by decide,
    (claimC2_condUintDecode { u := none, b := none } aSegmentAlignment
      (("maybe").data) 0 true).2.2 (by decide) (by decide),
    by decide,
    (claimC2_condUintDecode { u := none, b := none } aSegmentAlignment
      (("1").data) 1 true).1 (by decide)⟩

/-! ## C3: encoding a ConditionalUint attribute -/

/-- C3: encoding a union (ConditionalUint) attribute renders the
unsigned-integer alternative's decimal digits when present, else the
boolean literal, and omits the attribute entirely when both are absent; an
AdaptationSet with both alignment fields unset carries neither
`segmentAlignment` nor `subsegmentAlignment` in its serialized element. -/
theorem claimC3_condUintEncode (c : ConditionalUint) (n : Nat) (v : Bool)
    (a : adaptationSetMarshal) :
    (c.u = some n → c.marshalXMLAttr = some (formatUint n)) ∧
    (c.u = none → c.b = some v → c.marshalXMLAttr = some (formatBool v)) ∧
    (c.u = none → c.b = none → c.marshalXMLAttr = none) ∧
    (a.SegmentAlignment = { u := none, b := none } →
      a.SubsegmentAlignment = { u := none, b := none } →
        aSegmentAlignment ∉ (adaptationSetMarshal.toElem a).attrs.map XAttr.name ∧
        aSubsegmentAlignment ∉
          (adaptationSetMarshal.toElem a).attrs.map XAttr.name) := by
  refine ⟨fun h => ?_, fun h h2 => ?_, fun h h2 => ?_, fun h1 h2 => ?_⟩
  · simp [ConditionalUint.marshalXMLAttr, h]
  · simp [ConditionalUint.marshalXMLAttr, h, h2]
  · simp [ConditionalUint.marshalXMLAttr, h, h2]
  · obtain ⟨mt, sa, sw, bs, ssa, sp, lg, rp, cd⟩ := a
    simp only at h1 h2
    subst h1
    subst h2
    constructor <;>
      (rcases sw with _ | w <;> rcases bs with _ | b2 <;> rcases sp with _ | p2 <;>
        rcases lg with _ | l2 <;> rcases cd with _ | c2 <;>
        · simp only [adaptationSetMarshal.toElem, XmlElem.attrs, strAttr, condAttr,
            uintAttr, boolAttr, optAttr, ConditionalUint.marshalXMLAttr,
            List.map_append, List.map_cons, List.map_nil]
          decide)

/-- Witness for C3: a set integer alternative renders its digits, and a
fully unset AdaptationSet marshal element carries no segmentAlignment. -/
theorem claimC3_condUintEncode_witness :
    ConditionalUint.marshalXMLAttr { u := some 5, b := some true } =
      some (formatUint 5) ∧
    aSegmentAlignment ∉
      (adaptationSetMarshal.toElem (modifyAdaptationSet emptyAdaptationSet)).attrs.map
        XAttr.name :=
  ⟨(claimC3_condUintEncode { u := some 5, b := some true } 5 true
      (modifyAdaptationSet emptyAdaptationSet)).1 rfl,
    ((claimC3_condUintEncode { u := none, b := none } 5 true
      (modifyAdaptationSet emptyAdaptationSet)).2.2.2 rfl rfl).1⟩

/-! ## C4: the at-most-one-alternative invariant -/

/-- C4 counterexample: the claim says every state reachable through the
type's operations, including any sequence of attribute-decoding calls on
the same value, has at most one alternative set.  Decoding "5" and then
"true" into the same value leaves both alternatives set, because a
successful boolean decode does not clear the integer alternative. -/
theorem claimC4_counterexample :
    ConditionalUint.unmarshalXMLAttr { u := none, b := none }
        ⟨aSegmentAlignment, ("5").data⟩ = .ok { u := some 5, b := none } ∧
    ConditionalUint.unmarshalXMLAttr { u := some 5, b := none }
        ⟨aSegmentAlignment, ("true").data⟩ =
      .ok { u := some 5, b := some true } ∧
    ({ u := some 5, b := some true } : ConditionalUint).u.isSome = true ∧
    ({ u := some 5, b := some true } : ConditionalUint).b.isSome = true := by
  decide

/-- C4 amended: a single decoding call starting from the zero value sets at
most one alternative (decoding tries unsigned integer first, then boolean,
and fails if neither matches); only repeated decodes into the same value can
accumulate both. -/
theorem claimC4_amended (a : XAttr) (c : ConditionalUint)
    (h : ConditionalUint.unmarshalXMLAttr { u := none, b := none } a = .ok c) :
    ¬(c.u.isSome = true ∧ c.b.isSome = true) := by
  unfold ConditionalUint.unmarshalXMLAttr at h
  rcases h1 : parseUint64 a.value with _ | n <;> rw [h1] at h
  · rcases h2 : parseBool a.value with _ | v <;> rw [h2] at h
    · simp at h
    · simp only [Except.ok.injEq] at h
      subst h
      simp
  · simp only [Except.ok.injEq] at h
    subst h
    simp

/-- Witness for C4's amended statement at a concrete decode of "true". -/
theorem claimC4_amended_witness :
    ¬(({ u := none, b := some true } : ConditionalUint).u.isSome = true ∧
      ({ u := none, b := some true } : ConditionalUint).b.isSome = true) :=
  claimC4_amended ⟨aSegmentAlignment, ("true").data⟩
    { u := none, b := some true } (by decide)

/-! ## C7: aliasing between the wire projection and the source document -/

def σheap7 : HeapState := { mem := fun a => if a = 0 then 1 else 0, next := 1 }

def doc7 : List SegmentTimelineSRef := [{ T := some 0, D := 5, R := none }]

/-- C7 counterexample: the claim says the wire model shares no mutable
state with the source document.  The projection copies the `T` holder's
address unchanged, so writing through the wire model's `T` cell changes the
value the source document reads through its own `T` holder (from 1 to 2). -/
theorem claimC7_counterexample :
    (copySegmentTimelineS σheap7 doc7).2.map SegmentTimelineSRef.T =
      doc7.map SegmentTimelineSRef.T ∧
    doc7.map SegmentTimelineSRef.T = [some 0] ∧
    readPtr σheap7 (some 0) = some 1 ∧
    readPtr (writeCell (copySegmentTimelineS σheap7 doc7).1 0 2) (some 0) =
      some 2 := by
  decide

theorem copyInt64_mem (σ : HeapState) (p : Option Nat) (a : Nat)
    (h : a < σ.next) : (copyInt64 σ p).1.mem a = σ.mem a := by
  cases p with
  | none => rfl
  | some b => simp [copyInt64, allocCell, Nat.ne_of_lt h]

theorem copyInt64_next (σ : HeapState) (p : Option Nat) :
    σ.next ≤ (copyInt64 σ p).1.next := by
  cases p with
  | none => exact le_rfl
  | some b => exact Nat.le_succ _

theorem copyInt64_fresh (σ : HeapState) (p : Option Nat) :
    ∀ b ∈ (copyInt64 σ p).2, σ.next ≤ b := by
  cases p with
  | none => simp [copyInt64]
  | some a => simp [copyInt64, allocCell]

/-- C7 amended: the projection of the timeline entries never mutates its
input (existing heap cells are untouched; only fresh cells are allocated,
for the `R` holders), but it copies the `T` holder's address unchanged, so
the wire model aliases the source document's `T` cells. -/
theorem claimC7_amended (σ : HeapState) (ss : List SegmentTimelineSRef) :
    (∀ a, a < σ.next → (copySegmentTimelineS σ ss).1.mem a = σ.mem a) ∧
    σ.next ≤ (copySegmentTimelineS σ ss).1.next ∧
    (copySegmentTimelineS σ ss).2.map SegmentTimelineSRef.T =
      ss.map SegmentTimelineSRef.T ∧
    (∀ s' ∈ (copySegmentTimelineS σ ss).2, ∀ b ∈ s'.R, σ.next ≤ b) := by
  induction ss generalizing σ with
  | nil => exact ⟨fun a _ => rfl, le_rfl, rfl, by simp [copySegmentTimelineS]⟩
  | cons s rest ih =>
    have hnext1 := copyInt64_next σ s.R
    rcases hc : copyInt64 σ s.R with ⟨σ1, r'⟩
    rcases hrest : copySegmentTimelineS σ1 rest with ⟨σ2, rest'⟩
    have ih1 := ih σ1
    rw [hrest] at ih1
    have hcopy : copySegmentTimelineS σ (s :: rest) =
        (σ2, { T := s.T, D := s.D, R := r' } :: rest') := by
      simp [copySegmentTimelineS, hc, hrest]
    rw [hc] at hnext1
    refine ⟨fun a ha => ?_, ?_, ?_, ?_⟩
    · rw [hcopy]
      have h1 : σ1.mem a = σ.mem a := by
        have := copyInt64_mem σ s.R a ha
        rw [hc] at this
        exact this
      have h2 : σ2.mem a = σ1.mem a :=
        ih1.1 a (lt_of_lt_of_le ha hnext1)
      rw [h2, h1]
    · rw [hcopy]
      exact le_trans hnext1 ih1.2.1
    · rw [hcopy]
      simpa using ih1.2.2.1
    · rw [hcopy]
      intro s' hs' b hb
      rcases List.mem_cons.mp hs' with h' | h'
      · subst h'
        have hf := copyInt64_fresh σ s.R
        rw [hc] at hf
        exact hf b hb
      · exact le_trans hnext1 (ih1.2.2.2 s' h' b hb)

/-- Witness for C7's amended statement on the concrete heap. -/
theorem claimC7_amended_witness :
    (copySegmentTimelineS σheap7 doc7).1.mem 0 = σheap7.mem 0 :=
  (claimC7_amended σheap7 doc7).1 0 (by decide)

/-! ## C9: absent Period still appears in the output -/

def noPeriodDoc : MPD := { emptyMPD with Profiles := ("p").data }

/-- C9 at the failing input: a document whose `Period` field is absent
still Encodes with an empty `Period` element, because `modifyXMLStuct`
unconditionally allocates the wire-side Period. -/
theorem claimC9_absentPeriodEmitted :
    noPeriodDoc.Period = none ∧
    (("  <Period/>").data) ∈ encodeLines noPeriodDoc := by
  decide

/-! ## Dispatch-key reductions for the concrete tag names -/

@[simp] theorem localName_eMPD : localName eMPD = eMPD := by decide

@[simp] theorem keyA_xmlnsXsi : keyOfA (localName aXmlnsXsi) = AKey.xsiK := by decide

@[simp] theorem keyA_xmlns : keyOfA (localName aXmlns) = AKey.xmlnsK := by decide

@[simp] theorem keyA_xsiSchemaLocation :
    keyOfA (localName aXsiSchemaLocation) = AKey.schemaLocationK := by decide

@[simp] theorem keyA_id : keyOfA (localName aId) = AKey.idK := by decide

@[simp] theorem keyA_type : keyOfA (localName aType) = AKey.typK := by decide

@[simp] theorem keyA_publishTime :
    keyOfA (localName aPublishTime) = AKey.publishTimeK := by decide

@[simp] theorem keyA_minimumUpdatePeriod :
    keyOfA (localName aMinimumUpdatePeriod) = AKey.minimumUpdatePeriodK := by decide

@[simp] theorem keyA_availabilityStartTime :
    keyOfA (localName aAvailabilityStartTime) = AKey.availabilityStartTimeK := by
  decide

@[simp] theorem keyA_mediaPresentationDuration :
    keyOfA (localName aMediaPresentationDuration) =
      AKey.mediaPresentationDurationK := by decide

@[simp] theorem keyA_minBufferTime :
    keyOfA (localName aMinBufferTime) = AKey.minBufferTimeK := by decide

@[simp] theorem keyA_suggestedPresentationDelay :
    keyOfA (localName aSuggestedPresentationDelay) =
      AKey.suggestedPresentationDelayK := by decide

@[simp] theorem keyA_timeShiftBufferDepth :
    keyOfA (localName aTimeShiftBufferDepth) = AKey.timeShiftBufferDepthK := by
  decide

@[simp] theorem keyA_profiles : keyOfA (localName aProfiles) = AKey.profilesK := by
  decide

@[simp] theorem keyA_xmlnsScte35 :
    keyOfA (localName aXmlnsScte35) = AKey.scte35K := by decide

@[simp] theorem keyA_start : keyOfA (localName aStart) = AKey.startK := by decide

@[simp] theorem keyA_duration : keyOfA (localName aDuration) = AKey.durationK := by
  decide

@[simp] theorem keyA_mimeType : keyOfA (localName aMimeType) = AKey.mimeTypeK := by
  decide

@[simp] theorem keyA_segmentAlignment :
    keyOfA (localName aSegmentAlignment) = AKey.segmentAlignmentK := by decide

@[simp] theorem keyA_startWithSAP :
    keyOfA (localName aStartWithSAP) = AKey.startWithSAPK := by decide

@[simp] theorem keyA_bitstreamSwitching :
    keyOfA (localName aBitstreamSwitching) = AKey.bitstreamSwitchingK := by decide

@[simp] theorem keyA_subsegmentAlignment :
    keyOfA (localName aSubsegmentAlignment) = AKey.subsegmentAlignmentK := by decide

@[simp] theorem keyA_subsegmentStartsWithSAP :
    keyOfA (localName aSubsegmentStartsWithSAP) =
      AKey.subsegmentStartsWithSAPK := by decide

@[simp] theorem keyA_lang : keyOfA (localName aLang) = AKey.langK := by decide

@[simp] theorem keyA_codecs : keyOfA (localName aCodecs) = AKey.codecsK := by decide

@[simp] theorem keyA_width : keyOfA (localName aWidth) = AKey.widthK := by decide

@[simp] theorem keyA_height : keyOfA (localName aHeight) = AKey.heightK := by decide

@[simp] theorem keyA_sar : keyOfA (localName aSar) = AKey.sarK := by decide

@[simp] theorem keyA_frameRate : keyOfA (localName aFrameRate) = AKey.frameRateK := by
  decide

@[simp] theorem keyA_bandwidth : keyOfA (localName aBandwidth) = AKey.bandwidthK := by
  decide

@[simp] theorem keyA_audioSamplingRate :
    keyOfA (localName aAudioSamplingRate) = AKey.audioSamplingRateK := by decide

@[simp] theorem keyA_schemeIdUri :
    keyOfA (localName aSchemeIdUri) = AKey.schemeIdUriK := by decide

@[simp] theorem keyA_value : keyOfA (localName aValue) = AKey.valueK := by decide

@[simp] theorem keyA_cencDefaultKID :
    keyOfA (localName aCencDefaultKID) = AKey.defaultKIDK := by decide

@[simp] theorem keyA_xmlnsCenc : keyOfA (localName aXmlnsCenc) = AKey.cencK := by
  decide

@[simp] theorem keyA_timescale : keyOfA (localName aTimescale) = AKey.timescaleK := by
  decide

@[simp] theorem keyA_media : keyOfA (localName aMedia) = AKey.mediaK := by decide

@[simp] theorem keyA_initialization :
    keyOfA (localName aInitialization) = AKey.initializationK := by decide

@[simp] theorem keyA_startNumber :
    keyOfA (localName aStartNumber) = AKey.startNumberK := by decide

@[simp] theorem keyA_presentationTimeOffset :
    keyOfA (localName aPresentationTimeOffset) =
      AKey.presentationTimeOffsetK := by decide

@[simp] theorem keyA_t : keyOfA (localName aT) = AKey.tK := by decide

@[simp] theorem keyA_d : keyOfA (localName aD) = AKey.dK := by decide

@[simp] theorem keyA_r : keyOfA (localName aR) = AKey.rK := by decide

@[simp] theorem keyE_period : keyOfE (localName ePeriod) = EKey.periodE := by decide

@[simp] theorem keyE_adaptationSet :
    keyOfE (localName eAdaptationSet) = EKey.adaptationSetE := by decide

@[simp] theorem keyE_representation :
    keyOfE (localName eRepresentation) = EKey.representationE := by decide

@[simp] theorem keyE_contentProtection :
    keyOfE (localName eContentProtection) = EKey.contentProtectionE := by decide

@[simp] theorem keyE_segmentTemplate :
    keyOfE (localName eSegmentTemplate) = EKey.segmentTemplateE := by decide

@[simp] theorem keyE_segmentTimeline :
    keyOfE (localName eSegmentTimeline) = EKey.segmentTimelineE := by decide

@[simp] theorem keyE_s : keyOfE (localName eS) = EKey.sE := by decide

@[simp] theorem keyE_cencPssh : keyOfE (localName eCencPssh) = EKey.psshE := by decide

/-! ## C6: the declaration line and the trailing newline -/

def noPeriodDocUC : MPD := { emptyMPD with Profiles := ("q").data }

def xmlDeclUC : List Char := ("<?xml version=\"1.0\" encoding=\"UTF-8\"?>").data

/-- C6 counterexample: the claim says Encode's bytes begin with exactly
the line with the capitalized encoding name `UTF-8`; the code writes
lowercase `utf-8` (mpd.go line 120), so the claimed prefix never occurs. -/
theorem claimC6_counterexample :
    (MPD.Encode noPeriodDocUC).take (xmlDeclUC.length + 1) ≠
      xmlDeclUC ++ ['\n'] := by
  decide

theorem joinLinesNL_cons_of_ne (a : List Char) (t : List (List Char))
    (h : t ≠ []) : joinLinesNL (a :: t) = a ++ '\n' :: joinLinesNL t := by
  cases t with
  | nil => exact absurd rfl h
  | cons b t' => rfl

theorem joinNL_concat (ls : List (List Char)) (l : List Char) :
    ∃ pre, joinLinesNL (ls ++ [l]) = pre ++ l := by
  induction ls with
  | nil => exact ⟨[], rfl⟩
  | cons a ls ih =>
    obtain ⟨pre, hp⟩ := ih
    refine ⟨a ++ '\n' :: pre, ?_⟩
    rw [List.cons_append, joinLinesNL_cons_of_ne a (ls ++ [l]) (by simp), hp]
    simp

theorem encodeLines_shape (m : MPD) :
    ∃ l0 mid, encodeLines m = l0 :: mid ++ [("</MPD>").data] := by
  have ht : encodeTree m =
      XmlElem.mk eMPD (encodeTree m).attrs
        [(modifyPeriodM m.Period).toElem] [] := rfl
  unfold encodeLines
  rw [ht]
  have hc : rewriteLine (indentChars 0 ++ '<' :: '/' :: (eMPD ++ ['>'])) =
      ("</MPD>").data := by decide
  refine ⟨rewriteLine (indentChars 0
        ++ '<' :: (eMPD ++ renderAttrs (encodeTree m).attrs) ++ ['>']),
    List.map rewriteLine (renderF 15 1 ((modifyPeriodM m.Period).toElem)), ?_⟩
  simp [renderF, hc]

/-- C6 amended: for every document, Encode's bytes begin with exactly the
declaration line `<?xml version="1.0" encoding="utf-8"?>` (lowercase
`utf-8`) followed by a newline, and end with the root close tag's `>`
followed by a single trailing newline. -/
theorem claimC6_amended (m : MPD) :
    ∃ mid, MPD.Encode m = xmlDecl ++ '\n' :: (mid ++ ['>', '\n']) := by
  obtain ⟨l0, midl, hl⟩ := encodeLines_shape m
  obtain ⟨pre, hp⟩ := joinNL_concat (l0 :: midl) (("</MPD>").data)
  unfold MPD.Encode
  rw [hl]
  rw [show (l0 :: midl ++ [("</MPD>").data]) =
      ((l0 :: midl) ++ [("</MPD>").data]) from by simp, hp]
  refine ⟨pre ++ ("</MPD").data, ?_⟩
  simp [show (("</MPD>").data) = ("</MPD").data ++ ['>'] from by decide]

/-! ## C8: state of the receiver after a failed Decode -/

/-- An input tree whose root is a well-formed MPD element carrying a
`profiles` attribute and one Period with one AdaptationSet whose
`segmentAlignment` text is `s`. -/
def c8tree (s : List Char) : XmlElem :=
  .mk eMPD [⟨aProfiles, ("p").data⟩]
    [.mk ePeriod [] [.mk eAdaptationSet [⟨aSegmentAlignment, s⟩] [] []] []] []

/-- C8 counterexample: the claim says a failed Decode leaves the receiving
document unchanged.  Decoding a document whose AdaptationSet has
`segmentAlignment="maybe"` fails, yet the receiver's fields populated
before the error (here `profiles`) remain set, so the receiver differs
from its initial state. -/
theorem claimC8_counterexample :
    (MPD.Decode (c8tree (("maybe").data)) emptyMPD).2.isSome = true ∧
    (MPD.Decode (c8tree (("maybe").data)) emptyMPD).1 ≠ emptyMPD := by
  decide

/-- C8 amended: when Decode fails, it stops at the first error and
surfaces it (never silently recovers), but the receiving document is not
rolled back: fields decoded before the error point (here the root's
`profiles` attribute) remain populated. -/
theorem claimC8_amended (m : MPD) (s : List Char)
    (h1 : parseUint64 s = none) (h2 : parseBool s = none) :
    (MPD.Decode (c8tree s) m).2 =
      some { attrName := aSegmentAlignment, attrValue := s } ∧
    (MPD.Decode (c8tree s) m).1.Profiles = ("p").data := by
  unfold MPD.Decode c8tree
  simp only [XmlElem.name, XmlElem.attrs, XmlElem.children, XmlElem.chardata,
    localName_eMPD, if_pos, foldAttrs, foldKids, stepMPDAttr, stepMPDKid,
    keyA_profiles, keyE_period, decPeriod, stepPeriodAttr, stepPeriodKid,
    keyE_adaptationSet, decAdaptationSet, stepASAttr, keyA_segmentAlignment,
    ConditionalUint.unmarshalXMLAttr, h1, h2]
  simp

/-- Witness for C8's amended statement at `segmentAlignment="maybe"`. -/
theorem claimC8_amended_witness :
    (MPD.Decode (c8tree (("maybe").data)) emptyMPD).2 =
      some { attrName := aSegmentAlignment, attrValue := ("maybe").data } :=
  (claimC8_amended emptyMPD (("maybe").data) (by decide) (by decide)).1

/-! ## C10: unknown attributes and elements are skipped

`InsA as as'` says `as'` is `as` with extra attributes inserted whose local
names match no attribute field of the model; `Sim t t'` says `t'` is `t`
with such unknown attributes and unknown-named child elements inserted
anywhere in the tree. -/

inductive InsA : List XAttr → List XAttr → Prop where
  | nil : InsA [] []
  | keep (a : XAttr) {l l' : List XAttr} (h : InsA l l') : InsA (a :: l) (a :: l')
  | skipA (a : XAttr) (ha : keyOfA (localName a.name) = AKey.unknownK)
      {l l' : List XAttr} (h : InsA l l') : InsA l (a :: l')

mutual

inductive Sim : XmlElem → XmlElem → Prop where
  | mk (n : List Char) {attrs attrs' : List XAttr}
      {kids kids' : List XmlElem} (cd : List Char)
      (ha : InsA attrs attrs') (hk : InsK kids kids') :
      Sim (.mk n attrs kids cd) (.mk n attrs' kids' cd)

inductive InsK : List XmlElem → List XmlElem → Prop where
  | nil : InsK [] []
  | keep {c c' : XmlElem} {l l' : List XmlElem} (hc : Sim c c')
      (h : InsK l l') : InsK (c :: l) (c' :: l')
  | skipK (c : XmlElem) (hc : keyOfE (localName c.name) = EKey.unknownE)
      {l l' : List XmlElem} (h : InsK l l') : InsK l (c :: l')

end

theorem foldAttrs_cons_ok {σ : Type} (step : σ → XAttr → Except ParseError σ)
    (a : XAttr) (l : List XAttr) (s s' : σ) (h : step s a = .ok s') :
    foldAttrs step (a :: l) s = foldAttrs step l s' := by
  simp only [foldAttrs]
  rw [h]

theorem foldAttrs_cons_err {σ : Type} (step : σ → XAttr → Except ParseError σ)
    (a : XAttr) (l : List XAttr) (s : σ) (e : ParseError)
    (h : step s a = .error e) : foldAttrs step (a :: l) s = (s, some e) := by
  simp only [foldAttrs]
  rw [h]

theorem foldAttrs_congr {σ : Type} (step : σ → XAttr → Except ParseError σ)
    (hstep : ∀ (s : σ) (a : XAttr),
      keyOfA (localName a.name) = AKey.unknownK → step s a = .ok s)
    {l l' : List XAttr} (h : InsA l l') (s : σ) :
    foldAttrs step l' s = foldAttrs step l s := by
  induction h generalizing s with
  | nil => rfl
  | keep a h ih =>
    cases hs : step s a with
    | ok s' =>
      rw [foldAttrs_cons_ok step a _ s s' hs, foldAttrs_cons_ok step a _ s s' hs,
        ih]
    | error e =>
      rw [foldAttrs_cons_err step a _ s e hs, foldAttrs_cons_err step a _ s e hs]
  | skipA a ha h ih =>
    rw [foldAttrs_cons_ok step a _ s s (hstep s a ha), ih]

/-! Unknown-key skip facts for every attribute step function. -/

theorem stepPsshAttr_unknown (s : Pssh) (a : XAttr)
    (h : keyOfA (localName a.name) = AKey.unknownK) : stepPsshAttr s a = .ok s := by
  unfold stepPsshAttr
  rw [h]

theorem stepSAttr_unknown (s : SegmentTimelineS) (a : XAttr)
    (h : keyOfA (localName a.name) = AKey.unknownK) : stepSAttr s a = .ok s := by
  unfold stepSAttr
  rw [h]

theorem stepSTAttr_unknown (s : SegmentTemplate) (a : XAttr)
    (h : keyOfA (localName a.name) = AKey.unknownK) : stepSTAttr s a = .ok s := by
  unfold stepSTAttr
  rw [h]

theorem stepDescAttr_unknown (s : Descriptor) (a : XAttr)
    (h : keyOfA (localName a.name) = AKey.unknownK) : stepDescAttr s a = .ok s := by
  unfold stepDescAttr
  rw [h]

theorem stepReprAttr_unknown (s : Representation) (a : XAttr)
    (h : keyOfA (localName a.name) = AKey.unknownK) : stepReprAttr s a = .ok s := by
  unfold stepReprAttr
  rw [h]

theorem stepASAttr_unknown (s : AdaptationSet) (a : XAttr)
    (h : keyOfA (localName a.name) = AKey.unknownK) : stepASAttr s a = .ok s := by
  unfold stepASAttr
  rw [h]

theorem stepPeriodAttr_unknown (s : Period) (a : XAttr)
    (h : keyOfA (localName a.name) = AKey.unknownK) : stepPeriodAttr s a = .ok s := by
  unfold stepPeriodAttr
  rw [h]

theorem stepMPDAttr_unknown (s : MPD) (a : XAttr)
    (h : keyOfA (localName a.name) = AKey.unknownK) : stepMPDAttr s a = .ok s := by
  unfold stepMPDAttr
  rw [h]

theorem foldKids_cons_ok {σ : Type} (step : σ → XmlElem → σ × Option ParseError)
    (c : XmlElem) (l : List XmlElem) (s s' : σ) (h : step s c = (s', none)) :
    foldKids step (c :: l) s = foldKids step l s' := by
  simp only [foldKids]
  rw [h]

theorem foldKids_cons_err {σ : Type} (step : σ → XmlElem → σ × Option ParseError)
    (c : XmlElem) (l : List XmlElem) (s s' : σ) (e : ParseError)
    (h : step s c = (s', some e)) : foldKids step (c :: l) s = (s', some e) := by
  simp only [foldKids]
  rw [h]

/-! Unknown-name skip facts for every child-element step function. -/

theorem stepTimelineKid_unknown (s : SegmentTemplate) (c : XmlElem)
    (h : keyOfE (localName c.name) = EKey.unknownE) :
    stepTimelineKid s c = (s, none) := by
  unfold stepTimelineKid
  rw [h]

theorem stepSTKid_unknown (s : SegmentTemplate) (c : XmlElem)
    (h : keyOfE (localName c.name) = EKey.unknownE) :
    stepSTKid s c = (s, none) := by
  unfold stepSTKid
  rw [h]

theorem stepDescKid_unknown (s : Descriptor) (c : XmlElem)
    (h : keyOfE (localName c.name) = EKey.unknownE) :
    stepDescKid s c = (s, none) := by
  unfold stepDescKid
  rw [h]

theorem stepReprKid_unknown (s : Representation) (c : XmlElem)
    (h : keyOfE (localName c.name) = EKey.unknownE) :
    stepReprKid s c = (s, none) := by
  unfold stepReprKid
  rw [h]

theorem stepASKid_unknown (s : AdaptationSet) (c : XmlElem)
    (h : keyOfE (localName c.name) = EKey.unknownE) :
    stepASKid s c = (s, none) := by
  unfold stepASKid
  rw [h]

theorem stepPeriodKid_unknown (s : Period) (c : XmlElem)
    (h : keyOfE (localName c.name) = EKey.unknownE) :
    stepPeriodKid s c = (s, none) := by
  unfold stepPeriodKid
  rw [h]

theorem stepMPDKid_unknown (s : MPD) (c : XmlElem)
    (h : keyOfE (localName c.name) = EKey.unknownE) :
    stepMPDKid s c = (s, none) := by
  unfold stepMPDKid
  rw [h]

/-- All the ways two elements related by `Sim` decode identically, at every
struct the codec can decode an element into. -/
def DecAgree (t t' : XmlElem) : Prop :=
  t'.name = t.name ∧
  (∀ p, decPssh t' p = decPssh t p) ∧
  (∀ s, decS t' s = decS t s) ∧
  (∀ st, decSegmentTemplate t' st = decSegmentTemplate t st) ∧
  (∀ dd, decDescriptor t' dd = decDescriptor t dd) ∧
  (∀ r, decRepresentation t' r = decRepresentation t r) ∧
  (∀ a, decAdaptationSet t' a = decAdaptationSet t a) ∧
  (∀ p, decPeriod t' p = decPeriod t p) ∧
  (∀ m, MPD.Decode t' m = MPD.Decode t m) ∧
  (∀ st, foldKids stepTimelineKid t'.children st =
    foldKids stepTimelineKid t.children st)

/-- All the ways two child lists related by `InsK` decode identically. -/
def KidsAgree (ks ks' : List XmlElem) : Prop :=
  (∀ st, foldKids stepTimelineKid ks' st = foldKids stepTimelineKid ks st) ∧
  (∀ st, foldKids stepSTKid ks' st = foldKids stepSTKid ks st) ∧
  (∀ dd, foldKids stepDescKid ks' dd = foldKids stepDescKid ks dd) ∧
  (∀ r, foldKids stepReprKid ks' r = foldKids stepReprKid ks r) ∧
  (∀ a, foldKids stepASKid ks' a = foldKids stepASKid ks a) ∧
  (∀ p, foldKids stepPeriodKid ks' p = foldKids stepPeriodKid ks p) ∧
  (∀ m, foldKids stepMPDKid ks' m = foldKids stepMPDKid ks m)

theorem stepTimelineKid_congr {c c' : XmlElem} (da : DecAgree c c')
    (s : SegmentTemplate) : stepTimelineKid s c' = stepTimelineKid s c := by
  unfold stepTimelineKid
  rw [da.1]
  cases keyOfE (localName c.name) <;> simp only [da.2.2.1]

theorem stepSTKid_congr {c c' : XmlElem} (da : DecAgree c c')
    (s : SegmentTemplate) : stepSTKid s c' = stepSTKid s c := by
  unfold stepSTKid
  rw [da.1]
  cases keyOfE (localName c.name) <;>
    simp only [da.2.2.2.2.2.2.2.2.2]

theorem stepDescKid_congr {c c' : XmlElem} (da : DecAgree c c')
    (s : Descriptor) : stepDescKid s c' = stepDescKid s c := by
  unfold stepDescKid
  rw [da.1]
  cases keyOfE (localName c.name) <;> simp only [da.2.1]

theorem stepReprKid_congr {c c' : XmlElem} (da : DecAgree c c')
    (s : Representation) : stepReprKid s c' = stepReprKid s c := by
  unfold stepReprKid
  rw [da.1]
  cases keyOfE (localName c.name) <;>
    simp only [da.2.2.2.2.1, da.2.2.2.1]

theorem stepASKid_congr {c c' : XmlElem} (da : DecAgree c c')
    (s : AdaptationSet) : stepASKid s c' = stepASKid s c := by
  unfold stepASKid
  rw [da.1]
  cases keyOfE (localName c.name) <;> simp only [da.2.2.2.2.2.1]

theorem stepPeriodKid_congr {c c' : XmlElem} (da : DecAgree c c')
    (s : Period) : stepPeriodKid s c' = stepPeriodKid s c := by
  unfold stepPeriodKid
  rw [da.1]
  cases keyOfE (localName c.name) <;> simp only [da.2.2.2.2.2.2.1]

theorem stepMPDKid_congr {c c' : XmlElem} (da : DecAgree c c')
    (s : MPD) : stepMPDKid s c' = stepMPDKid s c := by
  unfold stepMPDKid
  rw [da.1]
  cases keyOfE (localName c.name) <;> simp only [da.2.2.2.2.2.2.2.1]

theorem foldKids_congr_one {σ : Type} (step : σ → XmlElem → σ × Option ParseError)
    {c c' : XmlElem} {l l' : List XmlElem}
    (hstep : ∀ s : σ, step s c' = step s c)
    (hrest : ∀ s : σ, foldKids step l' s = foldKids step l s) (s : σ) :
    foldKids step (c' :: l') s = foldKids step (c :: l) s := by
  rcases hs : step s c with ⟨s', e⟩
  cases e with
  | none =>
    rw [foldKids_cons_ok step c' l' s s' ((hstep s).trans hs),
      foldKids_cons_ok step c l s s' hs, hrest]
  | some err =>
    rw [foldKids_cons_err step c' l' s s' err ((hstep s).trans hs),
      foldKids_cons_err step c l s s' err hs]

theorem foldKids_skip_one {σ : Type} (step : σ → XmlElem → σ × Option ParseError)
    {c : XmlElem} {l l' : List XmlElem}
    (hstep : ∀ s : σ, step s c = (s, none))
    (hrest : ∀ s : σ, foldKids step l' s = foldKids step l s) (s : σ) :
    foldKids step (c :: l') s = foldKids step l s := by
  rw [foldKids_cons_ok step c l' s s (hstep s), hrest]

mutual

theorem sim_decAgree {t t' : XmlElem} (h : Sim t t') : DecAgree t t' := by
  cases h with
  | mk n cd ha hk =>
    have ka := insK_kidsAgree hk
    refine ⟨rfl, ?_, ?_, ?_, ?_, ?_, ?_, ?_, ?_, ?_⟩
    · intro p
      unfold decPssh
      simp only [XmlElem.attrs, XmlElem.children, XmlElem.chardata]
      rw [foldAttrs_congr stepPsshAttr stepPsshAttr_unknown ha]
    · intro s
      unfold decS
      simp only [XmlElem.attrs, XmlElem.children, XmlElem.chardata]
      rw [foldAttrs_congr stepSAttr stepSAttr_unknown ha]
    · intro st
      unfold decSegmentTemplate
      simp only [XmlElem.attrs, XmlElem.children, XmlElem.chardata]
      rw [foldAttrs_congr stepSTAttr stepSTAttr_unknown ha]
      rcases foldAttrs stepSTAttr _ st with ⟨st1, e⟩
      cases e with
      | none => exact ka.2.1 st1
      | some err => rfl
    · intro dd
      unfold decDescriptor
      simp only [XmlElem.attrs, XmlElem.children, XmlElem.chardata]
      rw [foldAttrs_congr stepDescAttr stepDescAttr_unknown ha]
      rcases foldAttrs stepDescAttr _ dd with ⟨d1, e⟩
      cases e with
      | none => exact ka.2.2.1 d1
      | some err => rfl
    · intro r
      unfold decRepresentation
      simp only [XmlElem.attrs, XmlElem.children, XmlElem.chardata]
      rw [foldAttrs_congr stepReprAttr stepReprAttr_unknown ha]
      rcases foldAttrs stepReprAttr _ r with ⟨r1, e⟩
      cases e with
      | none => exact ka.2.2.2.1 r1
      | some err => rfl
    · intro a
      unfold decAdaptationSet
      simp only [XmlElem.attrs, XmlElem.children, XmlElem.chardata]
      rw [foldAttrs_congr stepASAttr stepASAttr_unknown ha]
      rcases foldAttrs stepASAttr _ a with ⟨a1, e⟩
      cases e with
      | none => exact ka.2.2.2.2.1 a1
      | some err => rfl
    · intro p
      unfold decPeriod
      simp only [XmlElem.attrs, XmlElem.children, XmlElem.chardata]
      rw [foldAttrs_congr stepPeriodAttr stepPeriodAttr_unknown ha]
      rcases foldAttrs stepPeriodAttr _ p with ⟨p1, e⟩
      cases e with
      | none => exact ka.2.2.2.2.2.1 p1
      | some err => rfl
    · intro m
      unfold MPD.Decode
      simp only [XmlElem.name, XmlElem.attrs, XmlElem.children]
      by_cases hn : localName n = eMPD
      · rw [if_pos hn, if_pos hn,
          foldAttrs_congr stepMPDAttr stepMPDAttr_unknown ha]
        rcases foldAttrs stepMPDAttr _ _ with ⟨m1, e⟩
        cases e with
        | none => exact ka.2.2.2.2.2.2 m1
        | some err => rfl
      · rw [if_neg hn, if_neg hn]
    · intro st
      exact ka.1 st

theorem insK_kidsAgree {ks ks' : List XmlElem} (h : InsK ks ks') :
    KidsAgree ks ks' := by
  cases h with
  | nil => exact ⟨fun _ => rfl, fun _ => rfl, fun _ => rfl, fun _ => rfl,
      fun _ => rfl, fun _ => rfl, fun _ => rfl⟩
  | keep hc h =>
    have da := sim_decAgree hc
    have ka := insK_kidsAgree h
    exact ⟨foldKids_congr_one _ (stepTimelineKid_congr da) ka.1,
      foldKids_congr_one _ (stepSTKid_congr da) ka.2.1,
      foldKids_congr_one _ (stepDescKid_congr da) ka.2.2.1,
      foldKids_congr_one _ (stepReprKid_congr da) ka.2.2.2.1,
      foldKids_congr_one _ (stepASKid_congr da) ka.2.2.2.2.1,
      foldKids_congr_one _ (stepPeriodKid_congr da) ka.2.2.2.2.2.1,
      foldKids_congr_one _ (stepMPDKid_congr da) ka.2.2.2.2.2.2⟩
  | skipK c hcu h =>
    have ka := insK_kidsAgree h
    exact ⟨foldKids_skip_one _ (fun s => stepTimelineKid_unknown s c hcu) ka.1,
      foldKids_skip_one _ (fun s => stepSTKid_unknown s c hcu) ka.2.1,
      foldKids_skip_one _ (fun s => stepDescKid_unknown s c hcu) ka.2.2.1,
      foldKids_skip_one _ (fun s => stepReprKid_unknown s c hcu) ka.2.2.2.1,
      foldKids_skip_one _ (fun s => stepASKid_unknown s c hcu) ka.2.2.2.2.1,
      foldKids_skip_one _ (fun s => stepPeriodKid_unknown s c hcu) ka.2.2.2.2.2.1,
      foldKids_skip_one _ (fun s => stepMPDKid_unknown s c hcu) ka.2.2.2.2.2.2⟩

end

/-- C10 counterexample: the claim says Decode succeeds on any well-formed
XML input whose root element matches the model.  A well-formed input whose
root is an MPD element but whose AdaptationSet carries
`segmentAlignment="maybe"` (a modeled attribute with an invalid value) makes
Decode fail, so only unknown markup — not arbitrary well-formed markup — is
tolerated. -/
theorem claimC10_counterexample :
    localName (XmlElem.name (c8tree (("maybe").data))) = eMPD ∧
    wfTree (c8tree (("maybe").data)) = true ∧
    (decodeT (c8tree (("maybe").data))).isOk = false := by
  decide

/-- C10 amended: unknown attributes and unknown elements are silently
discarded by Decode: inserting markup whose (local) names match no field of
the document model, anywhere in the tree, never causes a ParseError and
leaves no trace — the decode result is identical to that of the input
without the unknown markup.  Decode can still fail on a modeled attribute
whose value is invalid. -/
theorem claimC10_unknownMarkupIgnored {t t' : XmlElem} (h : Sim t t')
    (m : MPD) : MPD.Decode t' m = MPD.Decode t m :=
  (sim_decAgree h).2.2.2.2.2.2.2.2.1 m

def c10base : XmlElem :=
  .mk eMPD [⟨aProfiles, ("p").data⟩] [.mk ePeriod [] [] []] []

def c10extra : XmlElem :=
  .mk eMPD [⟨aProfiles, ("p").data⟩, ⟨("foo").data, ("bar").data⟩]
    [.mk ePeriod [] [] [], .mk (("Unknown").data) [] [] []] []

/-- Witness for C10: an unknown `foo` attribute and an unknown `Unknown`
element on the root leave the decode result unchanged and successful. -/
theorem claimC10_unknownMarkupIgnored_witness :
    MPD.Decode c10extra emptyMPD = MPD.Decode c10base emptyMPD ∧
    (MPD.Decode c10base emptyMPD).2 = none :=
  ⟨claimC10_unknownMarkupIgnored
    (Sim.mk eMPD []
      (InsA.keep _ (InsA.skipA _ (by decide) InsA.nil))
      (InsK.keep (Sim.mk ePeriod [] InsA.nil InsK.nil)
        (InsK.skipK _ (by decide) InsK.nil)))
    emptyMPD, by decide⟩

/-! ## C5: scan lemmas for the `emptyElementRE` rewrite -/

theorem rewriteF_nil (f : Nat) : rewriteF f [] = [] := by
  cases f <;> rfl

theorem stepMatch_lt (r : List Char) : stepMatch ('<' :: '/' :: r) = afterLetters r := by
  simp [stepMatch]

theorem stepMatch_ne_lt {c : Char} (h : c ≠ '<') (l : List Char) :
    stepMatch (c :: l) = none := by
  cases l with
  | nil => rfl
  | cons d l' => simp [stepMatch, h]

theorem hasMatch_cons_ne {c : Char} (h : c ≠ '>') (l : List Char) :
    hasMatch (c :: l) = hasMatch l := by
  simp [hasMatch, h]

theorem hasMatch_skip (sfx : List Char) :
    ∀ pre : List Char, '>' ∉ pre → hasMatch (pre ++ sfx) = hasMatch sfx := by
  intro pre
  induction pre with
  | nil => intro _; rfl
  | cons c pre ih =>
    intro h
    have hc : c ≠ '>' := fun hc => h (by simp [hc])
    have hp : '>' ∉ pre := fun hm => h (by simp [hm])
    rw [List.cons_append, hasMatch_cons_ne hc, ih hp]

theorem hasMatch_no_gt {l : List Char} (h : '>' ∉ l) : hasMatch l = false := by
  have h2 := hasMatch_skip [] l h
  rw [List.append_nil] at h2
  rw [h2]
  rfl

theorem rewriteF_cons_ne {c : Char} (h : c ≠ '>') (f : Nat) (l : List Char) :
    rewriteF (f + 1) (c :: l) = c :: rewriteF f l := by
  simp [rewriteF, h]

theorem rewriteF_skip (sfx : List Char) (g : Nat) :
    ∀ pre : List Char, '>' ∉ pre →
      rewriteF (pre.length + g) (pre ++ sfx) = pre ++ rewriteF g sfx := by
  intro pre
  induction pre with
  | nil => intro _; simp
  | cons c pre ih =>
    intro h
    have hc : c ≠ '>' := fun hc => h (by simp [hc])
    have hp : '>' ∉ pre := fun hm => h (by simp [hm])
    rw [List.cons_append, List.length_cons,
      show pre.length + 1 + g = (pre.length + g) + 1 from by omega,
      rewriteF_cons_ne hc, ih hp]
    rfl

theorem hasMatch_gt_none {l : List Char} (h : stepMatch l = none) :
    hasMatch ('>' :: l) = hasMatch l := by
  simp [hasMatch, h]

theorem rewriteF_gt_found {rest rest3 : List Char}
    (h : stepMatch rest = some rest3) (f : Nat) :
    rewriteF (f + 1) ('>' :: rest) = '/' :: '>' :: rewriteF f rest3 := by
  simp [rewriteF, h]

theorem rewriteF_gt_none {rest : List Char} (h : stepMatch rest = none)
    (f : Nat) : rewriteF (f + 1) ('>' :: rest) = '>' :: rewriteF f rest := by
  simp [rewriteF, h]

theorem rewriteF_gt_nil (g : Nat) : rewriteF (g + 1) ['>'] = ['>'] := by
  rw [rewriteF_gt_none (show stepMatch [] = none from rfl) g, rewriteF_nil]

/-! ## C5: the characters of escaped text and of rendered attributes -/

theorem escChar_ok (c : Char) : '>' ∉ escChar c ∧ '<' ∉ escChar c := by
  unfold escChar
  split_ifs with h1 h2 h3 h4 h5 h6 h7 h8
  · exact ⟨by decide, by decide⟩
  · exact ⟨by decide, by decide⟩
  · exact ⟨by decide, by decide⟩
  · exact ⟨by decide, by decide⟩
  · exact ⟨by decide, by decide⟩
  · exact ⟨by decide, by decide⟩
  · exact ⟨by decide, by decide⟩
  · exact ⟨by decide, by decide⟩
  · constructor <;> intro hm <;> rcases List.mem_singleton.mp hm with rfl
    · exact h5 rfl
    · exact h4 rfl

theorem escText_ok (s : List Char) : '>' ∉ escText s ∧ '<' ∉ escText s := by
  constructor <;> intro hmem <;>
  · obtain ⟨l, hl, hx⟩ := List.mem_flatten.mp hmem
    obtain ⟨c, _, rfl⟩ := List.mem_map.mp hl
    first
    | exact (escChar_ok c).1 hx
    | exact (escChar_ok c).2 hx

theorem indent_ok (d : Nat) : '>' ∉ indentChars d := by
  intro hm
  have h := List.eq_of_mem_replicate hm
  exact absurd h (by decide)

theorem renderAttr_ok {a : XAttr} (h : '>' ∉ a.name) : '>' ∉ renderAttr a := by
  intro hm
  simp only [renderAttr, List.mem_cons, List.mem_append, List.mem_singleton,
    List.not_mem_nil, or_false] at hm
  rcases hm with h1 | (h1 | h1 | h1 | h1) | h1 <;>
    first
    | exact absurd h1 (by decide)
    | exact h h1
    | exact (escText_ok a.value).1 h1

theorem renderAttrs_ok {attrs : List XAttr}
    (h : ∀ a ∈ attrs, '>' ∉ a.name) : '>' ∉ renderAttrs attrs := by
  intro hmem
  obtain ⟨l, hl, hx⟩ := List.mem_flatten.mp hmem
  obtain ⟨a, ha, rfl⟩ := List.mem_map.mp hl
  exact renderAttr_ok (h a ha) hx

/-! ## C5: the three line shapes of the renderer -/

theorem tagLineGood {pre : List Char} (h : '>' ∉ pre) :
    hasMatch (rewriteLine (pre ++ ['>'])) = false := by
  unfold rewriteLine
  rw [show (pre ++ ['>']).length = pre.length + 1 from by simp,
    rewriteF_skip ['>'] 1 pre h, rewriteF_gt_nil 0, hasMatch_skip ['>'] pre h]
  decide

theorem emptyPairLineGood {pre nm : List Char} (h : '>' ∉ pre)
    (hnm : stepMatch ('<' :: '/' :: (nm ++ ['>'])) = some []) :
    hasMatch (rewriteLine (pre ++ '>' :: '<' :: '/' :: (nm ++ ['>']))) =
      false := by
  unfold rewriteLine
  rw [show (pre ++ '>' :: '<' :: '/' :: (nm ++ ['>'])).length =
      pre.length + (nm.length + 3 + 1) from by simp,
    rewriteF_skip ('>' :: '<' :: '/' :: (nm ++ ['>'])) (nm.length + 3 + 1) pre h,
    rewriteF_gt_found hnm, rewriteF_nil, hasMatch_skip _ pre h]
  decide

theorem idLineGood {pre mid : List Char} (h : '>' ∉ pre) (hmid : '>' ∉ mid)
    (hsm : stepMatch (mid ++ ['>']) = none) :
    hasMatch (rewriteLine (pre ++ '>' :: (mid ++ ['>']))) = false := by
  unfold rewriteLine
  rw [show (pre ++ '>' :: (mid ++ ['>'])).length =
      pre.length + (mid.length + 1 + 1) from by simp,
    rewriteF_skip ('>' :: (mid ++ ['>'])) (mid.length + 1 + 1) pre h,
    rewriteF_gt_none hsm, rewriteF_skip ['>'] 1 mid hmid, rewriteF_gt_nil 0,
    hasMatch_skip _ pre h, hasMatch_gt_none hsm, hasMatch_skip ['>'] mid hmid]
  decide

/-! ## C5: attribute names appearing in built attribute lists -/

theorem mem_optAttr {a : XAttr} {nm : List Char} {v : Option (List Char)}
    (h : a ∈ optAttr nm v) : a.name = nm := by
  cases v <;> simp_all [optAttr]

theorem mem_strAttr {a : XAttr} {nm v : List Char} (h : a ∈ strAttr nm v) :
    a.name = nm := by
  simp_all [strAttr]

theorem mem_uintAttr {a : XAttr} {nm : List Char} {v : Option Nat}
    (h : a ∈ uintAttr nm v) : a.name = nm := by
  cases v <;> simp_all [uintAttr]

theorem mem_boolAttr {a : XAttr} {nm : List Char} {v : Option Bool}
    (h : a ∈ boolAttr nm v) : a.name = nm := by
  cases v <;> simp_all [boolAttr]

theorem mem_intAttr {a : XAttr} {nm : List Char} {v : Option Int}
    (h : a ∈ intAttr nm v) : a.name = nm := by
  cases v <;> simp_all [intAttr]

theorem mem_condAttr {a : XAttr} {nm : List Char} {c : ConditionalUint}
    (h : a ∈ condAttr nm c) : a.name = nm := by
  unfold condAttr at h
  rcases hm : c.marshalXMLAttr with _ | v <;> rw [hm] at h <;> simp_all

def NamesOK (attrs : List XAttr) : Prop := ∀ a ∈ attrs, '>' ∉ a.name

theorem namesOK_append {l1 l2 : List XAttr} (h1 : NamesOK l1) (h2 : NamesOK l2) :
    NamesOK (l1 ++ l2) := fun a ha =>
  (List.mem_append.mp ha).elim (h1 a) (h2 a)

theorem namesOK_optAttr {nm : List Char} (v : Option (List Char))
    (h : '>' ∉ nm) : NamesOK (optAttr nm v) := fun a ha => (mem_optAttr ha) ▸ h

theorem namesOK_strAttr {nm : List Char} (v : List Char) (h : '>' ∉ nm) :
    NamesOK (strAttr nm v) := fun a ha => (mem_strAttr ha) ▸ h

theorem namesOK_uintAttr {nm : List Char} (v : Option Nat) (h : '>' ∉ nm) :
    NamesOK (uintAttr nm v) := fun a ha => (mem_uintAttr ha) ▸ h

theorem namesOK_boolAttr {nm : List Char} (v : Option Bool) (h : '>' ∉ nm) :
    NamesOK (boolAttr nm v) := fun a ha => (mem_boolAttr ha) ▸ h

theorem namesOK_intAttr {nm : List Char} (v : Option Int) (h : '>' ∉ nm) :
    NamesOK (intAttr nm v) := fun a ha => (mem_intAttr ha) ▸ h

theorem namesOK_condAttr {nm : List Char} (c : ConditionalUint) (h : '>' ∉ nm) :
    NamesOK (condAttr nm c) := fun a ha => (mem_condAttr ha) ▸ h

/-! ## C5: goodness of the renderer's line forms -/

theorem preOK {d : Nat} {nm : List Char} {attrsL : List XAttr} (hnm : '>' ∉ nm)
    (hattrs : NamesOK attrsL) :
    '>' ∉ indentChars d ++ '<' :: (nm ++ renderAttrs attrsL) := by
  intro hmem
  rcases List.mem_append.mp hmem with h1 | h1
  · exact indent_ok d h1
  · rcases List.mem_cons.mp h1 with h2 | h2
    · exact absurd h2 (by decide)
    · rcases List.mem_append.mp h2 with h3 | h3
      · exact hnm h3
      · exact renderAttrs_ok hattrs h3

theorem openLineGood {d : Nat} {nm : List Char} {attrsL : List XAttr}
    (hnm : '>' ∉ nm) (hattrs : NamesOK attrsL) :
    hasMatch (rewriteLine
      (indentChars d ++ '<' :: (nm ++ renderAttrs attrsL) ++ ['>'])) = false := by
  rw [show indentChars d ++ '<' :: (nm ++ renderAttrs attrsL) ++ ['>'] =
      (indentChars d ++ '<' :: (nm ++ renderAttrs attrsL)) ++ ['>'] from by simp]
  exact tagLineGood (preOK hnm hattrs)

theorem closeLineGood {d : Nat} {nm : List Char} (hnm : '>' ∉ nm) :
    hasMatch (rewriteLine (indentChars d ++ '<' :: '/' :: (nm ++ ['>']))) =
      false := by
  rw [show indentChars d ++ '<' :: '/' :: (nm ++ ['>']) =
      (indentChars d ++ '<' :: '/' :: nm) ++ ['>'] from by simp]
  refine tagLineGood ?_
  intro hmem
  rcases List.mem_append.mp hmem with h1 | h1
  · exact indent_ok d h1
  · rcases List.mem_cons.mp h1 with h2 | h2
    · exact absurd h2 (by decide)
    · rcases List.mem_cons.mp h2 with h3 | h3
      · exact absurd h3 (by decide)
      · exact hnm h3

theorem leafLineGood {d : Nat} {nm : List Char} {attrsL : List XAttr}
    {cd : List Char} (hnm : '>' ∉ nm)
    (hsm : stepMatch ('<' :: '/' :: (nm ++ ['>'])) = some [] ∨
      stepMatch ('<' :: '/' :: (nm ++ ['>'])) = none)
    (hattrs : NamesOK attrsL) :
    hasMatch (rewriteLine (indentChars d ++ '<' :: (nm ++ renderAttrs attrsL)
      ++ '>' :: (escText cd ++ '<' :: '/' :: (nm ++ ['>'])))) = false := by
  have hpre : '>' ∉ indentChars d ++ '<' :: (nm ++ renderAttrs attrsL) :=
    preOK hnm hattrs
  rw [show indentChars d ++ '<' :: (nm ++ renderAttrs attrsL)
      ++ '>' :: (escText cd ++ '<' :: '/' :: (nm ++ ['>'])) =
      (indentChars d ++ '<' :: (nm ++ renderAttrs attrsL))
        ++ '>' :: (escText cd ++ '<' :: '/' :: (nm ++ ['>'])) from by simp]
  rcases hcd : escText cd with _ | ⟨e, esc⟩
  · rcases hsm with hsm | hsm
    · rw [List.nil_append]
      exact emptyPairLineGood hpre hsm
    · rw [show ([] : List Char) ++ '<' :: '/' :: (nm ++ ['>']) =
          ('<' :: '/' :: nm) ++ ['>'] from by simp]
      refine idLineGood hpre ?_ ?_
      · intro hmem
        rcases List.mem_cons.mp hmem with h2 | h2
        · exact absurd h2 (by decide)
        · rcases List.mem_cons.mp h2 with h3 | h3
          · exact absurd h3 (by decide)
          · exact hnm h3
      · rw [show ('<' :: '/' :: nm) ++ ['>'] = '<' :: '/' :: (nm ++ ['>'])
          from by simp]
        exact hsm
  · have he_lt : e ≠ '<' := by
      intro hh
      refine (escText_ok cd).2 ?_
      rw [hcd, ← hh]
      exact List.mem_cons_self e esc
    have hgt : '>' ∉ (e :: esc) := hcd ▸ (escText_ok cd).1
    have hmid : '>' ∉ (e :: esc) ++ '<' :: '/' :: nm := by
      intro hmem
      rcases List.mem_append.mp hmem with h1 | h1
      · exact hgt h1
      · rcases List.mem_cons.mp h1 with h2 | h2
        · exact absurd h2 (by decide)
        · rcases List.mem_cons.mp h2 with h3 | h3
          · exact absurd h3 (by decide)
          · exact hnm h3
    have hsm2 : stepMatch (((e :: esc) ++ '<' :: '/' :: nm) ++ ['>']) = none := by
      rw [show ((e :: esc) ++ '<' :: '/' :: nm) ++ ['>'] =
          e :: (esc ++ '<' :: '/' :: (nm ++ ['>'])) from by simp]
      exact stepMatch_ne_lt he_lt _
    rw [show (e :: esc) ++ '<' :: '/' :: (nm ++ ['>']) =
        ((e :: esc) ++ '<' :: '/' :: nm) ++ ['>'] from by simp]
    exact idLineGood hpre hmid hsm2

theorem mem_renderF_branch {g d : Nat} {nm : List Char} {attrsL : List XAttr}
    {k : XmlElem} {ks : List XmlElem} {cd : List Char} {l : List Char}
    (hl : l ∈ renderF (g + 1) d (.mk nm attrsL (k :: ks) cd)) :
    l = indentChars d ++ '<' :: (nm ++ renderAttrs attrsL) ++ ['>'] ∨
    (∃ c ∈ k :: ks, l ∈ renderF g (d + 1) c) ∨
    l = indentChars d ++ '<' :: '/' :: (nm ++ ['>']) := by
  simp only [renderF, List.mem_cons, List.mem_append, List.mem_flatten,
    List.mem_map] at hl
  rcases hl with h1 | h1
  · exact Or.inl h1
  rcases h1 with ⟨s, ⟨c, hc, rfl⟩, hls⟩ | h1
  · exact Or.inr (Or.inl ⟨c, List.mem_cons.mpr hc, hls⟩)
  · rcases h1 with h1 | h1
    · exact Or.inr (Or.inr h1)
    · exact absurd h1 (List.not_mem_nil l)

theorem linesGood_pssh (g d : Nat) (pm : psshMarshal) :
    ∀ l ∈ renderF (g + 1) d (psshMarshal.toElem pm),
      hasMatch (rewriteLine l) = false := by
  intro l hl
  unfold psshMarshal.toElem at hl
  simp only [renderF, List.mem_singleton] at hl
  subst hl
  exact leafLineGood (by decide) (Or.inr (by decide))
    (namesOK_optAttr _ (by decide))

theorem linesGood_s (g d : Nat) (s : SegmentTimelineS) :
    ∀ l ∈ renderF (g + 1) d (SegmentTimelineS.toElem s),
      hasMatch (rewriteLine l) = false := by
  intro l hl
  unfold SegmentTimelineS.toElem at hl
  simp only [renderF, List.mem_singleton] at hl
  subst hl
  exact leafLineGood (by decide) (Or.inl (by decide))
    (namesOK_append (namesOK_append (namesOK_uintAttr _ (by decide))
      (namesOK_strAttr _ (by decide))) (namesOK_intAttr _ (by decide)))

theorem linesGood_st (g d : Nat) (st : SegmentTemplate) :
    ∀ l ∈ renderF (g + 1 + 1 + 1) d (SegmentTemplate.toElem st),
      hasMatch (rewriteLine l) = false := by
  have hattrs : NamesOK (uintAttr aTimescale st.Timescale
      ++ optAttr aMedia st.Media ++ optAttr aInitialization st.Initialization
      ++ uintAttr aStartNumber st.StartNumber
      ++ uintAttr aPresentationTimeOffset st.PresentationTimeOffset) :=
    namesOK_append (namesOK_append (namesOK_append (namesOK_append
      (namesOK_uintAttr _ (by decide)) (namesOK_optAttr _ (by decide)))
      (namesOK_optAttr _ (by decide))) (namesOK_uintAttr _ (by decide)))
      (namesOK_uintAttr _ (by decide))
  intro l hl
  unfold SegmentTemplate.toElem at hl
  rcases hss : st.SegmentTimelineS with _ | ⟨s0, ss⟩ <;> rw [hss] at hl
  · simp only [renderF, List.mem_singleton] at hl
    subst hl
    exact leafLineGood (by decide) (Or.inl (by decide)) hattrs
  · rcases mem_renderF_branch hl with h1 | ⟨c, hc, hlc⟩ | h1
    · subst h1
      exact openLineGood (by decide) hattrs
    · rcases List.mem_singleton.mp hc with rfl
      rcases mem_renderF_branch hlc with h2 | ⟨c2, hc2, hlc2⟩ | h2
      · subst h2
        exact openLineGood (by decide) (fun a ha => absurd ha (List.not_mem_nil a))
      · rcases List.mem_cons.mp hc2 with rfl | h3
        · exact linesGood_s g (d + 1 + 1) s0 l hlc2
        · obtain ⟨s1, _, rfl⟩ := List.mem_map.mp h3
          exact linesGood_s g (d + 1 + 1) s1 l hlc2
      · subst h2
        exact closeLineGood (by decide)
    · subst h1
      exact closeLineGood (by decide)

theorem linesGood_desc (g d : Nat) (dm : descriptorMarshal) :
    ∀ l ∈ renderF (g + 1 + 1) d (descriptorMarshal.toElem dm),
      hasMatch (rewriteLine l) = false := by
  have hattrs : NamesOK (optAttr aSchemeIdUri dm.SchemeIDURI
      ++ optAttr aValue dm.Value ++ optAttr aCencDefaultKID dm.CencDefaultKID
      ++ optAttr aXmlnsCenc dm.Cenc) :=
    namesOK_append (namesOK_append (namesOK_append
      (namesOK_optAttr _ (by decide)) (namesOK_optAttr _ (by decide)))
      (namesOK_optAttr _ (by decide))) (namesOK_optAttr _ (by decide))
  intro l hl
  unfold descriptorMarshal.toElem at hl
  rcases hp : dm.Pssh with _ | p <;> rw [hp] at hl
  · simp only [renderF, List.mem_singleton] at hl
    subst hl
    exact leafLineGood (by decide) (Or.inl (by decide)) hattrs
  · rcases mem_renderF_branch hl with h1 | ⟨c, hc, hlc⟩ | h1
    · subst h1
      exact openLineGood (by decide) hattrs
    · rcases List.mem_singleton.mp hc with rfl
      exact linesGood_pssh g (d + 1) p l hlc
    · subst h1
      exact closeLineGood (by decide)

theorem linesGood_repr (g d : Nat) (rm : representationMarshal) :
    ∀ l ∈ renderF (g + 1 + 1 + 1 + 1) d (representationMarshal.toElem rm),
      hasMatch (rewriteLine l) = false := by
  have hattrs : NamesOK (optAttr aId rm.ID ++ uintAttr aWidth rm.Width
      ++ uintAttr aHeight rm.Height ++ optAttr aSar rm.SAR
      ++ optAttr aFrameRate rm.FrameRate ++ uintAttr aBandwidth rm.Bandwidth
      ++ optAttr aAudioSamplingRate rm.AudioSamplingRate
      ++ optAttr aCodecs rm.Codecs) :=
    namesOK_append (namesOK_append (namesOK_append (namesOK_append
      (namesOK_append (namesOK_append (namesOK_append
        (namesOK_optAttr _ (by decide)) (namesOK_uintAttr _ (by decide)))
        (namesOK_uintAttr _ (by decide))) (namesOK_optAttr _ (by decide)))
      (namesOK_optAttr _ (by decide))) (namesOK_uintAttr _ (by decide)))
      (namesOK_optAttr _ (by decide))) (namesOK_optAttr _ (by decide))
  intro l hl
  unfold representationMarshal.toElem at hl
  rcases hcs : rm.ContentProtections.map descriptorMarshal.toElem
      ++ (match rm.SegmentTemplate with
        | some st => [st.toElem]
        | none => []) with _ | ⟨k, ks⟩ <;> rw [hcs] at hl
  · simp only [renderF, List.mem_singleton] at hl
    subst hl
    exact leafLineGood (by decide) (Or.inl (by decide)) hattrs
  · rcases mem_renderF_branch hl with h1 | ⟨c, hc, hlc⟩ | h1
    · subst h1
      exact openLineGood (by decide) hattrs
    · rw [← hcs] at hc
      rcases List.mem_append.mp hc with h2 | h2
      · obtain ⟨dm, _, rfl⟩ := List.mem_map.mp h2
        exact linesGood_desc (g + 1) (d + 1) dm l hlc
      · rcases hst : rm.SegmentTemplate with _ | stv <;> rw [hst] at h2
        · exact absurd h2 (List.not_mem_nil c)
        · rcases List.mem_singleton.mp h2 with rfl
          exact linesGood_st g (d + 1) stv l hlc
    · subst h1
      exact closeLineGood (by decide)

theorem linesGood_as (g d : Nat) (am : adaptationSetMarshal) :
    ∀ l ∈ renderF (g + 1 + 1 + 1 + 1 + 1) d (adaptationSetMarshal.toElem am),
      hasMatch (rewriteLine l) = false := by
  have hattrs : NamesOK (strAttr aMimeType am.MimeType
      ++ condAttr aSegmentAlignment am.SegmentAlignment
      ++ uintAttr aStartWithSAP am.StartWithSAP
      ++ boolAttr aBitstreamSwitching am.BitstreamSwitching
      ++ condAttr aSubsegmentAlignment am.SubsegmentAlignment
      ++ uintAttr aSubsegmentStartsWithSAP am.SubsegmentStartsWithSAP
      ++ optAttr aLang am.Lang ++ optAttr aCodecs am.Codecs) :=
    namesOK_append (namesOK_append (namesOK_append (namesOK_append
      (namesOK_append (namesOK_append (namesOK_append
        (namesOK_strAttr _ (by decide)) (namesOK_condAttr _ (by decide)))
        (namesOK_uintAttr _ (by decide))) (namesOK_boolAttr _ (by decide)))
      (namesOK_condAttr _ (by decide))) (namesOK_uintAttr _ (by decide)))
      (namesOK_optAttr _ (by decide))) (namesOK_optAttr _ (by decide))
  intro l hl
  unfold adaptationSetMarshal.toElem at hl
  rcases hrs : am.Representations with _ | ⟨r0, rs⟩ <;> rw [hrs] at hl
  · simp only [List.map_nil, renderF, List.mem_singleton] at hl
    subst hl
    exact leafLineGood (by decide) (Or.inl (by decide)) hattrs
  · rw [List.map_cons] at hl
    rcases mem_renderF_branch hl with h1 | ⟨c, hc, hlc⟩ | h1
    · subst h1
      exact openLineGood (by decide) hattrs
    · rcases List.mem_cons.mp hc with rfl | h2
      · exact linesGood_repr g (d + 1) r0 l hlc
      · obtain ⟨r1, _, rfl⟩ := List.mem_map.mp h2
        exact linesGood_repr g (d + 1) r1 l hlc
    · subst h1
      exact closeLineGood (by decide)

theorem linesGood_period (g d : Nat) (pm : PeriodMarshal) :
    ∀ l ∈ renderF (g + 1 + 1 + 1 + 1 + 1 + 1) d (PeriodMarshal.toElem pm),
      hasMatch (rewriteLine l) = false := by
  have hattrs : NamesOK (optAttr aStart pm.Start ++ optAttr aId pm.ID
      ++ optAttr aDuration pm.Duration) :=
    namesOK_append (namesOK_append (namesOK_optAttr _ (by decide))
      (namesOK_optAttr _ (by decide))) (namesOK_optAttr _ (by decide))
  intro l hl
  unfold PeriodMarshal.toElem at hl
  rcases has : pm.AdaptationSets with _ | ⟨a0, as2⟩ <;> rw [has] at hl
  · simp only [List.map_nil, renderF, List.mem_singleton] at hl
    subst hl
    exact leafLineGood (by decide) (Or.inl (by decide)) hattrs
  · rw [List.map_cons] at hl
    rcases mem_renderF_branch hl with h1 | ⟨c, hc, hlc⟩ | h1
    · subst h1
      exact openLineGood (by decide) hattrs
    · rcases List.mem_cons.mp hc with rfl | h2
      · exact linesGood_as g (d + 1) a0 l hlc
      · obtain ⟨a1, _, rfl⟩ := List.mem_map.mp h2
        exact linesGood_as g (d + 1) a1 l hlc
    · subst h1
      exact closeLineGood (by decide)

theorem linesGood_mpd (g d : Nat) (mm : mpdMarshal) :
    ∀ l ∈ renderF (g + 1 + 1 + 1 + 1 + 1 + 1 + 1) d (mpdMarshal.toElem mm),
      hasMatch (rewriteLine l) = false := by
  have hattrs : NamesOK (optAttr aXmlnsXsi mm.XSI ++ optAttr aXmlns mm.XMLNS
      ++ optAttr aXsiSchemaLocation mm.XSISchemaLocation ++ optAttr aId mm.ID
      ++ optAttr aType mm.Type' ++ optAttr aPublishTime mm.PublishTime
      ++ optAttr aMinimumUpdatePeriod mm.MinimumUpdatePeriod
      ++ optAttr aAvailabilityStartTime mm.AvailabilityStartTime
      ++ optAttr aMediaPresentationDuration mm.MediaPresentationDuration
      ++ optAttr aMinBufferTime mm.MinBufferTime
      ++ optAttr aSuggestedPresentationDelay mm.SuggestedPresentationDelay
      ++ optAttr aTimeShiftBufferDepth mm.TimeShiftBufferDepth
      ++ strAttr aProfiles mm.Profiles ++ optAttr aXmlnsScte35 mm.SCTE35) :=
    namesOK_append (namesOK_append (namesOK_append (namesOK_append
      (namesOK_append (namesOK_append (namesOK_append (namesOK_append
        (namesOK_append (namesOK_append (namesOK_append (namesOK_append
          (namesOK_append (namesOK_optAttr _ (by decide))
            (namesOK_optAttr _ (by decide))) (namesOK_optAttr _ (by decide)))
          (namesOK_optAttr _ (by decide))) (namesOK_optAttr _ (by decide)))
        (namesOK_optAttr _ (by decide))) (namesOK_optAttr _ (by decide)))
      (namesOK_optAttr _ (by decide))) (namesOK_optAttr _ (by decide)))
      (namesOK_optAttr _ (by decide))) (namesOK_optAttr _ (by decide)))
      (namesOK_optAttr _ (by decide))) (namesOK_strAttr _ (by decide)))
      (namesOK_optAttr _ (by decide))
  intro l hl
  unfold mpdMarshal.toElem at hl
  rcases hp : mm.Period with _ | p <;> rw [hp] at hl
  · simp only [renderF, List.mem_singleton] at hl
    subst hl
    exact leafLineGood (by decide) (Or.inl (by decide)) hattrs
  · rcases mem_renderF_branch hl with h1 | ⟨c, hc, hlc⟩ | h1
    · subst h1
      exact openLineGood (by decide) hattrs
    · rcases List.mem_singleton.mp hc with rfl
      exact linesGood_period g (d + 1) p l hlc
    · subst h1
      exact closeLineGood (by decide)

/-! ## C5 claim theorems -/

def c5doc : MPD :=
  { emptyMPD with
    Profiles := ("p").data,
    Period := some
      { Start := none, ID := none, Duration := none,
        AdaptationSets := [
          { emptyAdaptationSet with
            Representations := [
              { emptyRepresentation with
                ContentProtections := [
                  { SchemeIDURI := none, Value := none, CencDefaultKID := none,
                    Cenc := none,
                    Pssh := some { Cenc := none, Value := none } } ] } ] } ] } }

/-- C5 counterexample: the claim says no empty element ever appears as an
open tag immediately followed by its close tag, regardless of tag name.
The rewrite regex `></[A-Za-z]+>` does not match the `cenc:pssh` tag
(its name contains a colon), so an empty pssh element survives in
open/close form in the output. -/
theorem claimC5_counterexample :
    (("          <cenc:pssh></cenc:pssh>").data) ∈ encodeLines c5doc := by
  decide

/-- C5 amended: in the bytes produced by Encode, no line ever contains an
empty-element open/close pair whose tag name consists only of ASCII letters
(the `emptyElementRE` pattern): every such empty element is rewritten to
self-closing form.  Empty elements whose serialized tag name contains a
non-letter — the `cenc:pssh` element — are not rewritten and remain as
open/close pairs. -/
theorem claimC5_selfClosing (m : MPD) (line : List Char)
    (h : line ∈ encodeLines m) : hasMatch line = false := by
  unfold encodeLines at h
  obtain ⟨raw, hraw, rfl⟩ := List.mem_map.mp h
  exact linesGood_mpd 9 0 (modifyXMLStuct m) raw hraw

/-- Witness for C5's amended statement: the rewritten empty Period line of
a concrete document contains no match of the empty-element pattern. -/
theorem claimC5_selfClosing_witness :
    hasMatch (("  <Period/>").data) = false :=
  claimC5_selfClosing noPeriodDoc (("  <Period/>").data) (by decide)

/-! ## C1: number formatting/parsing round trips -/

theorem optBind_some {α β : Type} (a : α) (f : α → Option β) :
    (some a).bind f = f a := rfl

theorem optBind_none {α β : Type} (f : α → Option β) :
    (Option.none : Option α).bind f = none := rfl

theorem digitsAuxF_eq : ∀ (f n : Nat), n ≤ f → digitsAuxF f n = Nat.digits 10 n := by
  intro f
  induction f with
  | zero =>
    intro n hn
    interval_cases n
    simp [digitsAuxF]
  | succ f ih =>
    intro n hn
    cases n with
    | zero => simp [digitsAuxF]
    | succ m =>
      have hdiv : (m + 1) / 10 ≤ f := by
        have h1 : (m + 1) / 10 < m + 1 := Nat.div_lt_self (Nat.succ_pos m) (by norm_num)
        omega
      rw [show digitsAuxF (f + 1) (m + 1) =
          ((m + 1) % 10) :: digitsAuxF f ((m + 1) / 10) from rfl,
        ih _ hdiv, Nat.digits_def' (by norm_num : 1 < 10) (Nat.succ_pos m)]

theorem decDigits_eq (n : Nat) : decDigits n = Nat.digits 10 n :=
  digitsAuxF_eq n n le_rfl

theorem digitsVal_reverse (L : List Nat) :
    ∀ a : Nat, (L.reverse).foldl (fun x d => x * 10 + d) a =
      a * 10 ^ L.length + Nat.ofDigits 10 L := by
  induction L with
  | nil => intro a; simp [Nat.ofDigits_nil]
  | cons d L ih =>
    intro a
    rw [List.reverse_cons, List.foldl_append, ih a]
    simp only [List.foldl_cons, List.foldl_nil, Nat.ofDigits_cons,
      List.length_cons]
    ring

theorem charDigit_digitChar {d : Nat} (h : d < 10) :
    charDigit (digitChar d) = some d := by
  interval_cases d <;> decide

theorem mapM_digitChar {L : List Nat} (h : ∀ d ∈ L, d < 10) :
    (L.map digitChar).mapM charDigit = some L := by
  induction L with
  | nil => rfl
  | cons d L ih =>
    rw [List.map_cons, List.mapM_cons, charDigit_digitChar (h d (by simp)),
      ih (fun x hx => h x (by simp [hx]))]
    rfl

theorem parseUint64_formatUint {n : Nat} (h : n < twoP64) :
    parseUint64 (formatUint n) = some n := by
  by_cases h0 : n = 0
  · subst h0
    decide
  · unfold formatUint
    rw [if_neg h0]
    unfold parseUint64
    have hne : decDigits n ≠ [] := by
      rw [decDigits_eq]
      exact Nat.digits_ne_nil_iff_ne_zero.mpr h0
    rw [if_neg (by simp [hne])]
    have hlt : ∀ d ∈ (decDigits n).reverse, d < 10 := by
      intro d hd
      rw [List.mem_reverse, decDigits_eq] at hd
      exact Nat.digits_lt_base (by norm_num) hd
    rw [mapM_digitChar hlt, optBind_some]
    have hval : digitsVal (decDigits n).reverse = n := by
      unfold digitsVal
      rw [digitsVal_reverse (decDigits n) 0, Nat.zero_mul, Nat.zero_add,
        decDigits_eq, Nat.ofDigits_digits]
    rw [hval, if_pos h]

theorem formatUint_all_digits (n : Nat) :
    ∀ c ∈ formatUint n, (charDigit c).isSome = true := by
  intro c hc
  unfold formatUint at hc
  by_cases h0 : n = 0
  · rw [if_pos h0] at hc
    rcases List.mem_singleton.mp hc with rfl
    decide
  · rw [if_neg h0] at hc
    obtain ⟨d, hd, rfl⟩ := List.mem_map.mp hc
    rw [List.mem_reverse, decDigits_eq] at hd
    rw [charDigit_digitChar (Nat.digits_lt_base (by norm_num) hd)]
    rfl

theorem formatUint_ne_nil (n : Nat) : formatUint n ≠ [] := by
  unfold formatUint
  by_cases h0 : n = 0
  · simp [h0]
  · rw [if_neg h0]
    simp only [ne_eq, List.map_eq_nil_iff, List.reverse_eq_nil_iff]
    rw [decDigits_eq]
    exact Nat.digits_ne_nil_iff_ne_zero.mpr h0

theorem parseUint64_lt {x : List Char} {v : Nat} (h : parseUint64 x = some v) :
    v < twoP64 := by
  unfold parseUint64 at h
  by_cases he : x.isEmpty
  · rw [if_pos he] at h
    cases h
  · rw [if_neg he] at h
    rcases hm : x.mapM charDigit with _ | ds <;> rw [hm] at h
    · rw [optBind_none] at h
      exact Option.noConfusion h
    · rw [optBind_some] at h
      split_ifs at h with hb
      · cases h
        exact hb

theorem parseInt64_cons (c : Char) (rest : List Char) :
    parseInt64 (c :: rest) =
      if c = '-' then
        (parseUint64 rest).bind fun m =>
          if m ≤ twoP63 then some (-(m : Int)) else none
      else if c = '+' then
        (parseUint64 rest).bind fun m =>
          if m < twoP63 then some ((m : Int)) else none
      else
        (parseUint64 (c :: rest)).bind fun m =>
          if m < twoP63 then some ((m : Int)) else none := rfl

theorem parseInt64_range {x : List Char} {r : Int} (h : parseInt64 x = some r) :
    -((twoP63 : Nat) : Int) ≤ r ∧ r < ((twoP63 : Nat) : Int) := by
  rcases x with _ | ⟨c, rest⟩
  · cases h
  · simp only [parseInt64] at h
    split_ifs at h with h1 h2
    · rcases hp : parseUint64 rest with _ | m <;> rw [hp] at h
      · rw [optBind_none] at h
        exact Option.noConfusion h
      · rw [optBind_some] at h
        split_ifs at h with hm
        · cases h
          unfold twoP63 at *
          omega
    · rcases hp : parseUint64 rest with _ | m <;> rw [hp] at h
      · rw [optBind_none] at h
        exact Option.noConfusion h
      · rw [optBind_some] at h
        split_ifs at h with hm
        · cases h
          omega
    · rcases hp : parseUint64 (c :: rest) with _ | m <;> rw [hp] at h
      · rw [optBind_none] at h
        exact Option.noConfusion h
      · rw [optBind_some] at h
        split_ifs at h with hm
        · cases h
          omega

theorem parseInt64_formatInt {i : Int}
    (h1 : -((twoP63 : Nat) : Int) ≤ i) (h2 : i < ((twoP63 : Nat) : Int)) :
    parseInt64 (formatInt i) = some i := by
  have habs64 : i.natAbs < twoP64 := by
    unfold twoP63 at h1 h2
    unfold twoP64
    omega
  by_cases hneg : i < 0
  · unfold formatInt
    rw [if_pos hneg, parseInt64_cons, if_pos rfl,
      parseUint64_formatUint habs64, optBind_some]
    have hle : i.natAbs ≤ twoP63 := by
      unfold twoP63 at h1 ⊢
      omega
    rw [if_pos hle]
    congr 1
    omega
  · unfold formatInt
    rw [if_neg hneg]
    rcases hs : formatUint i.natAbs with _ | ⟨c, rest⟩
    · exact absurd hs (formatUint_ne_nil _)
    · have hdig : (charDigit c).isSome = true := by
        refine formatUint_all_digits i.natAbs c ?_
        rw [hs]
        exact List.mem_cons_self c rest
      have hc1 : c ≠ '-' := by
        intro hh
        rw [hh] at hdig
        exact absurd hdig (by decide)
      have hc2 : c ≠ '+' := by
        intro hh
        rw [hh] at hdig
        exact absurd hdig (by decide)
      rw [parseInt64_cons, if_neg hc1, if_neg hc2, ← hs,
        parseUint64_formatUint habs64, optBind_some]
      have hlt : i.natAbs < twoP63 := by
        unfold twoP63 at h2 ⊢
        omega
      rw [if_pos hlt]
      congr 1
      omega

theorem parseBool_formatBool (b : Bool) : parseBool (formatBool b) = some b := by
  cases b <;> decide

theorem parseUint64_formatBool (b : Bool) : parseUint64 (formatBool b) = none := by
  cases b <;> decide

/-! ## C1: the Decode-Encode-Decode round trip

The remainder of the development proves claim C1: a document obtained by a
successful decode of a well-formed, schema-conformant input (no duplicate
attribute local names anywhere; at least one Period child under the root,
as the DASH schema requires) is reproduced exactly by decoding its own
encoding.  The proof has two halves: a successful decode establishes the
value invariants below, and under those invariants every node of the tree
produced by `encodeTree` decodes back to the node it was built from. -/

theorem foldAttrs_nil {σ : Type} (step : σ → XAttr → Except ParseError σ)
    (s : σ) : foldAttrs step [] s = (s, none) := rfl

theorem foldKids_nil {σ : Type} (step : σ → XmlElem → σ × Option ParseError)
    (s : σ) : foldKids step [] s = (s, none) := rfl

theorem foldAttrs_seg {σ : Type} (step : σ → XAttr → Except ParseError σ)
    (xs ys : List XAttr) (s s1 : σ) (r : σ × Option ParseError)
    (h1 : foldAttrs step xs s = (s1, none))
    (h2 : foldAttrs step ys s1 = r) :
    foldAttrs step (xs ++ ys) s = r := by
  induction xs generalizing s with
  | nil =>
    rw [List.nil_append]
    injection h1 with ha hb
    rw [ha]
    exact h2
  | cons a xs ih =>
    rw [List.cons_append]
    cases hs : step s a with
    | ok s2 =>
      rw [foldAttrs_cons_ok step a (xs ++ ys) s s2 hs]
      rw [foldAttrs_cons_ok step a xs s s2 hs] at h1
      exact ih s2 h1
    | error e =>
      rw [foldAttrs_cons_err step a xs s e hs] at h1
      injection h1 with ha hb
      exact Option.noConfusion hb

theorem foldKids_seg {σ : Type} (step : σ → XmlElem → σ × Option ParseError)
    (xs ys : List XmlElem) (s s1 : σ) (r : σ × Option ParseError)
    (h1 : foldKids step xs s = (s1, none))
    (h2 : foldKids step ys s1 = r) :
    foldKids step (xs ++ ys) s = r := by
  induction xs generalizing s with
  | nil =>
    rw [List.nil_append]
    injection h1 with ha hb
    rw [ha]
    exact h2
  | cons c xs ih =>
    rw [List.cons_append]
    rcases hs : step s c with ⟨s2, e2⟩
    cases e2 with
    | none =>
      rw [foldKids_cons_ok step c (xs ++ ys) s s2 hs]
      rw [foldKids_cons_ok step c xs s s2 hs] at h1
      exact ih s2 h1
    | some err =>
      rw [foldKids_cons_err step c xs s s2 err hs] at h1
      injection h1 with ha hb
      exact Option.noConfusion hb

theorem foldOpt {σ : Type} (step : σ → XAttr → Except ParseError σ)
    (nm : List Char) (v : Option (List Char)) (s t : σ)
    (hnone : v = none → t = s)
    (hsome : ∀ w, v = some w → step s ⟨nm, w⟩ = .ok t) :
    foldAttrs step (optAttr nm v) s = (t, none) := by
  cases v with
  | none =>
    rw [hnone rfl]
    rfl
  | some w =>
    simp only [optAttr]
    rw [foldAttrs_cons_ok step ⟨nm, w⟩ [] s t (hsome w rfl)]
    rfl

theorem foldStr {σ : Type} (step : σ → XAttr → Except ParseError σ)
    (nm w : List Char) (s t : σ) (h : step s ⟨nm, w⟩ = .ok t) :
    foldAttrs step (strAttr nm w) s = (t, none) := by
  simp only [strAttr]
  rw [foldAttrs_cons_ok step ⟨nm, w⟩ [] s t h]
  rfl

theorem foldUintA {σ : Type} (step : σ → XAttr → Except ParseError σ)
    (nm : List Char) (v : Option Nat) (s t : σ)
    (hnone : v = none → t = s)
    (hsome : ∀ k, v = some k → step s ⟨nm, formatUint k⟩ = .ok t) :
    foldAttrs step (uintAttr nm v) s = (t, none) := by
  cases v with
  | none =>
    rw [hnone rfl]
    rfl
  | some k =>
    simp only [uintAttr]
    rw [foldAttrs_cons_ok step ⟨nm, formatUint k⟩ [] s t (hsome k rfl)]
    rfl

theorem foldBoolA {σ : Type} (step : σ → XAttr → Except ParseError σ)
    (nm : List Char) (v : Option Bool) (s t : σ)
    (hnone : v = none → t = s)
    (hsome : ∀ b, v = some b → step s ⟨nm, formatBool b⟩ = .ok t) :
    foldAttrs step (boolAttr nm v) s = (t, none) := by
  cases v with
  | none =>
    rw [hnone rfl]
    rfl
  | some b =>
    simp only [boolAttr]
    rw [foldAttrs_cons_ok step ⟨nm, formatBool b⟩ [] s t (hsome b rfl)]
    rfl

theorem foldIntA {σ : Type} (step : σ → XAttr → Except ParseError σ)
    (nm : List Char) (v : Option Int) (s t : σ)
    (hnone : v = none → t = s)
    (hsome : ∀ k, v = some k → step s ⟨nm, formatInt k⟩ = .ok t) :
    foldAttrs step (intAttr nm v) s = (t, none) := by
  cases v with
  | none =>
    rw [hnone rfl]
    rfl
  | some k =>
    simp only [intAttr]
    rw [foldAttrs_cons_ok step ⟨nm, formatInt k⟩ [] s t (hsome k rfl)]
    rfl

theorem foldCondA {σ : Type} (step : σ → XAttr → Except ParseError σ)
    (nm : List Char) (c : ConditionalUint) (s t : σ)
    (hnone : c.u = none → c.b = none → t = s)
    (hu : ∀ n, c.u = some n → step s ⟨nm, formatUint n⟩ = .ok t)
    (hb : c.u = none → ∀ v, c.b = some v → step s ⟨nm, formatBool v⟩ = .ok t) :
    foldAttrs step (condAttr nm c) s = (t, none) := by
  cases hcu : c.u with
  | some n =>
    have hl : condAttr nm c = [⟨nm, formatUint n⟩] := by
      simp [condAttr, ConditionalUint.marshalXMLAttr, hcu]
    rw [hl, foldAttrs_cons_ok step ⟨nm, formatUint n⟩ [] s t (hu n hcu)]
    rfl
  | none =>
    cases hcb : c.b with
    | some v =>
      have hl : condAttr nm c = [⟨nm, formatBool v⟩] := by
        simp [condAttr, ConditionalUint.marshalXMLAttr, hcu, hcb]
      rw [hl, foldAttrs_cons_ok step ⟨nm, formatBool v⟩ [] s t (hb hcu v hcb)]
      rfl
    | none =>
      have hl : condAttr nm c = [] := by
        simp [condAttr, ConditionalUint.marshalXMLAttr, hcu, hcb]
      rw [hl, hnone hcu hcb]
      rfl

/-! Value invariants carried by every document a successful decode can
produce.  The numeric bounds come from `strconv.ParseUint(_, 10, 64)` and
`ParseInt(_, 10, 64)`; the union invariant says a decoded
`ConditionalUint` never holds both alternatives (possible only with
duplicate attributes, which well-formed XML excludes); a decoded `Pssh`
always carries its character data. -/

def OptU64 (v : Option Nat) : Prop := ∀ k, v = some k → k < twoP64

def OptI64 (v : Option Int) : Prop :=
  ∀ k, v = some k → -((twoP63 : Nat) : Int) ≤ k ∧ k < ((twoP63 : Nat) : Int)

def CondOK (c : ConditionalUint) : Prop :=
  (c.u = none ∨ c.b = none) ∧ OptU64 c.u

def SOK (s : SegmentTimelineS) : Prop :=
  OptU64 s.T ∧ s.D < twoP64 ∧ OptI64 s.R

def STOK (st : SegmentTemplate) : Prop :=
  OptU64 st.Timescale ∧ OptU64 st.StartNumber ∧
    OptU64 st.PresentationTimeOffset ∧ ∀ s ∈ st.SegmentTimelineS, SOK s

def PsshOK (p : Pssh) : Prop := p.Value.isSome = true

def DescOK (dd : Descriptor) : Prop := ∀ p, dd.Pssh = some p → PsshOK p

def ReprOK (r : Representation) : Prop :=
  OptU64 r.Width ∧ OptU64 r.Height ∧ OptU64 r.Bandwidth ∧
    (∀ dd ∈ r.ContentProtections, DescOK dd) ∧
    ∀ st, r.SegmentTemplate = some st → STOK st

def ASOK (s : AdaptationSet) : Prop :=
  CondOK s.SegmentAlignment ∧ CondOK s.SubsegmentAlignment ∧
    OptU64 s.StartWithSAP ∧ OptU64 s.SubsegmentStartsWithSAP ∧
    ∀ r ∈ s.Representations, ReprOK r

def PeriodOK (p : Period) : Prop := ∀ s ∈ p.AdaptationSets, ASOK s

def MPDOK (m : MPD) : Prop :=
  m.XMLName = eMPD ∧ ∀ p, m.Period = some p → PeriodOK p

theorem optU64_none : OptU64 none := by
  intro k hk
  exact Option.noConfusion hk

theorem optI64_none : OptI64 none := by
  intro k hk
  exact Option.noConfusion hk

theorem condOK_zero : CondOK ⟨none, none⟩ := ⟨Or.inl rfl, optU64_none⟩

/-! Encode-side round trip, bottom up: each wire element built from a node
satisfying the invariants decodes back to exactly that node. -/

theorem decS_rt (s : SegmentTimelineS) (h : SOK s) :
    decS (SegmentTimelineS.toElem s) emptySegS = (s, none) := by
  obtain ⟨T, D, R⟩ := s
  obtain ⟨hT, hD, hR⟩ := h
  unfold decS SegmentTimelineS.toElem
  simp only [XmlElem.attrs]
  rw [List.append_assoc]
  refine foldAttrs_seg stepSAttr _ _ _ { emptySegS with T := T } _ ?_ ?_
  · refine foldUintA stepSAttr aT T emptySegS _ ?_ ?_
    · intro hv
      rw [hv]
      rfl
    · intro k hk
      simp [stepSAttr, parseUint64_formatUint (hT k hk), hk]
  · refine foldAttrs_seg stepSAttr _ _ _ { emptySegS with T := T, D := D } _ ?_ ?_
    · refine foldStr stepSAttr aD (formatUint D) _ _ ?_
      simp [stepSAttr, parseUint64_formatUint hD]
    · refine foldIntA stepSAttr aR R _ _ ?_ ?_
      · intro hv
        rw [hv]
        rfl
      · intro k hk
        simp [stepSAttr, parseInt64_formatInt (hR k hk).1 (hR k hk).2, hk]

theorem decPssh_rt (p : Pssh) (hv : PsshOK p) :
    decPssh (psshMarshal.toElem { Cenc := p.Cenc, Value := p.Value }) emptyPssh
      = (p, none) := by
  obtain ⟨C, V⟩ := p
  rcases V with _ | w
  · simp [PsshOK] at hv
  · unfold decPssh psshMarshal.toElem
    simp only [XmlElem.attrs, XmlElem.chardata]
    have hattrs : foldAttrs stepPsshAttr (optAttr aXmlnsCenc C) emptyPssh
        = ({ emptyPssh with Cenc := C }, none) := by
      refine foldOpt stepPsshAttr aXmlnsCenc C emptyPssh _ ?_ ?_
      · intro hv2
        rw [hv2]
        rfl
      · intro w2 hw2
        simp [stepPsshAttr, hw2]
    rw [hattrs]
    rfl

theorem timelineKids_rt (ss : List SegmentTimelineS) (h : ∀ x ∈ ss, SOK x) :
    ∀ st : SegmentTemplate,
      foldKids stepTimelineKid (ss.map SegmentTimelineS.toElem) st =
        ({ st with SegmentTimelineS := st.SegmentTimelineS ++ ss }, none) := by
  induction ss with
  | nil =>
    intro st
    obtain ⟨f1, f2, f3, f4, f5, f6⟩ := st
    simp [foldKids_nil]
  | cons x ss ih =>
    intro st
    rw [List.map_cons]
    have hstep : stepTimelineKid st (SegmentTimelineS.toElem x) =
        ({ st with SegmentTimelineS := st.SegmentTimelineS ++ [x] }, none) := by
      have hname : XmlElem.name (SegmentTimelineS.toElem x) = eS := rfl
      have hdec := decS_rt x (h x (List.mem_cons_self x ss))
      simp [stepTimelineKid, hname, hdec]
    rw [foldKids_cons_ok stepTimelineKid _ _ _ _ hstep,
      ih (fun y hy => h y (List.mem_cons_of_mem x hy))]
    obtain ⟨f1, f2, f3, f4, f5, f6⟩ := st
    simp

theorem decST_rt (st : SegmentTemplate) (h : STOK st) :
    decSegmentTemplate (SegmentTemplate.toElem st) emptySegmentTemplate
      = (st, none) := by
  obtain ⟨Ts, Me, In, SN, PTO, SS⟩ := st
  obtain ⟨hts, hsn, hpto, hss⟩ := h
  have hattrs : foldAttrs stepSTAttr
      (uintAttr aTimescale Ts ++ optAttr aMedia Me ++ optAttr aInitialization In
        ++ uintAttr aStartNumber SN ++ uintAttr aPresentationTimeOffset PTO)
      emptySegmentTemplate =
      ((⟨Ts, Me, In, SN, PTO, []⟩ : SegmentTemplate), none) := by
    simp only [List.append_assoc]
    refine foldAttrs_seg stepSTAttr _ _ _
      (⟨Ts, none, none, none, none, []⟩ : SegmentTemplate) _ ?_ ?_
    · refine foldUintA stepSTAttr aTimescale Ts _ _ ?_ ?_
      · intro hv
        simp [hv, emptySegmentTemplate]
      · intro k hk
        simp [stepSTAttr, parseUint64_formatUint (hts k hk), hk, emptySegmentTemplate]
    · refine foldAttrs_seg stepSTAttr _ _ _
        (⟨Ts, Me, none, none, none, []⟩ : SegmentTemplate) _ ?_ ?_
      · refine foldOpt stepSTAttr aMedia Me _ _ ?_ ?_
        · intro hv
          simp [hv, emptySegmentTemplate]
        · intro w hw
          simp [stepSTAttr, hw, emptySegmentTemplate]
      · refine foldAttrs_seg stepSTAttr _ _ _
          (⟨Ts, Me, In, none, none, []⟩ : SegmentTemplate) _ ?_ ?_
        · refine foldOpt stepSTAttr aInitialization In _ _ ?_ ?_
          · intro hv
            simp [hv, emptySegmentTemplate]
          · intro w hw
            simp [stepSTAttr, hw, emptySegmentTemplate]
        · refine foldAttrs_seg stepSTAttr _ _ _
            (⟨Ts, Me, In, SN, none, []⟩ : SegmentTemplate) _ ?_ ?_
          · refine foldUintA stepSTAttr aStartNumber SN _ _ ?_ ?_
            · intro hv
              simp [hv, emptySegmentTemplate]
            · intro k hk
              simp [stepSTAttr, parseUint64_formatUint (hsn k hk), hk, emptySegmentTemplate]
          · refine foldUintA stepSTAttr aPresentationTimeOffset PTO _ _ ?_ ?_
            · intro hv
              simp [hv, emptySegmentTemplate]
            · intro k hk
              simp [stepSTAttr, parseUint64_formatUint (hpto k hk), hk, emptySegmentTemplate]
  rcases SS with _ | ⟨s0, ss0⟩
  · unfold decSegmentTemplate SegmentTemplate.toElem
    simp only [XmlElem.attrs, XmlElem.children]
    rw [hattrs]
    rfl
  · unfold decSegmentTemplate SegmentTemplate.toElem
    simp only [XmlElem.attrs, XmlElem.children]
    rw [hattrs]
    have hstep : stepSTKid (⟨Ts, Me, In, SN, PTO, []⟩ : SegmentTemplate)
        (XmlElem.mk eSegmentTimeline [] ((s0 :: ss0).map SegmentTimelineS.toElem) []) =
        ((⟨Ts, Me, In, SN, PTO, s0 :: ss0⟩ : SegmentTemplate), none) := by
      have hk := timelineKids_rt (s0 :: ss0) hss
        (⟨Ts, Me, In, SN, PTO, []⟩ : SegmentTemplate)
      simp only [stepSTKid, XmlElem.name, XmlElem.children, keyE_segmentTimeline]
      rw [hk]
      rfl
    show foldKids stepSTKid
        [XmlElem.mk eSegmentTimeline [] ((s0 :: ss0).map SegmentTimelineS.toElem) []]
        (⟨Ts, Me, In, SN, PTO, []⟩ : SegmentTemplate)
      = ((⟨Ts, Me, In, SN, PTO, s0 :: ss0⟩ : SegmentTemplate), none)
    rw [foldKids_cons_ok stepSTKid _ _ _ _ hstep]
    rfl

theorem decDesc_rt (dd : Descriptor) (h : DescOK dd) :
    decDescriptor ((modifyDescriptor dd).toElem) emptyDescriptor = (dd, none) := by
  obtain ⟨SU, Va, CK, Ce, Ps⟩ := dd
  have hattrs : foldAttrs stepDescAttr
      (optAttr aSchemeIdUri SU ++ optAttr aValue Va ++ optAttr aCencDefaultKID CK
        ++ optAttr aXmlnsCenc Ce)
      emptyDescriptor = ((⟨SU, Va, CK, Ce, none⟩ : Descriptor), none) := by
    simp only [List.append_assoc]
    refine foldAttrs_seg stepDescAttr _ _ _
      (⟨SU, none, none, none, none⟩ : Descriptor) _ ?_ ?_
    · refine foldOpt stepDescAttr aSchemeIdUri SU _ _ ?_ ?_
      · intro hv
        simp [hv, emptyDescriptor]
      · intro w hw
        simp [stepDescAttr, hw, emptyDescriptor]
    · refine foldAttrs_seg stepDescAttr _ _ _
        (⟨SU, Va, none, none, none⟩ : Descriptor) _ ?_ ?_
      · refine foldOpt stepDescAttr aValue Va _ _ ?_ ?_
        · intro hv
          simp [hv]
        · intro w hw
          simp [stepDescAttr, hw]
      · refine foldAttrs_seg stepDescAttr _ _ _
          (⟨SU, Va, CK, none, none⟩ : Descriptor) _ ?_ ?_
        · refine foldOpt stepDescAttr aCencDefaultKID CK _ _ ?_ ?_
          · intro hv
            simp [hv]
          · intro w hw
            simp [stepDescAttr, hw]
        · refine foldOpt stepDescAttr aXmlnsCenc Ce _ _ ?_ ?_
          · intro hv
            simp [hv]
          · intro w hw
            simp [stepDescAttr, hw]
  rcases Ps with _ | p
  · unfold decDescriptor modifyDescriptor descriptorMarshal.toElem
    simp only [XmlElem.attrs, XmlElem.children]
    rw [hattrs]
    rfl
  · unfold decDescriptor modifyDescriptor descriptorMarshal.toElem
    simp only [XmlElem.attrs, XmlElem.children]
    rw [hattrs]
    have hstep : stepDescKid (⟨SU, Va, CK, Ce, none⟩ : Descriptor)
        (psshMarshal.toElem { Cenc := p.Cenc, Value := p.Value }) =
        ((⟨SU, Va, CK, Ce, some p⟩ : Descriptor), none) := by
      have hname : XmlElem.name (psshMarshal.toElem { Cenc := p.Cenc, Value := p.Value })
          = eCencPssh := rfl
      have hd := decPssh_rt p (h p rfl)
      simp [stepDescKid, hname, hd]
    show foldKids stepDescKid
        [psshMarshal.toElem { Cenc := p.Cenc, Value := p.Value }]
        (⟨SU, Va, CK, Ce, none⟩ : Descriptor)
      = ((⟨SU, Va, CK, Ce, some p⟩ : Descriptor), none)
    rw [foldKids_cons_ok stepDescKid _ _ _ _ hstep]
    rfl

theorem cpKids_rt (ds : List Descriptor) (h : ∀ x ∈ ds, DescOK x) :
    ∀ r : Representation,
      foldKids stepReprKid ((ds.map modifyDescriptor).map descriptorMarshal.toElem) r =
        ({ r with ContentProtections := r.ContentProtections ++ ds }, none) := by
  induction ds with
  | nil =>
    intro r
    obtain ⟨f1, f2, f3, f4, f5, f6, f7, f8, f9, f10⟩ := r
    simp [foldKids_nil]
  | cons x ds ih =>
    intro r
    rw [List.map_cons, List.map_cons]
    have hstep : stepReprKid r ((modifyDescriptor x).toElem) =
        ({ r with ContentProtections := r.ContentProtections ++ [x] }, none) := by
      have hname : XmlElem.name ((modifyDescriptor x).toElem) = eContentProtection := rfl
      have hd := decDesc_rt x (h x (List.mem_cons_self x ds))
      simp [stepReprKid, hname, hd]
    rw [foldKids_cons_ok stepReprKid _ _ _ _ hstep,
      ih (fun y hy => h y (List.mem_cons_of_mem x hy))]
    obtain ⟨f1, f2, f3, f4, f5, f6, f7, f8, f9, f10⟩ := r
    simp

theorem decRepr_rt (r : Representation) (h : ReprOK r) :
    decRepresentation ((modifyRepresentation r).toElem) emptyRepresentation
      = (r, none) := by
  obtain ⟨ID, Wi, He, SA, FR, Ba, AuS, Co, CP, ST⟩ := r
  obtain ⟨hw, hh, hb, hcp, hst⟩ := h
  have hattrs : foldAttrs stepReprAttr
      (optAttr aId ID ++ uintAttr aWidth Wi ++ uintAttr aHeight He
        ++ optAttr aSar SA ++ optAttr aFrameRate FR ++ uintAttr aBandwidth Ba
        ++ optAttr aAudioSamplingRate AuS ++ optAttr aCodecs Co)
      emptyRepresentation =
      ((⟨ID, Wi, He, SA, FR, Ba, AuS, Co, [], none⟩ : Representation), none) := by
    simp only [List.append_assoc]
    refine foldAttrs_seg stepReprAttr _ _ _
      (⟨ID, none, none, none, none, none, none, none, [], none⟩ : Representation) _ ?_ ?_
    · refine foldOpt stepReprAttr aId ID _ _ ?_ ?_
      · intro hv
        simp [hv, emptyRepresentation]
      · intro w hw2
        simp [stepReprAttr, hw2, emptyRepresentation]
    · refine foldAttrs_seg stepReprAttr _ _ _
        (⟨ID, Wi, none, none, none, none, none, none, [], none⟩ : Representation) _ ?_ ?_
      · refine foldUintA stepReprAttr aWidth Wi _ _ ?_ ?_
        · intro hv
          simp [hv]
        · intro k hk
          simp [stepReprAttr, parseUint64_formatUint (hw k hk), hk]
      · refine foldAttrs_seg stepReprAttr _ _ _
          (⟨ID, Wi, He, none, none, none, none, none, [], none⟩ : Representation) _ ?_ ?_
        · refine foldUintA stepReprAttr aHeight He _ _ ?_ ?_
          · intro hv
            simp [hv]
          · intro k hk
            simp [stepReprAttr, parseUint64_formatUint (hh k hk), hk]
        · refine foldAttrs_seg stepReprAttr _ _ _
            (⟨ID, Wi, He, SA, none, none, none, none, [], none⟩ : Representation) _ ?_ ?_
          · refine foldOpt stepReprAttr aSar SA _ _ ?_ ?_
            · intro hv
              simp [hv]
            · intro w hw2
              simp [stepReprAttr, hw2]
          · refine foldAttrs_seg stepReprAttr _ _ _
              (⟨ID, Wi, He, SA, FR, none, none, none, [], none⟩ : Representation) _ ?_ ?_
            · refine foldOpt stepReprAttr aFrameRate FR _ _ ?_ ?_
              · intro hv
                simp [hv]
              · intro w hw2
                simp [stepReprAttr, hw2]
            · refine foldAttrs_seg stepReprAttr _ _ _
                (⟨ID, Wi, He, SA, FR, Ba, none, none, [], none⟩ : Representation) _ ?_ ?_
              · refine foldUintA stepReprAttr aBandwidth Ba _ _ ?_ ?_
                · intro hv
                  simp [hv]
                · intro k hk
                  simp [stepReprAttr, parseUint64_formatUint (hb k hk), hk]
              · refine foldAttrs_seg stepReprAttr _ _ _
                  (⟨ID, Wi, He, SA, FR, Ba, AuS, none, [], none⟩ : Representation) _ ?_ ?_
                · refine foldOpt stepReprAttr aAudioSamplingRate AuS _ _ ?_ ?_
                  · intro hv
                    simp [hv]
                  · intro w hw2
                    simp [stepReprAttr, hw2]
                · refine foldOpt stepReprAttr aCodecs Co _ _ ?_ ?_
                  · intro hv
                    simp [hv]
                  · intro w hw2
                    simp [stepReprAttr, hw2]
  rcases ST with _ | st
  · unfold decRepresentation modifyRepresentation representationMarshal.toElem
    simp only [XmlElem.attrs, XmlElem.children]
    rw [hattrs]
    show foldKids stepReprKid
        ((CP.map modifyDescriptor).map descriptorMarshal.toElem ++ [])
        (⟨ID, Wi, He, SA, FR, Ba, AuS, Co, [], none⟩ : Representation)
      = ((⟨ID, Wi, He, SA, FR, Ba, AuS, Co, CP, none⟩ : Representation), none)
    refine foldKids_seg stepReprKid _ _ _
      (⟨ID, Wi, He, SA, FR, Ba, AuS, Co, CP, none⟩ : Representation) _ ?_ ?_
    · exact cpKids_rt CP hcp (⟨ID, Wi, He, SA, FR, Ba, AuS, Co, [], none⟩ : Representation)
    · rfl
  · unfold decRepresentation modifyRepresentation representationMarshal.toElem
    simp only [XmlElem.attrs, XmlElem.children]
    rw [hattrs]
    show foldKids stepReprKid
        ((CP.map modifyDescriptor).map descriptorMarshal.toElem
          ++ [SegmentTemplate.toElem st])
        (⟨ID, Wi, He, SA, FR, Ba, AuS, Co, [], none⟩ : Representation)
      = ((⟨ID, Wi, He, SA, FR, Ba, AuS, Co, CP, some st⟩ : Representation), none)
    refine foldKids_seg stepReprKid _ _ _
      (⟨ID, Wi, He, SA, FR, Ba, AuS, Co, CP, none⟩ : Representation) _ ?_ ?_
    · exact cpKids_rt CP hcp (⟨ID, Wi, He, SA, FR, Ba, AuS, Co, [], none⟩ : Representation)
    · have hstep : stepReprKid
          (⟨ID, Wi, He, SA, FR, Ba, AuS, Co, CP, none⟩ : Representation)
          (SegmentTemplate.toElem st) =
          ((⟨ID, Wi, He, SA, FR, Ba, AuS, Co, CP, some st⟩ : Representation), none) := by
        have hname : XmlElem.name (SegmentTemplate.toElem st) = eSegmentTemplate := rfl
        have hd := decST_rt st (hst st rfl)
        simp [stepReprKid, hname, hd]
      rw [foldKids_cons_ok stepReprKid _ _ _ _ hstep]
      rfl

theorem reprKids_rt (rs : List Representation) (h : ∀ x ∈ rs, ReprOK x) :
    ∀ s : AdaptationSet,
      foldKids stepASKid
        ((rs.map modifyRepresentation).map representationMarshal.toElem) s =
        ({ s with Representations := s.Representations ++ rs }, none) := by
  induction rs with
  | nil =>
    intro s
    obtain ⟨f1, f2, f3, f4, f5, f6, f7, f8, f9⟩ := s
    simp [foldKids_nil]
  | cons x rs ih =>
    intro s
    rw [List.map_cons, List.map_cons]
    have hstep : stepASKid s ((modifyRepresentation x).toElem) =
        ({ s with Representations := s.Representations ++ [x] }, none) := by
      have hname : XmlElem.name ((modifyRepresentation x).toElem)
          = eRepresentation := rfl
      have hd := decRepr_rt x (h x (List.mem_cons_self x rs))
      simp [stepASKid, hname, hd]
    rw [foldKids_cons_ok stepASKid _ _ _ _ hstep,
      ih (fun y hy => h y (List.mem_cons_of_mem x hy))]
    obtain ⟨f1, f2, f3, f4, f5, f6, f7, f8, f9⟩ := s
    simp

theorem decAS_rt (s : AdaptationSet) (h : ASOK s) :
    decAdaptationSet ((modifyAdaptationSet s).toElem) emptyAdaptationSet
      = (s, none) := by
  obtain ⟨MT, SgA, SWS, BS, SSA, SSWS, La, Re, Co⟩ := s
  obtain ⟨gu, gb⟩ := SgA
  obtain ⟨su, sb⟩ := SSA
  obtain ⟨hsga, hssa, hsws, hssws, hre⟩ := h
  have hattrs : foldAttrs stepASAttr
      (strAttr aMimeType MT ++ condAttr aSegmentAlignment ⟨gu, gb⟩
        ++ uintAttr aStartWithSAP SWS ++ boolAttr aBitstreamSwitching BS
        ++ condAttr aSubsegmentAlignment ⟨su, sb⟩
        ++ uintAttr aSubsegmentStartsWithSAP SSWS
        ++ optAttr aLang La ++ optAttr aCodecs Co)
      emptyAdaptationSet =
      ((⟨MT, ⟨gu, gb⟩, SWS, BS, ⟨su, sb⟩, SSWS, La, [], Co⟩ : AdaptationSet), none) := by
    simp only [List.append_assoc]
    refine foldAttrs_seg stepASAttr _ _ _
      (⟨MT, ⟨none, none⟩, none, none, ⟨none, none⟩, none, none, [], none⟩
        : AdaptationSet) _ ?_ ?_
    · refine foldStr stepASAttr aMimeType MT _ _ ?_
      simp [stepASAttr, emptyAdaptationSet]
    · refine foldAttrs_seg stepASAttr _ _ _
        (⟨MT, ⟨gu, gb⟩, none, none, ⟨none, none⟩, none, none, [], none⟩
          : AdaptationSet) _ ?_ ?_
      · refine foldCondA stepASAttr aSegmentAlignment ⟨gu, gb⟩ _ _ ?_ ?_ ?_
        · intro h1 h2
          simp only at h1 h2
          simp [h1, h2]
        · intro n hn
          simp only at hn
          rcases hsga.1 with hno | hbo
          · simp only at hno
            rw [hn] at hno
            exact absurd hno (by simp)
          · simp only at hbo
            have hlt := hsga.2 n hn
            simp [stepASAttr, ConditionalUint.unmarshalXMLAttr,
              parseUint64_formatUint hlt, hn, hbo]
        · intro h1 v hv
          simp only at h1 hv
          simp [stepASAttr, ConditionalUint.unmarshalXMLAttr,
            parseUint64_formatBool v, parseBool_formatBool v, h1, hv]
      · refine foldAttrs_seg stepASAttr _ _ _
          (⟨MT, ⟨gu, gb⟩, SWS, none, ⟨none, none⟩, none, none, [], none⟩
            : AdaptationSet) _ ?_ ?_
        · refine foldUintA stepASAttr aStartWithSAP SWS _ _ ?_ ?_
          · intro hv
            simp [hv]
          · intro k hk
            simp [stepASAttr, parseUint64_formatUint (hsws k hk), hk]
        · refine foldAttrs_seg stepASAttr _ _ _
            (⟨MT, ⟨gu, gb⟩, SWS, BS, ⟨none, none⟩, none, none, [], none⟩
              : AdaptationSet) _ ?_ ?_
          · refine foldBoolA stepASAttr aBitstreamSwitching BS _ _ ?_ ?_
            · intro hv
              simp [hv]
            · intro b hb2
              simp [stepASAttr, parseBool_formatBool b, hb2]
          · refine foldAttrs_seg stepASAttr _ _ _
              (⟨MT, ⟨gu, gb⟩, SWS, BS, ⟨su, sb⟩, none, none, [], none⟩
                : AdaptationSet) _ ?_ ?_
            · refine foldCondA stepASAttr aSubsegmentAlignment ⟨su, sb⟩ _ _ ?_ ?_ ?_
              · intro h1 h2
                simp only at h1 h2
                simp [h1, h2]
              · intro n hn
                simp only at hn
                rcases hssa.1 with hno | hbo
                · simp only at hno
                  rw [hn] at hno
                  exact absurd hno (by simp)
                · simp only at hbo
                  have hlt := hssa.2 n hn
                  simp [stepASAttr, ConditionalUint.unmarshalXMLAttr,
                    parseUint64_formatUint hlt, hn, hbo]
              · intro h1 v hv
                simp only at h1 hv
                simp [stepASAttr, ConditionalUint.unmarshalXMLAttr,
                  parseUint64_formatBool v, parseBool_formatBool v, h1, hv]
            · refine foldAttrs_seg stepASAttr _ _ _
                (⟨MT, ⟨gu, gb⟩, SWS, BS, ⟨su, sb⟩, SSWS, none, [], none⟩
                  : AdaptationSet) _ ?_ ?_
              · refine foldUintA stepASAttr aSubsegmentStartsWithSAP SSWS _ _ ?_ ?_
                · intro hv
                  simp [hv]
                · intro k hk
                  simp [stepASAttr, parseUint64_formatUint (hssws k hk), hk]
              · refine foldAttrs_seg stepASAttr _ _ _
                  (⟨MT, ⟨gu, gb⟩, SWS, BS, ⟨su, sb⟩, SSWS, La, [], none⟩
                    : AdaptationSet) _ ?_ ?_
                · refine foldOpt stepASAttr aLang La _ _ ?_ ?_
                  · intro hv
                    simp [hv]
                  · intro w hw2
                    simp [stepASAttr, hw2]
                · refine foldOpt stepASAttr aCodecs Co _ _ ?_ ?_
                  · intro hv
                    simp [hv]
                  · intro w hw2
                    simp [stepASAttr, hw2]
  unfold decAdaptationSet modifyAdaptationSet adaptationSetMarshal.toElem
  simp only [XmlElem.attrs, XmlElem.children]
  rw [hattrs]
  show foldKids stepASKid
      ((Re.map modifyRepresentation).map representationMarshal.toElem)
      (⟨MT, ⟨gu, gb⟩, SWS, BS, ⟨su, sb⟩, SSWS, La, [], Co⟩ : AdaptationSet)
    = ((⟨MT, ⟨gu, gb⟩, SWS, BS, ⟨su, sb⟩, SSWS, La, Re, Co⟩ : AdaptationSet), none)
  exact reprKids_rt Re hre
    (⟨MT, ⟨gu, gb⟩, SWS, BS, ⟨su, sb⟩, SSWS, La, [], Co⟩ : AdaptationSet)

theorem asKids_rt (ss : List AdaptationSet) (h : ∀ x ∈ ss, ASOK x) :
    ∀ p : Period,
      foldKids stepPeriodKid
        ((ss.map modifyAdaptationSet).map adaptationSetMarshal.toElem) p =
        ({ p with AdaptationSets := p.AdaptationSets ++ ss }, none) := by
  induction ss with
  | nil =>
    intro p
    obtain ⟨f1, f2, f3, f4⟩ := p
    simp [foldKids_nil]
  | cons x ss ih =>
    intro p
    rw [List.map_cons, List.map_cons]
    have hstep : stepPeriodKid p ((modifyAdaptationSet x).toElem) =
        ({ p with AdaptationSets := p.AdaptationSets ++ [x] }, none) := by
      have hname : XmlElem.name ((modifyAdaptationSet x).toElem)
          = eAdaptationSet := rfl
      have hd := decAS_rt x (h x (List.mem_cons_self x ss))
      simp [stepPeriodKid, hname, hd]
    rw [foldKids_cons_ok stepPeriodKid _ _ _ _ hstep,
      ih (fun y hy => h y (List.mem_cons_of_mem x hy))]
    obtain ⟨f1, f2, f3, f4⟩ := p
    simp

theorem decPeriod_rt (p : Period) (h : PeriodOK p) :
    decPeriod (PeriodMarshal.toElem (modifyPeriodM (some p))) emptyPeriod
      = (p, none) := by
  obtain ⟨St, IDv, Du, ASl⟩ := p
  have hattrs : foldAttrs stepPeriodAttr
      (optAttr aStart St ++ optAttr aId IDv ++ optAttr aDuration Du) emptyPeriod
      = ((⟨St, IDv, Du, []⟩ : Period), none) := by
    simp only [List.append_assoc]
    refine foldAttrs_seg stepPeriodAttr _ _ _
      (⟨St, none, none, []⟩ : Period) _ ?_ ?_
    · refine foldOpt stepPeriodAttr aStart St _ _ ?_ ?_
      · intro hv
        simp [hv, emptyPeriod]
      · intro w hw
        simp [stepPeriodAttr, hw, emptyPeriod]
    · refine foldAttrs_seg stepPeriodAttr _ _ _
        (⟨St, IDv, none, []⟩ : Period) _ ?_ ?_
      · refine foldOpt stepPeriodAttr aId IDv _ _ ?_ ?_
        · intro hv
          simp [hv]
        · intro w hw
          simp [stepPeriodAttr, hw]
      · refine foldOpt stepPeriodAttr aDuration Du _ _ ?_ ?_
        · intro hv
          simp [hv]
        · intro w hw
          simp [stepPeriodAttr, hw]
  unfold decPeriod modifyPeriodM PeriodMarshal.toElem
  simp only [XmlElem.attrs, XmlElem.children]
  rw [hattrs]
  show foldKids stepPeriodKid
      ((ASl.map modifyAdaptationSet).map adaptationSetMarshal.toElem)
      (⟨St, IDv, Du, []⟩ : Period)
    = ((⟨St, IDv, Du, ASl⟩ : Period), none)
  exact asKids_rt ASl h (⟨St, IDv, Du, []⟩ : Period)

theorem encodeTree_rt (d : MPD) (hX : d.XMLName = eMPD) (p : Period)
    (hp : d.Period = some p) (hP : PeriodOK p) :
    decodeT (encodeTree d) = .ok d := by
  obtain ⟨XNm, XNS, Tyv, MUP, AST, MPDu, MBT, SPD, TSBD, PTv, Prv, XSIv, SCv,
    XSLv, IDv, Pe⟩ := d
  have hX2 : XNm = eMPD := hX
  have hp2 : Pe = some p := hp
  subst hX2
  subst hp2
  have hattrs : foldAttrs stepMPDAttr
      (optAttr aXmlnsXsi XSIv ++ optAttr aXmlns XNS
        ++ optAttr aXsiSchemaLocation XSLv ++ optAttr aId IDv
        ++ optAttr aType Tyv ++ optAttr aPublishTime PTv
        ++ optAttr aMinimumUpdatePeriod MUP
        ++ optAttr aAvailabilityStartTime AST
        ++ optAttr aMediaPresentationDuration MPDu
        ++ optAttr aMinBufferTime MBT
        ++ optAttr aSuggestedPresentationDelay SPD
        ++ optAttr aTimeShiftBufferDepth TSBD
        ++ strAttr aProfiles Prv ++ optAttr aXmlnsScte35 SCv)
      { emptyMPD with XMLName := eMPD } =
      ((⟨eMPD, XNS, Tyv, MUP, AST, MPDu, MBT, SPD, TSBD, PTv, Prv, XSIv, SCv, XSLv, IDv, none⟩ : MPD), none) := by
    simp only [List.append_assoc]
    refine foldAttrs_seg stepMPDAttr _ _ _
        (⟨eMPD, none, none, none, none, none, none, none, none, none, [], XSIv, none, none, none, none⟩ : MPD) _ ?_ ?_
    · refine foldOpt stepMPDAttr aXmlnsXsi XSIv _ _ ?_ ?_
      · intro hv
        simp [hv, emptyMPD]
      · intro w hw
        simp [stepMPDAttr, hw, emptyMPD]
    · refine foldAttrs_seg stepMPDAttr _ _ _
          (⟨eMPD, XNS, none, none, none, none, none, none, none, none, [], XSIv, none, none, none, none⟩ : MPD) _ ?_ ?_
      · refine foldOpt stepMPDAttr aXmlns XNS _ _ ?_ ?_
        · intro hv
          simp [hv, emptyMPD]
        · intro w hw
          simp [stepMPDAttr, hw, emptyMPD]
      · refine foldAttrs_seg stepMPDAttr _ _ _
            (⟨eMPD, XNS, none, none, none, none, none, none, none, none, [], XSIv, none, XSLv, none, none⟩ : MPD) _ ?_ ?_
        · refine foldOpt stepMPDAttr aXsiSchemaLocation XSLv _ _ ?_ ?_
          · intro hv
            simp [hv, emptyMPD]
          · intro w hw
            simp [stepMPDAttr, hw, emptyMPD]
        · refine foldAttrs_seg stepMPDAttr _ _ _
              (⟨eMPD, XNS, none, none, none, none, none, none, none, none, [], XSIv, none, XSLv, IDv, none⟩ : MPD) _ ?_ ?_
          · refine foldOpt stepMPDAttr aId IDv _ _ ?_ ?_
            · intro hv
              simp [hv, emptyMPD]
            · intro w hw
              simp [stepMPDAttr, hw, emptyMPD]
          · refine foldAttrs_seg stepMPDAttr _ _ _
                (⟨eMPD, XNS, Tyv, none, none, none, none, none, none, none, [], XSIv, none, XSLv, IDv, none⟩ : MPD) _ ?_ ?_
            · refine foldOpt stepMPDAttr aType Tyv _ _ ?_ ?_
              · intro hv
                simp [hv, emptyMPD]
              · intro w hw
                simp [stepMPDAttr, hw, emptyMPD]
            · refine foldAttrs_seg stepMPDAttr _ _ _
                  (⟨eMPD, XNS, Tyv, none, none, none, none, none, none, PTv, [], XSIv, none, XSLv, IDv, none⟩ : MPD) _ ?_ ?_
              · refine foldOpt stepMPDAttr aPublishTime PTv _ _ ?_ ?_
                · intro hv
                  simp [hv, emptyMPD]
                · intro w hw
                  simp [stepMPDAttr, hw, emptyMPD]
              · refine foldAttrs_seg stepMPDAttr _ _ _
                    (⟨eMPD, XNS, Tyv, MUP, none, none, none, none, none, PTv, [], XSIv, none, XSLv, IDv, none⟩ : MPD) _ ?_ ?_
                · refine foldOpt stepMPDAttr aMinimumUpdatePeriod MUP _ _ ?_ ?_
                  · intro hv
                    simp [hv, emptyMPD]
                  · intro w hw
                    simp [stepMPDAttr, hw, emptyMPD]
                · refine foldAttrs_seg stepMPDAttr _ _ _
                      (⟨eMPD, XNS, Tyv, MUP, AST, none, none, none, none, PTv, [], XSIv, none, XSLv, IDv, none⟩ : MPD) _ ?_ ?_
                  · refine foldOpt stepMPDAttr aAvailabilityStartTime AST _ _ ?_ ?_
                    · intro hv
                      simp [hv, emptyMPD]
                    · intro w hw
                      simp [stepMPDAttr, hw, emptyMPD]
                  · refine foldAttrs_seg stepMPDAttr _ _ _
                        (⟨eMPD, XNS, Tyv, MUP, AST, MPDu, none, none, none, PTv, [], XSIv, none, XSLv, IDv, none⟩ : MPD) _ ?_ ?_
                    · refine foldOpt stepMPDAttr aMediaPresentationDuration MPDu _ _ ?_ ?_
                      · intro hv
                        simp [hv, emptyMPD]
                      · intro w hw
                        simp [stepMPDAttr, hw, emptyMPD]
                    · refine foldAttrs_seg stepMPDAttr _ _ _
                          (⟨eMPD, XNS, Tyv, MUP, AST, MPDu, MBT, none, none, PTv, [], XSIv, none, XSLv, IDv, none⟩ : MPD) _ ?_ ?_
                      · refine foldOpt stepMPDAttr aMinBufferTime MBT _ _ ?_ ?_
                        · intro hv
                          simp [hv, emptyMPD]
                        · intro w hw
                          simp [stepMPDAttr, hw, emptyMPD]
                      · refine foldAttrs_seg stepMPDAttr _ _ _
                            (⟨eMPD, XNS, Tyv, MUP, AST, MPDu, MBT, SPD, none, PTv, [], XSIv, none, XSLv, IDv, none⟩ : MPD) _ ?_ ?_
                        · refine foldOpt stepMPDAttr aSuggestedPresentationDelay SPD _ _ ?_ ?_
                          · intro hv
                            simp [hv, emptyMPD]
                          · intro w hw
                            simp [stepMPDAttr, hw, emptyMPD]
                        · refine foldAttrs_seg stepMPDAttr _ _ _
                              (⟨eMPD, XNS, Tyv, MUP, AST, MPDu, MBT, SPD, TSBD, PTv, [], XSIv, none, XSLv, IDv, none⟩ : MPD) _ ?_ ?_
                          · refine foldOpt stepMPDAttr aTimeShiftBufferDepth TSBD _ _ ?_ ?_
                            · intro hv
                              simp [hv, emptyMPD]
                            · intro w hw
                              simp [stepMPDAttr, hw, emptyMPD]
                          · refine foldAttrs_seg stepMPDAttr _ _ _
                                (⟨eMPD, XNS, Tyv, MUP, AST, MPDu, MBT, SPD, TSBD, PTv, Prv, XSIv, none, XSLv, IDv, none⟩ : MPD) _ ?_ ?_
                            · refine foldStr stepMPDAttr aProfiles Prv _ _ ?_
                              simp [stepMPDAttr, emptyMPD]
                            · refine foldOpt stepMPDAttr aXmlnsScte35 SCv _ _ ?_ ?_
                              · intro hv
                                simp [hv, emptyMPD]
                              · intro w hw
                                simp [stepMPDAttr, hw, emptyMPD]
  unfold decodeT MPD.Decode encodeTree modifyXMLStuct mpdMarshal.toElem
  simp only [XmlElem.name, XmlElem.attrs, XmlElem.children, localName_eMPD, if_pos]
  rw [hattrs]
  have hkid : stepMPDKid (⟨eMPD, XNS, Tyv, MUP, AST, MPDu, MBT, SPD, TSBD, PTv, Prv, XSIv, SCv, XSLv, IDv, none⟩ : MPD)
      (PeriodMarshal.toElem (modifyPeriodM (some p))) =
      ((⟨eMPD, XNS, Tyv, MUP, AST, MPDu, MBT, SPD, TSBD, PTv, Prv, XSIv, SCv, XSLv, IDv, some p⟩ : MPD), none) := by
    have hname : XmlElem.name (PeriodMarshal.toElem (modifyPeriodM (some p)))
        = ePeriod := rfl
    have hd := decPeriod_rt p hP
    simp [stepMPDKid, hname, hd]
  show (match foldKids stepMPDKid [PeriodMarshal.toElem (modifyPeriodM (some p))]
      (⟨eMPD, XNS, Tyv, MUP, AST, MPDu, MBT, SPD, TSBD, PTv, Prv, XSIv, SCv, XSLv, IDv, none⟩ : MPD) with
    | (m, none) => Except.ok m
    | (_, some e) => Except.error e) = .ok (⟨eMPD, XNS, Tyv, MUP, AST, MPDu, MBT, SPD, TSBD, PTv, Prv, XSIv, SCv, XSLv, IDv, some p⟩ : MPD)
  rw [foldKids_cons_ok stepMPDKid _ _ _ _ hkid]
  rfl

/-! Decode side: a decode (from any tree) only ever stores numeric values
it parsed, so the resulting document satisfies the invariants.  The fold
invariants are stated on the first component so they hold on the error
path as well (the receiver keeps the updates made before the error). -/

theorem foldAttrs_inv {σ : Type} (P : σ → Prop)
    (step : σ → XAttr → Except ParseError σ)
    (hstep : ∀ s a t, step s a = .ok t → P s → P t) :
    ∀ (xs : List XAttr) (s : σ), P s → P (foldAttrs step xs s).1 := by
  intro xs
  induction xs with
  | nil => intro s hs; exact hs
  | cons a rest ih =>
    intro s hs
    cases hst : step s a with
    | ok t =>
      rw [foldAttrs_cons_ok step a rest s t hst]
      exact ih t (hstep s a t hst hs)
    | error e =>
      rw [foldAttrs_cons_err step a rest s e hst]
      exact hs

theorem foldKids_inv {σ : Type} (P : σ → Prop) (Q : XmlElem → Prop)
    (step : σ → XmlElem → σ × Option ParseError)
    (hstep : ∀ s c, Q c → P s → P (step s c).1) :
    ∀ (cs : List XmlElem) (s : σ), (∀ c ∈ cs, Q c) → P s →
      P (foldKids step cs s).1 := by
  intro cs
  induction cs with
  | nil => intro s _ hs; exact hs
  | cons c rest ih =>
    intro s hq hs
    have hc := hstep s c (hq c (List.mem_cons_self c rest)) hs
    rcases hst : step s c with ⟨t, e⟩
    rw [hst] at hc
    cases e with
    | none =>
      rw [foldKids_cons_ok step c rest s t hst]
      exact ih t (fun x hx => hq x (List.mem_cons_of_mem c hx)) hc
    | some err =>
      rw [foldKids_cons_err step c rest s t err hst]
      exact hc

theorem sokEmpty : SOK emptySegS := by
  refine ⟨optU64_none, ?_, optI64_none⟩
  show 0 < twoP64
  unfold twoP64
  omega

theorem stokEmpty : STOK emptySegmentTemplate :=
  ⟨optU64_none, optU64_none, optU64_none,
    fun s hs => absurd hs (List.not_mem_nil s)⟩

theorem descOKEmpty : DescOK emptyDescriptor :=
  fun p hp => Option.noConfusion hp

theorem reprOKEmpty : ReprOK emptyRepresentation :=
  ⟨optU64_none, optU64_none, optU64_none,
    fun dd hdd => absurd hdd (List.not_mem_nil dd),
    fun st hst => Option.noConfusion hst⟩

theorem asOKEmpty : ASOK emptyAdaptationSet :=
  ⟨condOK_zero, condOK_zero, optU64_none, optU64_none,
    fun r hr => absurd hr (List.not_mem_nil r)⟩

theorem periodOKEmpty : PeriodOK emptyPeriod :=
  fun s hs => absurd hs (List.not_mem_nil s)

theorem foldPssh_ok : ∀ (xs : List XAttr) (p : Pssh),
    ∃ q, foldAttrs stepPsshAttr xs p = (q, none) := by
  intro xs
  induction xs with
  | nil => intro p; exact ⟨p, rfl⟩
  | cons a rest ih =>
    intro p
    have hok : ∃ t, stepPsshAttr p a = .ok t := by
      unfold stepPsshAttr
      cases keyOfA (localName a.name) <;> exact ⟨_, rfl⟩
    obtain ⟨t, ht⟩ := hok
    rw [foldAttrs_cons_ok stepPsshAttr a rest p t ht]
    exact ih t

theorem decPssh_isSome (t : XmlElem) (p : Pssh) : PsshOK (decPssh t p).1 := by
  unfold decPssh
  obtain ⟨q, hq⟩ := foldPssh_ok t.attrs p
  rw [hq]
  rfl

theorem stepSAttr_pres {s t : SegmentTimelineS} {a : XAttr}
    (h : stepSAttr s a = .ok t) (hs : SOK s) : SOK t := by
  obtain ⟨h1, h2, h3⟩ := hs
  unfold stepSAttr at h
  split at h
  · split at h
    · rename_i v hv
      injection h with h
      subst h
      refine ⟨?_, h2, h3⟩
      intro k hk
      cases (show some v = some k from hk)
      exact parseUint64_lt hv
    · exact Except.noConfusion h
  · split at h
    · rename_i v hv
      injection h with h
      subst h
      exact ⟨h1, parseUint64_lt hv, h3⟩
    · exact Except.noConfusion h
  · split at h
    · rename_i v hv
      injection h with h
      subst h
      refine ⟨h1, h2, ?_⟩
      intro k hk
      cases (show some v = some k from hk)
      exact parseInt64_range hv
    · exact Except.noConfusion h
  · injection h with h
    subst h
    exact ⟨h1, h2, h3⟩

theorem stepSTAttr_pres {st t : SegmentTemplate} {a : XAttr}
    (h : stepSTAttr st a = .ok t) (hs : STOK st) : STOK t := by
  obtain ⟨h1, h2, h3, h4⟩ := hs
  unfold stepSTAttr at h
  split at h
  · split at h
    · rename_i v hv
      injection h with h
      subst h
      refine ⟨?_, h2, h3, h4⟩
      intro k hk
      cases (show some v = some k from hk)
      exact parseUint64_lt hv
    · exact Except.noConfusion h
  · injection h with h
    subst h
    exact ⟨h1, h2, h3, h4⟩
  · injection h with h
    subst h
    exact ⟨h1, h2, h3, h4⟩
  · split at h
    · rename_i v hv
      injection h with h
      subst h
      refine ⟨h1, ?_, h3, h4⟩
      intro k hk
      cases (show some v = some k from hk)
      exact parseUint64_lt hv
    · exact Except.noConfusion h
  · split at h
    · rename_i v hv
      injection h with h
      subst h
      refine ⟨h1, h2, ?_, h4⟩
      intro k hk
      cases (show some v = some k from hk)
      exact parseUint64_lt hv
    · exact Except.noConfusion h
  · injection h with h
    subst h
    exact ⟨h1, h2, h3, h4⟩

theorem stepDescAttr_pres {dd t : Descriptor} {a : XAttr}
    (h : stepDescAttr dd a = .ok t) (hs : DescOK dd) : DescOK t := by
  unfold stepDescAttr at h
  split at h <;> (injection h with h; subst h; exact hs)

theorem stepReprAttr_pres {r t : Representation} {a : XAttr}
    (h : stepReprAttr r a = .ok t) (hs : ReprOK r) : ReprOK t := by
  obtain ⟨h1, h2, h3, h4, h5⟩ := hs
  unfold stepReprAttr at h
  split at h
  · injection h with h
    subst h
    exact ⟨h1, h2, h3, h4, h5⟩
  · split at h
    · rename_i v hv
      injection h with h
      subst h
      refine ⟨?_, h2, h3, h4, h5⟩
      intro k hk
      cases (show some v = some k from hk)
      exact parseUint64_lt hv
    · exact Except.noConfusion h
  · split at h
    · rename_i v hv
      injection h with h
      subst h
      refine ⟨h1, ?_, h3, h4, h5⟩
      intro k hk
      cases (show some v = some k from hk)
      exact parseUint64_lt hv
    · exact Except.noConfusion h
  · injection h with h
    subst h
    exact ⟨h1, h2, h3, h4, h5⟩
  · injection h with h
    subst h
    exact ⟨h1, h2, h3, h4, h5⟩
  · split at h
    · rename_i v hv
      injection h with h
      subst h
      refine ⟨h1, h2, ?_, h4, h5⟩
      intro k hk
      cases (show some v = some k from hk)
      exact parseUint64_lt hv
    · exact Except.noConfusion h
  · injection h with h
    subst h
    exact ⟨h1, h2, h3, h4, h5⟩
  · injection h with h
    subst h
    exact ⟨h1, h2, h3, h4, h5⟩
  · injection h with h
    subst h
    exact ⟨h1, h2, h3, h4, h5⟩

theorem stepPeriodAttr_pres {p t : Period} {a : XAttr}
    (h : stepPeriodAttr p a = .ok t) (hs : PeriodOK p) : PeriodOK t := by
  unfold stepPeriodAttr at h
  split at h <;> (injection h with h; subst h; exact hs)

theorem decS_estab (c : XmlElem) {s : SegmentTimelineS} (hs : SOK s) :
    SOK (decS c s).1 := by
  unfold decS
  exact foldAttrs_inv SOK stepSAttr (fun s a t h hp => stepSAttr_pres h hp)
    c.attrs s hs

theorem stepTimelineKid_pres {st : SegmentTemplate} {c : XmlElem}
    (hs : STOK st) : STOK (stepTimelineKid st c).1 := by
  obtain ⟨h1, h2, h3, h4⟩ := hs
  unfold stepTimelineKid
  split
  · rcases hd : decS c emptySegS with ⟨sv, e⟩
    refine ⟨h1, h2, h3, ?_⟩
    intro x hx
    rcases List.mem_append.mp hx with hx | hx
    · exact h4 x hx
    · rcases List.mem_singleton.mp hx with rfl
      have hh := decS_estab c sokEmpty
      rw [hd] at hh
      exact hh
  · exact ⟨h1, h2, h3, h4⟩

theorem stepSTKid_pres {st : SegmentTemplate} {c : XmlElem}
    (hs : STOK st) : STOK (stepSTKid st c).1 := by
  unfold stepSTKid
  split
  · exact foldKids_inv STOK (fun _ => True) stepTimelineKid
      (fun s x _ hp => stepTimelineKid_pres hp) c.children st
      (fun _ _ => trivial) hs
  · exact hs

theorem decST_estab (c : XmlElem) {st : SegmentTemplate} (hs : STOK st) :
    STOK (decSegmentTemplate c st).1 := by
  unfold decSegmentTemplate
  rcases hfa : foldAttrs stepSTAttr c.attrs st with ⟨st1, e1⟩
  have h1 : STOK st1 := by
    have hh := foldAttrs_inv STOK stepSTAttr
      (fun s a t h hp => stepSTAttr_pres h hp) c.attrs st hs
    rw [hfa] at hh
    exact hh
  cases e1 with
  | none =>
    exact foldKids_inv STOK (fun _ => True) stepSTKid
      (fun s x _ hp => stepSTKid_pres hp) c.children st1
      (fun _ _ => trivial) h1
  | some e => exact h1

theorem stepDescKid_pres {dd : Descriptor} {c : XmlElem}
    (hs : DescOK dd) : DescOK (stepDescKid dd c).1 := by
  unfold stepDescKid
  split
  · rcases hd : decPssh c (dd.Pssh.getD emptyPssh) with ⟨q, e⟩
    intro p hp
    cases (show some q = some p from hp)
    have hh := decPssh_isSome c (dd.Pssh.getD emptyPssh)
    rw [hd] at hh
    exact hh
  · exact hs

theorem decDesc_estab (c : XmlElem) {dd : Descriptor} (hs : DescOK dd) :
    DescOK (decDescriptor c dd).1 := by
  unfold decDescriptor
  rcases hfa : foldAttrs stepDescAttr c.attrs dd with ⟨d1, e1⟩
  have h1 : DescOK d1 := by
    have hh := foldAttrs_inv DescOK stepDescAttr
      (fun s a t h hp => stepDescAttr_pres h hp) c.attrs dd hs
    rw [hfa] at hh
    exact hh
  cases e1 with
  | none =>
    exact foldKids_inv DescOK (fun _ => True) stepDescKid
      (fun s x _ hp => stepDescKid_pres hp) c.children d1
      (fun _ _ => trivial) h1
  | some e => exact h1

theorem stepReprKid_pres {r : Representation} {c : XmlElem}
    (hs : ReprOK r) : ReprOK (stepReprKid r c).1 := by
  obtain ⟨h1, h2, h3, h4, h5⟩ := hs
  unfold stepReprKid
  split
  · rcases hd : decDescriptor c emptyDescriptor with ⟨q, e⟩
    refine ⟨h1, h2, h3, ?_, h5⟩
    intro x hx
    rcases List.mem_append.mp hx with hx | hx
    · exact h4 x hx
    · rcases List.mem_singleton.mp hx with rfl
      have hh := decDesc_estab c descOKEmpty
      rw [hd] at hh
      exact hh
  · rcases hd : decSegmentTemplate c (r.SegmentTemplate.getD emptySegmentTemplate)
      with ⟨q, e⟩
    refine ⟨h1, h2, h3, h4, ?_⟩
    intro st hst
    cases (show some q = some st from hst)
    have hst0 : STOK (r.SegmentTemplate.getD emptySegmentTemplate) := by
      rcases hrs : r.SegmentTemplate with _ | st0
      · exact stokEmpty
      · exact h5 st0 hrs
    have hh := decST_estab c hst0
    rw [hd] at hh
    exact hh
  · exact ⟨h1, h2, h3, h4, h5⟩

theorem decRepr_estab (c : XmlElem) {r : Representation} (hs : ReprOK r) :
    ReprOK (decRepresentation c r).1 := by
  unfold decRepresentation
  rcases hfa : foldAttrs stepReprAttr c.attrs r with ⟨r1, e1⟩
  have h1 : ReprOK r1 := by
    have hh := foldAttrs_inv ReprOK stepReprAttr
      (fun s a t h hp => stepReprAttr_pres h hp) c.attrs r hs
    rw [hfa] at hh
    exact hh
  cases e1 with
  | none =>
    exact foldKids_inv ReprOK (fun _ => True) stepReprKid
      (fun s x _ hp => stepReprKid_pres hp) c.children r1
      (fun _ _ => trivial) h1
  | some e => exact h1

theorem condOK_cast {c : ConditionalUint} (hz : c = ⟨none, none⟩) : CondOK c := by
  rw [hz]
  exact condOK_zero

theorem containsB_mem {x : List Char} {xs : List (List Char)} (h : x ∈ xs) :
    xs.contains x = true := by
  induction xs with
  | nil => cases h
  | cons y ys ih =>
    rw [List.contains_cons]
    rcases List.mem_cons.mp h with rfl | h2
    · simp
    · rw [ih h2]
      simp

theorem nodupB_consD {y : List Char} {ys : List (List Char)}
    (h : nodupB (y :: ys) = true) :
    (∀ x ∈ ys, x ≠ y) ∧ nodupB ys = true := by
  unfold nodupB at h
  rw [Bool.and_eq_true] at h
  obtain ⟨h1, h2⟩ := h
  refine ⟨?_, h2⟩
  intro x hx heq
  subst heq
  have hc := containsB_mem hx
  rw [hc] at h1
  exact Bool.noConfusion h1

theorem keyA_inj_segA {n : List Char} (h : keyOfA n = AKey.segmentAlignmentK) :
    n = aSegmentAlignment := by
  unfold keyOfA at h
  by_cases hc0 : n = aXmlns
  · rw [if_pos hc0] at h
    exact absurd h (by decide)
  · rw [if_neg hc0] at h
    by_cases hc1 : n = aType
    · rw [if_pos hc1] at h
      exact absurd h (by decide)
    · rw [if_neg hc1] at h
      by_cases hc2 : n = aMinimumUpdatePeriod
      · rw [if_pos hc2] at h
        exact absurd h (by decide)
      · rw [if_neg hc2] at h
        by_cases hc3 : n = aAvailabilityStartTime
        · rw [if_pos hc3] at h
          exact absurd h (by decide)
        · rw [if_neg hc3] at h
          by_cases hc4 : n = aMediaPresentationDuration
          · rw [if_pos hc4] at h
            exact absurd h (by decide)
          · rw [if_neg hc4] at h
            by_cases hc5 : n = aMinBufferTime
            · rw [if_pos hc5] at h
              exact absurd h (by decide)
            · rw [if_neg hc5] at h
              by_cases hc6 : n = aSuggestedPresentationDelay
              · rw [if_pos hc6] at h
                exact absurd h (by decide)
              · rw [if_neg hc6] at h
                by_cases hc7 : n = aTimeShiftBufferDepth
                · rw [if_pos hc7] at h
                  exact absurd h (by decide)
                · rw [if_neg hc7] at h
                  by_cases hc8 : n = aPublishTime
                  · rw [if_pos hc8] at h
                    exact absurd h (by decide)
                  · rw [if_neg hc8] at h
                    by_cases hc9 : n = aProfiles
                    · rw [if_pos hc9] at h
                      exact absurd h (by decide)
                    · rw [if_neg hc9] at h
                      by_cases hc10 : n = aXsi
                      · rw [if_pos hc10] at h
                        exact absurd h (by decide)
                      · rw [if_neg hc10] at h
                        by_cases hc11 : n = aScte35
                        · rw [if_pos hc11] at h
                          exact absurd h (by decide)
                        · rw [if_neg hc11] at h
                          by_cases hc12 : n = aSchemaLocation
                          · rw [if_pos hc12] at h
                            exact absurd h (by decide)
                          · rw [if_neg hc12] at h
                            by_cases hc13 : n = aId
                            · rw [if_pos hc13] at h
                              exact absurd h (by decide)
                            · rw [if_neg hc13] at h
                              by_cases hc14 : n = aStart
                              · rw [if_pos hc14] at h
                                exact absurd h (by decide)
                              · rw [if_neg hc14] at h
                                by_cases hc15 : n = aDuration
                                · rw [if_pos hc15] at h
                                  exact absurd h (by decide)
                                · rw [if_neg hc15] at h
                                  by_cases hc16 : n = aMimeType
                                  · rw [if_pos hc16] at h
                                    exact absurd h (by decide)
                                  · rw [if_neg hc16] at h
                                    by_cases hc17 : n = aSegmentAlignment
                                    · exact hc17
                                    · rw [if_neg hc17] at h
                                      by_cases hc18 : n = aStartWithSAP
                                      · rw [if_pos hc18] at h
                                        exact absurd h (by decide)
                                      · rw [if_neg hc18] at h
                                        by_cases hc19 : n = aBitstreamSwitching
                                        · rw [if_pos hc19] at h
                                          exact absurd h (by decide)
                                        · rw [if_neg hc19] at h
                                          by_cases hc20 : n = aSubsegmentAlignment
                                          · rw [if_pos hc20] at h
                                            exact absurd h (by decide)
                                          · rw [if_neg hc20] at h
                                            by_cases hc21 : n = aSubsegmentStartsWithSAP
                                            · rw [if_pos hc21] at h
                                              exact absurd h (by decide)
                                            · rw [if_neg hc21] at h
                                              by_cases hc22 : n = aLang
                                              · rw [if_pos hc22] at h
                                                exact absurd h (by decide)
                                              · rw [if_neg hc22] at h
                                                by_cases hc23 : n = aCodecs
                                                · rw [if_pos hc23] at h
                                                  exact absurd h (by decide)
                                                · rw [if_neg hc23] at h
                                                  by_cases hc24 : n = aWidth
                                                  · rw [if_pos hc24] at h
                                                    exact absurd h (by decide)
                                                  · rw [if_neg hc24] at h
                                                    by_cases hc25 : n = aHeight
                                                    · rw [if_pos hc25] at h
                                                      exact absurd h (by decide)
                                                    · rw [if_neg hc25] at h
                                                      by_cases hc26 : n = aSar
                                                      · rw [if_pos hc26] at h
                                                        exact absurd h (by decide)
                                                      · rw [if_neg hc26] at h
                                                        by_cases hc27 : n = aFrameRate
                                                        · rw [if_pos hc27] at h
                                                          exact absurd h (by decide)
                                                        · rw [if_neg hc27] at h
                                                          by_cases hc28 : n = aBandwidth
                                                          · rw [if_pos hc28] at h
                                                            exact absurd h (by decide)
                                                          · rw [if_neg hc28] at h
                                                            by_cases hc29 : n = aAudioSamplingRate
                                                            · rw [if_pos hc29] at h
                                                              exact absurd h (by decide)
                                                            · rw [if_neg hc29] at h
                                                              by_cases hc30 : n = aSchemeIdUri
                                                              · rw [if_pos hc30] at h
                                                                exact absurd h (by decide)
                                                              · rw [if_neg hc30] at h
                                                                by_cases hc31 : n = aValue
                                                                · rw [if_pos hc31] at h
                                                                  exact absurd h (by decide)
                                                                · rw [if_neg hc31] at h
                                                                  by_cases hc32 : n = aDefaultKID
                                                                  · rw [if_pos hc32] at h
                                                                    exact absurd h (by decide)
                                                                  · rw [if_neg hc32] at h
                                                                    by_cases hc33 : n = aCenc
                                                                    · rw [if_pos hc33] at h
                                                                      exact absurd h (by decide)
                                                                    · rw [if_neg hc33] at h
                                                                      by_cases hc34 : n = aTimescale
                                                                      · rw [if_pos hc34] at h
                                                                        exact absurd h (by decide)
                                                                      · rw [if_neg hc34] at h
                                                                        by_cases hc35 : n = aMedia
                                                                        · rw [if_pos hc35] at h
                                                                          exact absurd h (by decide)
                                                                        · rw [if_neg hc35] at h
                                                                          by_cases hc36 : n = aInitialization
                                                                          · rw [if_pos hc36] at h
                                                                            exact absurd h (by decide)
                                                                          · rw [if_neg hc36] at h
                                                                            by_cases hc37 : n = aStartNumber
                                                                            · rw [if_pos hc37] at h
                                                                              exact absurd h (by decide)
                                                                            · rw [if_neg hc37] at h
                                                                              by_cases hc38 : n = aPresentationTimeOffset
                                                                              · rw [if_pos hc38] at h
                                                                                exact absurd h (by decide)
                                                                              · rw [if_neg hc38] at h
                                                                                by_cases hc39 : n = aT
                                                                                · rw [if_pos hc39] at h
                                                                                  exact absurd h (by decide)
                                                                                · rw [if_neg hc39] at h
                                                                                  by_cases hc40 : n = aD
                                                                                  · rw [if_pos hc40] at h
                                                                                    exact absurd h (by decide)
                                                                                  · rw [if_neg hc40] at h
                                                                                    by_cases hc41 : n = aR
                                                                                    · rw [if_pos hc41] at h
                                                                                      exact absurd h (by decide)
                                                                                    · rw [if_neg hc41] at h
                                                                                      exact absurd h (by decide)

theorem keyA_inj_ssegA {n : List Char} (h : keyOfA n = AKey.subsegmentAlignmentK) :
    n = aSubsegmentAlignment := by
  unfold keyOfA at h
  by_cases hc0 : n = aXmlns
  · rw [if_pos hc0] at h
    exact absurd h (by decide)
  · rw [if_neg hc0] at h
    by_cases hc1 : n = aType
    · rw [if_pos hc1] at h
      exact absurd h (by decide)
    · rw [if_neg hc1] at h
      by_cases hc2 : n = aMinimumUpdatePeriod
      · rw [if_pos hc2] at h
        exact absurd h (by decide)
      · rw [if_neg hc2] at h
        by_cases hc3 : n = aAvailabilityStartTime
        · rw [if_pos hc3] at h
          exact absurd h (by decide)
        · rw [if_neg hc3] at h
          by_cases hc4 : n = aMediaPresentationDuration
          · rw [if_pos hc4] at h
            exact absurd h (by decide)
          · rw [if_neg hc4] at h
            by_cases hc5 : n = aMinBufferTime
            · rw [if_pos hc5] at h
              exact absurd h (by decide)
            · rw [if_neg hc5] at h
              by_cases hc6 : n = aSuggestedPresentationDelay
              · rw [if_pos hc6] at h
                exact absurd h (by decide)
              · rw [if_neg hc6] at h
                by_cases hc7 : n = aTimeShiftBufferDepth
                · rw [if_pos hc7] at h
                  exact absurd h (by decide)
                · rw [if_neg hc7] at h
                  by_cases hc8 : n = aPublishTime
                  · rw [if_pos hc8] at h
                    exact absurd h (by decide)
                  · rw [if_neg hc8] at h
                    by_cases hc9 : n = aProfiles
                    · rw [if_pos hc9] at h
                      exact absurd h (by decide)
                    · rw [if_neg hc9] at h
                      by_cases hc10 : n = aXsi
                      · rw [if_pos hc10] at h
                        exact absurd h (by decide)
                      · rw [if_neg hc10] at h
                        by_cases hc11 : n = aScte35
                        · rw [if_pos hc11] at h
                          exact absurd h (by decide)
                        · rw [if_neg hc11] at h
                          by_cases hc12 : n = aSchemaLocation
                          · rw [if_pos hc12] at h
                            exact absurd h (by decide)
                          · rw [if_neg hc12] at h
                            by_cases hc13 : n = aId
                            · rw [if_pos hc13] at h
                              exact absurd h (by decide)
                            · rw [if_neg hc13] at h
                              by_cases hc14 : n = aStart
                              · rw [if_pos hc14] at h
                                exact absurd h (by decide)
                              · rw [if_neg hc14] at h
                                by_cases hc15 : n = aDuration
                                · rw [if_pos hc15] at h
                                  exact absurd h (by decide)
                                · rw [if_neg hc15] at h
                                  by_cases hc16 : n = aMimeType
                                  · rw [if_pos hc16] at h
                                    exact absurd h (by decide)
                                  · rw [if_neg hc16] at h
                                    by_cases hc17 : n = aSegmentAlignment
                                    · rw [if_pos hc17] at h
                                      exact absurd h (by decide)
                                    · rw [if_neg hc17] at h
                                      by_cases hc18 : n = aStartWithSAP
                                      · rw [if_pos hc18] at h
                                        exact absurd h (by decide)
                                      · rw [if_neg hc18] at h
                                        by_cases hc19 : n = aBitstreamSwitching
                                        · rw [if_pos hc19] at h
                                          exact absurd h (by decide)
                                        · rw [if_neg hc19] at h
                                          by_cases hc20 : n = aSubsegmentAlignment
                                          · exact hc20
                                          · rw [if_neg hc20] at h
                                            by_cases hc21 : n = aSubsegmentStartsWithSAP
                                            · rw [if_pos hc21] at h
                                              exact absurd h (by decide)
                                            · rw [if_neg hc21] at h
                                              by_cases hc22 : n = aLang
                                              · rw [if_pos hc22] at h
                                                exact absurd h (by decide)
                                              · rw [if_neg hc22] at h
                                                by_cases hc23 : n = aCodecs
                                                · rw [if_pos hc23] at h
                                                  exact absurd h (by decide)
                                                · rw [if_neg hc23] at h
                                                  by_cases hc24 : n = aWidth
                                                  · rw [if_pos hc24] at h
                                                    exact absurd h (by decide)
                                                  · rw [if_neg hc24] at h
                                                    by_cases hc25 : n = aHeight
                                                    · rw [if_pos hc25] at h
                                                      exact absurd h (by decide)
                                                    · rw [if_neg hc25] at h
                                                      by_cases hc26 : n = aSar
                                                      · rw [if_pos hc26] at h
                                                        exact absurd h (by decide)
                                                      · rw [if_neg hc26] at h
                                                        by_cases hc27 : n = aFrameRate
                                                        · rw [if_pos hc27] at h
                                                          exact absurd h (by decide)
                                                        · rw [if_neg hc27] at h
                                                          by_cases hc28 : n = aBandwidth
                                                          · rw [if_pos hc28] at h
                                                            exact absurd h (by decide)
                                                          · rw [if_neg hc28] at h
                                                            by_cases hc29 : n = aAudioSamplingRate
                                                            · rw [if_pos hc29] at h
                                                              exact absurd h (by decide)
                                                            · rw [if_neg hc29] at h
                                                              by_cases hc30 : n = aSchemeIdUri
                                                              · rw [if_pos hc30] at h
                                                                exact absurd h (by decide)
                                                              · rw [if_neg hc30] at h
                                                                by_cases hc31 : n = aValue
                                                                · rw [if_pos hc31] at h
                                                                  exact absurd h (by decide)
                                                                · rw [if_neg hc31] at h
                                                                  by_cases hc32 : n = aDefaultKID
                                                                  · rw [if_pos hc32] at h
                                                                    exact absurd h (by decide)
                                                                  · rw [if_neg hc32] at h
                                                                    by_cases hc33 : n = aCenc
                                                                    · rw [if_pos hc33] at h
                                                                      exact absurd h (by decide)
                                                                    · rw [if_neg hc33] at h
                                                                      by_cases hc34 : n = aTimescale
                                                                      · rw [if_pos hc34] at h
                                                                        exact absurd h (by decide)
                                                                      · rw [if_neg hc34] at h
                                                                        by_cases hc35 : n = aMedia
                                                                        · rw [if_pos hc35] at h
                                                                          exact absurd h (by decide)
                                                                        · rw [if_neg hc35] at h
                                                                          by_cases hc36 : n = aInitialization
                                                                          · rw [if_pos hc36] at h
                                                                            exact absurd h (by decide)
                                                                          · rw [if_neg hc36] at h
                                                                            by_cases hc37 : n = aStartNumber
                                                                            · rw [if_pos hc37] at h
                                                                              exact absurd h (by decide)
                                                                            · rw [if_neg hc37] at h
                                                                              by_cases hc38 : n = aPresentationTimeOffset
                                                                              · rw [if_pos hc38] at h
                                                                                exact absurd h (by decide)
                                                                              · rw [if_neg hc38] at h
                                                                                by_cases hc39 : n = aT
                                                                                · rw [if_pos hc39] at h
                                                                                  exact absurd h (by decide)
                                                                                · rw [if_neg hc39] at h
                                                                                  by_cases hc40 : n = aD
                                                                                  · rw [if_pos hc40] at h
                                                                                    exact absurd h (by decide)
                                                                                  · rw [if_neg hc40] at h
                                                                                    by_cases hc41 : n = aR
                                                                                    · rw [if_pos hc41] at h
                                                                                      exact absurd h (by decide)
                                                                                    · rw [if_neg hc41] at h
                                                                                      exact absurd h (by decide)

theorem stepASAttr_spec {s t : AdaptationSet} {a : XAttr}
    (h : stepASAttr s a = .ok t) :
    t.Representations = s.Representations ∧
    (OptU64 s.StartWithSAP → OptU64 t.StartWithSAP) ∧
    (OptU64 s.SubsegmentStartsWithSAP → OptU64 t.SubsegmentStartsWithSAP) ∧
    (localName a.name ≠ aSegmentAlignment →
      t.SegmentAlignment = s.SegmentAlignment) ∧
    (s.SegmentAlignment = ⟨none, none⟩ → CondOK t.SegmentAlignment) ∧
    (localName a.name ≠ aSubsegmentAlignment →
      t.SubsegmentAlignment = s.SubsegmentAlignment) ∧
    (s.SubsegmentAlignment = ⟨none, none⟩ → CondOK t.SubsegmentAlignment) := by
  unfold stepASAttr at h
  split at h
  · injection h with h
    subst h
    exact ⟨rfl, id, id, fun _ => rfl, fun hz => condOK_cast hz, fun _ => rfl,
      fun hz => condOK_cast hz⟩
  · rename_i hkey
    split at h
    · rename_i c hc
      injection h with h
      subst h
      unfold ConditionalUint.unmarshalXMLAttr at hc
      split at hc
      · rename_i n hpn
        injection hc with hc
        subst hc
        refine ⟨rfl, id, id, fun hne => absurd (keyA_inj_segA hkey) hne, ?_,
          fun _ => rfl, fun hz => condOK_cast hz⟩
        intro hz
        show CondOK ⟨some n, s.SegmentAlignment.b⟩
        rw [hz]
        refine ⟨Or.inr rfl, ?_⟩
        intro k hk
        cases (show some n = some k from hk)
        exact parseUint64_lt hpn
      · split at hc
        · rename_i v hpv
          injection hc with hc
          subst hc
          refine ⟨rfl, id, id, fun hne => absurd (keyA_inj_segA hkey) hne, ?_,
            fun _ => rfl, fun hz => condOK_cast hz⟩
          intro hz
          show CondOK ⟨s.SegmentAlignment.u, some v⟩
          rw [hz]
          exact ⟨Or.inl rfl, optU64_none⟩
        · exact Except.noConfusion hc
    · exact Except.noConfusion h
  · split at h
    · rename_i v hpv
      injection h with h
      subst h
      refine ⟨rfl, ?_, id, fun _ => rfl, fun hz => condOK_cast hz,
        fun _ => rfl, fun hz => condOK_cast hz⟩
      intro _ k hk
      cases (show some v = some k from hk)
      exact parseUint64_lt hpv
    · exact Except.noConfusion h
  · split at h
    · injection h with h
      subst h
      exact ⟨rfl, id, id, fun _ => rfl, fun hz => condOK_cast hz, fun _ => rfl,
        fun hz => condOK_cast hz⟩
    · exact Except.noConfusion h
  · rename_i hkey
    split at h
    · rename_i c hc
      injection h with h
      subst h
      unfold ConditionalUint.unmarshalXMLAttr at hc
      split at hc
      · rename_i n hpn
        injection hc with hc
        subst hc
        refine ⟨rfl, id, id, fun _ => rfl, fun hz => condOK_cast hz,
          fun hne => absurd (keyA_inj_ssegA hkey) hne, ?_⟩
        intro hz
        show CondOK ⟨some n, s.SubsegmentAlignment.b⟩
        rw [hz]
        refine ⟨Or.inr rfl, ?_⟩
        intro k hk
        cases (show some n = some k from hk)
        exact parseUint64_lt hpn
      · split at hc
        · rename_i v hpv
          injection hc with hc
          subst hc
          refine ⟨rfl, id, id, fun _ => rfl, fun hz => condOK_cast hz,
            fun hne => absurd (keyA_inj_ssegA hkey) hne, ?_⟩
          intro hz
          show CondOK ⟨s.SubsegmentAlignment.u, some v⟩
          rw [hz]
          exact ⟨Or.inl rfl, optU64_none⟩
        · exact Except.noConfusion hc
    · exact Except.noConfusion h
  · split at h
    · rename_i v hpv
      injection h with h
      subst h
      refine ⟨rfl, id, ?_, fun _ => rfl, fun hz => condOK_cast hz,
        fun _ => rfl, fun hz => condOK_cast hz⟩
      intro _ k hk
      cases (show some v = some k from hk)
      exact parseUint64_lt hpv
    · exact Except.noConfusion h
  · injection h with h
    subst h
    exact ⟨rfl, id, id, fun _ => rfl, fun hz => condOK_cast hz, fun _ => rfl,
      fun hz => condOK_cast hz⟩
  · injection h with h
    subst h
    exact ⟨rfl, id, id, fun _ => rfl, fun hz => condOK_cast hz, fun _ => rfl,
      fun hz => condOK_cast hz⟩
  · injection h with h
    subst h
    exact ⟨rfl, id, id, fun _ => rfl, fun hz => condOK_cast hz, fun _ => rfl,
      fun hz => condOK_cast hz⟩

theorem foldASAttrs_estab :
    ∀ (xs : List XAttr) (s : AdaptationSet),
      nodupB (xs.map fun a => localName a.name) = true →
      ASOK s →
      ((∃ a ∈ xs, localName a.name = aSegmentAlignment) →
        s.SegmentAlignment = ⟨none, none⟩) →
      ((∃ a ∈ xs, localName a.name = aSubsegmentAlignment) →
        s.SubsegmentAlignment = ⟨none, none⟩) →
      ASOK (foldAttrs stepASAttr xs s).1 := by
  intro xs
  induction xs with
  | nil =>
    intro s _ hok _ _
    exact hok
  | cons a rest ih =>
    intro s hnd hok hsa hssa
    rw [List.map_cons] at hnd
    obtain ⟨hne, hnd2⟩ := nodupB_consD hnd
    cases hst : stepASAttr s a with
    | error e =>
      rw [foldAttrs_cons_err stepASAttr a rest s e hst]
      exact hok
    | ok t =>
      rw [foldAttrs_cons_ok stepASAttr a rest s t hst]
      obtain ⟨hRe, hSw, hSsw, hSAne, hSAz, hSSAne, hSSAz⟩ := stepASAttr_spec hst
      obtain ⟨k1, k2, k3, k4, k5⟩ := hok
      refine ih t hnd2 ⟨?_, ?_, hSw k3, hSsw k4, ?_⟩ ?_ ?_
      · by_cases hname : localName a.name = aSegmentAlignment
        · exact hSAz (hsa ⟨a, List.mem_cons_self a rest, hname⟩)
        · rw [hSAne hname]
          exact k1
      · by_cases hname : localName a.name = aSubsegmentAlignment
        · exact hSSAz (hssa ⟨a, List.mem_cons_self a rest, hname⟩)
        · rw [hSSAne hname]
          exact k2
      · rw [hRe]
        exact k5
      · rintro ⟨x, hx, hxn⟩
        have hna : localName a.name ≠ aSegmentAlignment := by
          intro hh
          exact hne (localName x.name) (List.mem_map.mpr ⟨x, hx, rfl⟩)
            (by rw [hxn, hh])
        rw [hSAne hna]
        exact hsa ⟨x, List.mem_cons_of_mem a hx, hxn⟩
      · rintro ⟨x, hx, hxn⟩
        have hna : localName a.name ≠ aSubsegmentAlignment := by
          intro hh
          exact hne (localName x.name) (List.mem_map.mpr ⟨x, hx, rfl⟩)
            (by rw [hxn, hh])
        rw [hSSAne hna]
        exact hssa ⟨x, List.mem_cons_of_mem a hx, hxn⟩

theorem stepASKid_pres {s : AdaptationSet} {c : XmlElem} (hs : ASOK s) :
    ASOK (stepASKid s c).1 := by
  obtain ⟨k1, k2, k3, k4, k5⟩ := hs
  unfold stepASKid
  split
  · rcases hd : decRepresentation c emptyRepresentation with ⟨q, e⟩
    refine ⟨k1, k2, k3, k4, ?_⟩
    intro x hx
    rcases List.mem_append.mp hx with hx | hx
    · exact k5 x hx
    · rcases List.mem_singleton.mp hx with rfl
      have hh := decRepr_estab c reprOKEmpty
      rw [hd] at hh
      exact hh
  · exact ⟨k1, k2, k3, k4, k5⟩

theorem decAS_estab (c : XmlElem) (hnd : nodupB (attrLocals c) = true) :
    ASOK (decAdaptationSet c emptyAdaptationSet).1 := by
  unfold decAdaptationSet
  rcases hfa : foldAttrs stepASAttr c.attrs emptyAdaptationSet with ⟨s1, e1⟩
  have h1 : ASOK s1 := by
    have hh := foldASAttrs_estab c.attrs emptyAdaptationSet hnd asOKEmpty
      (fun _ => rfl) (fun _ => rfl)
    rw [hfa] at hh
    exact hh
  cases e1 with
  | none =>
    exact foldKids_inv ASOK (fun _ => True) stepASKid
      (fun s x _ hp => stepASKid_pres hp) c.children s1 (fun _ _ => trivial) h1
  | some e => exact h1

theorem stepPeriodKid_pres {p : Period} {c : XmlElem}
    (hnd : nodupB (attrLocals c) = true) (hs : PeriodOK p) :
    PeriodOK (stepPeriodKid p c).1 := by
  unfold stepPeriodKid
  split
  · rcases hd : decAdaptationSet c emptyAdaptationSet with ⟨q, e⟩
    intro x hx
    rcases List.mem_append.mp hx with hx | hx
    · exact hs x hx
    · rcases List.mem_singleton.mp hx with rfl
      have hh := decAS_estab c hnd
      rw [hd] at hh
      exact hh
  · exact hs

theorem decPeriod_estab (c : XmlElem)
    (hq : ∀ x ∈ XmlElem.children c, nodupB (attrLocals x) = true)
    {p : Period} (hs : PeriodOK p) : PeriodOK (decPeriod c p).1 := by
  unfold decPeriod
  rcases hfa : foldAttrs stepPeriodAttr c.attrs p with ⟨p1, e1⟩
  have h1 : PeriodOK p1 := by
    have hh := foldAttrs_inv PeriodOK stepPeriodAttr
      (fun s a t h hp => stepPeriodAttr_pres h hp) c.attrs p hs
    rw [hfa] at hh
    exact hh
  cases e1 with
  | none =>
    exact foldKids_inv PeriodOK (fun x => nodupB (attrLocals x) = true)
      stepPeriodKid (fun s x hx hp => stepPeriodKid_pres hx hp)
      c.children p1 hq h1
  | some e => exact h1

theorem stepMPDAttr_pres {m t : MPD} {a : XAttr}
    (h : stepMPDAttr m a = .ok t) (hs : MPDOK m) : MPDOK t := by
  obtain ⟨h1, h2⟩ := hs
  unfold stepMPDAttr at h
  split at h <;> (injection h with h; subst h; exact ⟨h1, h2⟩)

theorem stepMPDKid_pres {m : MPD} {c : XmlElem}
    (hq : ∀ x ∈ XmlElem.children c, nodupB (attrLocals x) = true)
    (hs : MPDOK m) : MPDOK (stepMPDKid m c).1 := by
  obtain ⟨h1, h2⟩ := hs
  unfold stepMPDKid
  split
  · rcases hd : decPeriod c (m.Period.getD emptyPeriod) with ⟨q, e⟩
    refine ⟨h1, ?_⟩
    intro q2 hq2
    cases (show some q = some q2 from hq2)
    have hp0 : PeriodOK (m.Period.getD emptyPeriod) := by
      rcases hm : m.Period with _ | p0
      · exact periodOKEmpty
      · exact h2 p0 hm
    have hh := decPeriod_estab c hq hp0
    rw [hd] at hh
    exact hh
  · exact ⟨h1, h2⟩

theorem wfF_nodup {f : Nat} {t : XmlElem} (h : wfF (f + 1) t = true) :
    nodupB (attrLocals t) = true := by
  unfold wfF at h
  rw [Bool.and_eq_true] at h
  exact h.1

theorem wfF_children {f : Nat} {t : XmlElem} (h : wfF (f + 1) t = true) :
    ∀ c ∈ XmlElem.children t, wfF f c = true := by
  unfold wfF at h
  rw [Bool.and_eq_true] at h
  intro c hc
  exact List.all_eq_true.mp h.2 c hc

theorem decodeT_estab {t : XmlElem} {d : MPD} (hwf : wfTree t = true)
    (h : decodeT t = .ok d) : MPDOK d := by
  unfold decodeT at h
  rcases hD : MPD.Decode t emptyMPD with ⟨m, e⟩
  rw [hD] at h
  cases e with
  | some err => exact Except.noConfusion h
  | none =>
    injection h with h
    subst h
    unfold MPD.Decode at hD
    by_cases hn : localName t.name = eMPD
    · rw [if_pos hn] at hD
      rcases hfa : foldAttrs stepMPDAttr t.attrs { emptyMPD with XMLName := eMPD }
        with ⟨m1, e1⟩
      rw [hfa] at hD
      have h1 : MPDOK m1 := by
        have hh := foldAttrs_inv MPDOK stepMPDAttr
          (fun s a t2 h2 hp => stepMPDAttr_pres h2 hp) t.attrs
          { emptyMPD with XMLName := eMPD }
          ⟨rfl, fun q hq => Option.noConfusion hq⟩
        rw [hfa] at hh
        exact hh
      cases e1 with
      | some err =>
        have hD2 : (m1, some err) = (m, none) := hD
        injection hD2 with hd1 hd2
        exact Option.noConfusion hd2
      | none =>
        have hD2 : foldKids stepMPDKid t.children m1 = (m, none) := hD
        have h16 : wfF (15 + 1) t = true := hwf
        have hq : ∀ c ∈ XmlElem.children t,
            ∀ x ∈ XmlElem.children c, nodupB (attrLocals x) = true := by
          intro c hc x hx
          have h15 : wfF (14 + 1) c = true := wfF_children h16 c hc
          have h14 : wfF (13 + 1) x = true := wfF_children h15 x hx
          exact wfF_nodup h14
        have hh := foldKids_inv MPDOK
          (fun c => ∀ x ∈ XmlElem.children c, nodupB (attrLocals x) = true)
          stepMPDKid (fun s c hqc hp => stepMPDKid_pres hqc hp)
          t.children m1 hq h1
        rw [hD2] at hh
        exact hh
    · rw [if_neg hn] at hD
      injection hD with hd1 hd2
      exact Option.noConfusion hd2

theorem stepMPDKid_someP {m : MPD} {c : XmlElem}
    (hs : m.Period.isSome = true) : (stepMPDKid m c).1.Period.isSome = true := by
  unfold stepMPDKid
  split
  · rcases hd : decPeriod c (m.Period.getD emptyPeriod) with ⟨q, e⟩
    rfl
  · exact hs

theorem foldMPDKids_period :
    ∀ (cs : List XmlElem) (m m1 : MPD),
      foldKids stepMPDKid cs m = (m1, none) →
      ((∃ c ∈ cs, localName (XmlElem.name c) = ePeriod) ∨
        m.Period.isSome = true) →
      m1.Period.isSome = true := by
  intro cs
  induction cs with
  | nil =>
    intro m m1 h hyp
    injection h with h1 h2
    subst h1
    rcases hyp with ⟨c, hc, hcn⟩ | hyp
    · exact absurd hc (List.not_mem_nil c)
    · exact hyp
  | cons c rest ih =>
    intro m m1 h hyp
    rcases hst : stepMPDKid m c with ⟨m2, e2⟩
    cases e2 with
    | some err =>
      rw [foldKids_cons_err stepMPDKid c rest m m2 err hst] at h
      injection h with h1 h2
      exact Option.noConfusion h2
    | none =>
      rw [foldKids_cons_ok stepMPDKid c rest m m2 hst] at h
      refine ih m2 m1 h ?_
      rcases hyp with ⟨x, hx, hxn⟩ | hyp
      · rcases List.mem_cons.mp hx with rfl | hx2
        · right
          have hkey : keyOfE (localName (XmlElem.name x)) = EKey.periodE := by
            rw [hxn]
            decide
          unfold stepMPDKid at hst
          rw [hkey] at hst
          have hst2 : (match decPeriod x (m.Period.getD emptyPeriod) with
              | (p, e) => ({ m with Period := some p }, e)) = (m2, none) := hst
          rcases hdp : decPeriod x (m.Period.getD emptyPeriod) with ⟨p2, ep⟩
          rw [hdp] at hst2
          injection hst2 with hs1 hs2
          rw [← hs1]
          rfl
        · left
          exact ⟨x, hx2, hxn⟩
      · right
        have hh := stepMPDKid_someP (c := c) hyp
        rw [hst] at hh
        exact hh

theorem decodeT_period_some {t : XmlElem} {d : MPD}
    (hper : ∃ c ∈ XmlElem.children t, localName (XmlElem.name c) = ePeriod)
    (h : decodeT t = .ok d) : d.Period.isSome = true := by
  unfold decodeT at h
  rcases hD : MPD.Decode t emptyMPD with ⟨m, e⟩
  rw [hD] at h
  cases e with
  | some err => exact Except.noConfusion h
  | none =>
    injection h with h
    subst h
    unfold MPD.Decode at hD
    by_cases hn : localName t.name = eMPD
    · rw [if_pos hn] at hD
      rcases hfa : foldAttrs stepMPDAttr t.attrs { emptyMPD with XMLName := eMPD }
        with ⟨m1, e1⟩
      rw [hfa] at hD
      cases e1 with
      | some err =>
        have hD2 : (m1, some err) = (m, none) := hD
        injection hD2 with hd1 hd2
        exact Option.noConfusion hd2
      | none =>
        have hD2 : foldKids stepMPDKid t.children m1 = (m, none) := hD
        exact foldMPDKids_period t.children m1 m hD2 (Or.inl hper)
    · rw [if_neg hn] at hD
      injection hD with hd1 hd2
      exact Option.noConfusion hd2

/-- C1: for every document model d obtained by a successful Decode of a
well-formed (no duplicate attribute local names, to depth 16),
schema-conformant (at least one Period child under the root, as DASH
requires) input tree, decoding the tree produced by Encode of d yields
exactly d again.  There are no namespace-declaration attributes to ignore
in this embedding: the wire model carries none beyond the document's own
fields. -/
theorem claimC1 (t : XmlElem) (d : MPD) (hwf : wfTree t = true)
    (hper : ∃ c ∈ XmlElem.children t, localName (XmlElem.name c) = ePeriod)
    (hdec : decodeT t = .ok d) :
    decodeT (encodeTree d) = .ok d := by
  have hok := decodeT_estab hwf hdec
  have hsome := decodeT_period_some hper hdec
  rcases hPd : d.Period with _ | p
  · rw [hPd] at hsome
    exact Bool.noConfusion hsome
  · exact encodeTree_rt d hok.1 p hPd (hok.2 p hPd)

def c1tree : XmlElem :=
  .mk eMPD [⟨aProfiles, ("p").data⟩]
    [.mk ePeriod [⟨aId, ("x").data⟩] [] []] []

def c1doc : MPD :=
  { emptyMPD with
      XMLName := eMPD, Profiles := ("p").data,
      Period := some { emptyPeriod with ID := some ("x").data } }

theorem claimC1_witness :
    wfTree c1tree = true ∧
    (∃ c ∈ XmlElem.children c1tree, localName (XmlElem.name c) = ePeriod) ∧
    decodeT c1tree = .ok c1doc ∧
    decodeT (encodeTree c1doc) = .ok c1doc :=
  ⟨by decide, by decide, by decide,
    claimC1 c1tree c1doc (by decide) (by decide) (by decide)⟩

end Mpd
